import Mathlib

/-!
# Applicant service: scoring, validation and request handling

A shallow embedding of the Go packages `internal/util` and `internal/service`.

Conventions of the embedding

* `float64` is `F64`: NaN, the two infinities, and finite values.  A finite value carries its
  exact rational value; `F64.fin` admits every rational, so a statement about all finite values
  covers every binary64 value.  Every arithmetic operation computes the exact result and rounds
  it to binary64 as IEEE 754 prescribes (`F64.round`: round to nearest, ties to even, subnormal
  values down to 2^-1074, overflow to an infinity); each operation is rounded on its own, no two
  are fused (as in the code that the Go compiler generates for amd64).  The sign of zero is not
  represented.  NaN and the infinities follow IEEE 754 and the documented special cases of
  `math.Min`, `math.Max` and `math.Round`.  A constant of the source that binary64 holds exactly
  (0, 0.5, 0.75, 1.0, 2.0, 3.5, 100) is written `F64.fin`, any other constant (0.2, 0.3, 0.4,
  0.7) is written `F64.lit`, its nearest binary64 value.
* `int32` and `int64` values are `Int`; a conversion that can wrap is written with `toInt32`,
  and a statement that needs the range of an `int32` argument has it as a premise.
* `string` is `String` (request strings are valid UTF-8); `len` is the length in bytes.
* Functions of the Go standard library that the code calls but that are not part of the
  repository are either written out from their documentation (`TrimSpace`, `unicode.IsSpace`,
  `math.Min`, `math.Max`, `math.Round`) or taken as parameters (`lowerCase`, the Unicode table
  behind `unicode.ToLower` outside ASCII, and `parseAddress`, whether `mail.ParseAddress`
  succeeds).
* Logging calls have no effect on results and are left out.
-/

namespace Applicants

/-! ## float64 -/

/-- Values of Go's `float64`: NaN, negative and positive infinity, and finite values. -/
inductive F64 where
  | nan : F64
  | ninf : F64
  | pinf : F64
  | fin (q : ℚ) : F64
deriving DecidableEq

namespace F64

/-- Nearest integer to a rational, a half going to the even neighbour. -/
def tiesToEven (x : ℚ) : Int :=
  if x - ⌊x⌋ < 1 / 2 then ⌊x⌋
  else if 1 / 2 < x - ⌊x⌋ then ⌊x⌋ + 1
  else if ⌊x⌋ % 2 = 0 then ⌊x⌋ else ⌊x⌋ + 1

/-- The exponent of the spacing of the binary64 values around `q`: 52 binary places below the
leading bit of `q`, and never below the spacing 2^-1074 of the subnormal values. -/
def ulpExp (q : ℚ) : Int := max (Int.log 2 |q| - 52) (-1074)

/-- The multiple of the spacing nearest to `q`, a tie going to the even multiple. -/
def nearest (q : ℚ) : ℚ := tiesToEven (q / 2 ^ ulpExp q) * 2 ^ ulpExp q

/-- The binary64 value of an exact result (IEEE 754 round to nearest, ties to even): the
nearest value when its magnitude is below 2^1024, an infinity otherwise. -/
def round (q : ℚ) : F64 :=
  if 2 ^ 1024 ≤ nearest q then pinf
  else if nearest q ≤ -2 ^ 1024 then ninf
  else fin (nearest q)

/-- A floating-point constant of the source: the binary64 value nearest to the decimal. -/
def lit (q : ℚ) : F64 := round q

/-- Conversion `float64(n)` of an integer: the nearest binary64 value. -/
def ofInt (n : Int) : F64 := round n

/-- Whether the value is NaN (`math.IsNaN`). -/
def isNaN : F64 → Bool
  | nan => true
  | _ => false

/-- Whether the value is finite (neither NaN nor an infinity). -/
def isFinite : F64 → Bool
  | fin _ => true
  | _ => false

/-- Go's `x < y` on float64: false as soon as one operand is NaN. -/
def lt : F64 → F64 → Bool
  | nan, _ => false
  | _, nan => false
  | ninf, ninf => false
  | ninf, _ => true
  | pinf, _ => false
  | fin _, ninf => false
  | fin _, pinf => true
  | fin a, fin b => decide (a < b)

/-- Go's `x > y` on float64. -/
def gt (x y : F64) : Bool := lt y x

/-- Go's `x <= y` on float64: false as soon as one operand is NaN. -/
def le : F64 → F64 → Bool
  | nan, _ => false
  | _, nan => false
  | ninf, _ => true
  | pinf, pinf => true
  | pinf, _ => false
  | fin _, ninf => false
  | fin _, pinf => true
  | fin a, fin b => decide (a ≤ b)

/-- Go's `x >= y` on float64. -/
def ge (x y : F64) : Bool := le y x

/-- Negation. -/
def neg : F64 → F64
  | nan => nan
  | ninf => pinf
  | pinf => ninf
  | fin a => fin (-a)

/-- Addition: NaN propagates, the sum of opposite infinities is NaN, and the sum of two finite
values is their exact sum rounded to binary64. -/
def add : F64 → F64 → F64
  | nan, _ => nan
  | _, nan => nan
  | pinf, ninf => nan
  | ninf, pinf => nan
  | pinf, _ => pinf
  | ninf, _ => ninf
  | fin _, pinf => pinf
  | fin _, ninf => ninf
  | fin a, fin b => round (a + b)

/-- Subtraction. -/
def sub (x y : F64) : F64 := add x (neg y)

/-- The product of an infinity and the finite value `b`, `pos` telling whether the infinity is
the positive one: NaN when `b` is zero, otherwise the infinity whose sign is the product of
the signs. -/
def infTimes (pos : Bool) (b : ℚ) : F64 :=
  if b = 0 then nan else if decide (0 < b) = pos then pinf else ninf

/-- Multiplication: NaN propagates, zero times an infinity is NaN, and the product of two
finite values is their exact product rounded to binary64. -/
def mul : F64 → F64 → F64
  | nan, _ => nan
  | _, nan => nan
  | pinf, pinf => pinf
  | pinf, ninf => ninf
  | ninf, pinf => ninf
  | ninf, ninf => pinf
  | pinf, fin b => infTimes true b
  | ninf, fin b => infTimes false b
  | fin a, pinf => infTimes true a
  | fin a, ninf => infTimes false a
  | fin a, fin b => round (a * b)

/-- Division: the quotient of two finite values is their exact quotient rounded to binary64.
A zero divisor is taken as positive zero. -/
def div : F64 → F64 → F64
  | nan, _ => nan
  | _, nan => nan
  | pinf, pinf => nan
  | pinf, ninf => nan
  | ninf, pinf => nan
  | ninf, ninf => nan
  | pinf, fin b => if 0 ≤ b then pinf else ninf
  | ninf, fin b => if 0 ≤ b then ninf else pinf
  | fin _, pinf => fin 0
  | fin _, ninf => fin 0
  | fin a, fin b =>
    if b = 0 then (if a = 0 then nan else if 0 < a then pinf else ninf) else round (a / b)

instance : Add F64 := ⟨add⟩
instance : Sub F64 := ⟨sub⟩
instance : Mul F64 := ⟨mul⟩
instance : Div F64 := ⟨div⟩

/-- Go's `math.Min`: `Min(x, -Inf) = Min(-Inf, x) = -Inf`, then `Min(x, NaN) = Min(NaN, x) = NaN`,
otherwise the smaller operand. -/
def Min : F64 → F64 → F64
  | ninf, _ => ninf
  | _, ninf => ninf
  | nan, _ => nan
  | _, nan => nan
  | x, y => if lt x y then x else y

/-- Go's `math.Max`: `Max(x, +Inf) = Max(+Inf, x) = +Inf`, then `Max(x, NaN) = Max(NaN, x) = NaN`,
otherwise the larger operand. -/
def Max : F64 → F64 → F64
  | pinf, _ => pinf
  | _, pinf => pinf
  | nan, _ => nan
  | _, nan => nan
  | x, y => if gt x y then x else y

/-- Nearest integer to a rational, halves going away from zero. -/
def roundHalfAway (q : ℚ) : Int :=
  if 0 ≤ q then ⌊q + 1 / 2⌋ else -⌊-q + 1 / 2⌋

/-- Go's `math.Round`: nearest integer, rounding half away from zero; `Round(±Inf) = ±Inf` and
`Round(NaN) = NaN`.  The nearest integer of a binary64 value is a binary64 value, so no
rounding takes place. -/
def Round : F64 → F64
  | nan => nan
  | ninf => ninf
  | pinf => pinf
  | fin a => fin (roundHalfAway a)

/-- The comparison `x <= y` holds, or one of the two values is NaN. -/
def leOrNaN (x y : F64) : Prop := x = nan ∨ y = nan ∨ le x y = true

end F64

/-! ## internal/util/helpers.go -/

section util

-- `lowerCase`: the Unicode lower-case mapping that `unicode.ToLower` applies to a rune outside
-- ASCII (the case tables of the Go standard library).
variable (lowerCase : Char → Char)

/-- Go's `unicode.ToLower`: ASCII letters are lowered directly, every other rune goes through
the Unicode case table. -/
def unicodeToLower (r : Char) : Char :=
  if r.toNat ≤ 127 then r.toLower else lowerCase r

/-- Go's `strings.ToLower`: every rune mapped to its lower case. -/
def ToLower (s : String) : String := String.mk (s.data.map (unicodeToLower lowerCase))

/-- RoundToTwoDecimals rounds a float64 to 2 decimal places. -/
def RoundToTwoDecimals (f : F64) : F64 :=
  F64.Round (f * F64.fin 100) / F64.fin 100

/-- ContainsSkill checks if a skill is in the skills slice (case-insensitive). -/
def ContainsSkill (skills : List String) (skill : String) : Bool :=
  let skillLower := ToLower lowerCase skill
  skills.any fun s => ToLower lowerCase s == skillLower

/-! ## internal/util/score_calculator.go -/

/-- CalculateOverallScore calculates the overall score for an applicant. -/
def CalculateOverallScore (name : String) (skills : List String) (yearsExperience : Int)
    (interviewScore culturalFitScore technicalScore : F64)
    (canExitVim knowsGo debugsInProduction : Bool) : F64 :=
  let _ := name
  -- Base score from the three main metrics
  let baseScore := (technicalScore * F64.lit 0.4) + (interviewScore * F64.lit 0.3)
    + (culturalFitScore * F64.lit 0.3)
  -- Penalty for Java developers
  let baseScore :=
    if ContainsSkill lowerCase skills "Java" && !knowsGo then baseScore * F64.lit 0.7
    else baseScore
  -- Bonus for being able to exit Vim
  let baseScore := if canExitVim then baseScore + F64.fin 2.0 else baseScore
  -- Honesty bonus/penalty for debugging in production
  let baseScore :=
    if debugsInProduction then baseScore + F64.fin 1.0
    else if yearsExperience > 2 then baseScore - F64.fin 0.5
    else baseScore
  -- Experience boost
  let experienceBoost := F64.Min (F64.ofInt yearsExperience * F64.fin 0.5) (F64.fin 3.5)
  let baseScore := baseScore + experienceBoost
  -- Skill diversity bonus
  let skillCount : Int := skills.length
  let baseScore :=
    if skillCount > 5 then
      baseScore + F64.Min (F64.ofInt (skillCount - 5) * F64.lit 0.2) (F64.fin 2.0)
    else baseScore
  -- JavaScript penalty
  let baseScore :=
    if ContainsSkill lowerCase skills "JavaScript" && !ContainsSkill lowerCase skills "TypeScript"
        && !knowsGo then baseScore * F64.fin 0.75
    else baseScore
  -- Ensure score is within valid range (0-100)
  let finalScore := F64.Max (F64.fin 0) (F64.Min baseScore (F64.fin 100))
  -- Round to 2 decimal places
  let finalScore := F64.Round (finalScore * F64.fin 100) / F64.fin 100
  finalScore

/-- The value of `baseScore` in `CalculateOverallScore` when the clamp is reached (the first
seven steps of the function). -/
def scoreBeforeClamp (skills : List String) (yearsExperience : Int)
    (interviewScore culturalFitScore technicalScore : F64)
    (canExitVim knowsGo debugsInProduction : Bool) : F64 :=
  let baseScore := (technicalScore * F64.lit 0.4) + (interviewScore * F64.lit 0.3)
    + (culturalFitScore * F64.lit 0.3)
  let baseScore :=
    if ContainsSkill lowerCase skills "Java" && !knowsGo then baseScore * F64.lit 0.7
    else baseScore
  let baseScore := if canExitVim then baseScore + F64.fin 2.0 else baseScore
  let baseScore :=
    if debugsInProduction then baseScore + F64.fin 1.0
    else if yearsExperience > 2 then baseScore - F64.fin 0.5
    else baseScore
  let experienceBoost := F64.Min (F64.ofInt yearsExperience * F64.fin 0.5) (F64.fin 3.5)
  let baseScore := baseScore + experienceBoost
  let skillCount : Int := skills.length
  let baseScore :=
    if skillCount > 5 then
      baseScore + F64.Min (F64.ofInt (skillCount - 5) * F64.lit 0.2) (F64.fin 2.0)
    else baseScore
  if ContainsSkill lowerCase skills "JavaScript" && !ContainsSkill lowerCase skills "TypeScript"
      && !knowsGo then baseScore * F64.fin 0.75
  else baseScore

/-- The last two steps of `CalculateOverallScore`: the clamp to the range 0-100 and the
rounding to 2 decimal places. -/
def clampAndRound (baseScore : F64) : F64 :=
  let finalScore := F64.Max (F64.fin 0) (F64.Min baseScore (F64.fin 100))
  F64.Round (finalScore * F64.fin 100) / F64.fin 100

end util

/-! ## internal/util/validation.go -/

/-- Go's `unicode.IsSpace`: in Latin-1 the characters tab, line feed, vertical tab, form feed,
carriage return, space, U+0085 and U+00A0; beyond Latin-1 the characters of the Unicode
property White_Space. -/
def isSpace (r : Char) : Bool :=
  if r.toNat ≤ 0xFF then
    r.toNat == 0x09 || r.toNat == 0x0A || r.toNat == 0x0B || r.toNat == 0x0C || r.toNat == 0x0D
      || r.toNat == 0x20 || r.toNat == 0x85 || r.toNat == 0xA0
  else
    r.toNat == 0x1680 || (0x2000 ≤ r.toNat && r.toNat ≤ 0x200A) || r.toNat == 0x2028
      || r.toNat == 0x2029 || r.toNat == 0x202F || r.toNat == 0x205F || r.toNat == 0x3000

/-- Go's `strings.TrimSpace`: the string without its leading and trailing white space. -/
def TrimSpace (s : String) : String :=
  String.mk ((s.data.dropWhile isSpace).reverse.dropWhile isSpace).reverse

/-- Go's `len` of a string: its length in bytes. -/
def len (s : String) : Nat := s.utf8ByteSize

section validation

-- `parseAddress email` tells whether `mail.ParseAddress(email)` of the Go standard library
-- returns without error.
variable (parseAddress : String → Bool)

/-- ValidateApplicant validates applicant fields for both create and update requests.  The
result is the message of the returned error, `none` standing for `nil`. -/
def ValidateApplicant (name email position : String) (yearsExperience githubStars : Int)
    (interviewScore culturalFitScore technicalScore : F64) (isUpdate : Bool) (id : Int) :
    Option String :=
  -- Validate ID for update requests
  if isUpdate && decide (id ≤ 0) then some "id must be positive"
  -- Validate name
  else if TrimSpace name == "" then some "name is required"
  else if len name < 2 then some "name must be at least 2 characters"
  else if len name > 255 then some "name must be at most 255 characters"
  -- Validate email
  else if TrimSpace email == "" then some "email is required"
  else if !parseAddress email then some "email must be a valid email address"
  -- Validate position
  else if TrimSpace position == "" then some "position is required"
  else if len position < 2 then some "position must be at least 2 characters"
  -- Validate years experience and github stars
  else if yearsExperience < 0 then some "years_experience must be positive"
  else if githubStars < 0 then some "github_stars must be positive"
  -- Validate scores
  else if F64.lt interviewScore (F64.fin 0) || F64.gt interviewScore (F64.fin 100) then
    some "interview_score must be between 0 and 100"
  else if F64.lt culturalFitScore (F64.fin 0) || F64.gt culturalFitScore (F64.fin 100) then
    some "cultural_fit_score must be between 0 and 100"
  else if F64.lt technicalScore (F64.fin 0) || F64.gt technicalScore (F64.fin 100) then
    some "technical_score must be between 0 and 100"
  else none

end validation

/-! ## Types of the generated packages `sqlc` and `applicantsv1`

The generated database bindings and protobuf messages are not among the sources.  The
structures below are modelled from the data model of the specification and carry the fields
that the service code and its tests read and write, under the names they use. -/

/-- Go's `sql.NullString`. -/
structure NullString where
  Str : String := ""
  Valid : Bool := false
deriving DecidableEq

/-- Go's `time.Time`, as seconds and nanoseconds since the epoch. -/
structure Time where
  sec : Int
  nsec : Int
deriving DecidableEq

/-- The protobuf timestamp built by `timestamppb.New`. -/
structure Timestamp where
  Seconds : Int
  Nanos : Int
deriving DecidableEq

/-- Go's `timestamppb.New`. -/
def timestamppbNew (t : Time) : Timestamp := ⟨t.sec, t.nsec⟩

/-- Modelled from the spec: the generated row type `sqlc.Applicant` is missing; the fields are
those of the persisted applicant of the data model, named as in `DbApplicantToProto`. -/
structure Applicant where
  ID : Int
  Name : String
  Email : String
  Position : String
  YearsExperience : Int
  Skills : List String
  GithubStars : Int
  CanExitVim : Bool
  KnowsGo : Bool
  DebugsInProduction : Bool
  InterviewScore : F64
  CulturalFitScore : F64
  TechnicalScore : F64
  OverallScore : F64
  Status : Int
  FunFact : NullString
  Availability : NullString
  SalaryExpectation : NullString
  CreatedAt : Time
  UpdatedAt : Time
deriving DecidableEq

/-- Modelled from the spec: the generated message `applicantsv1.JobApplicant` is missing; the
fields are those that `DbApplicantToProto` fills. -/
structure JobApplicant where
  Id : Int
  Name : String
  Email : String
  Position : String
  YearsExperience : Int
  Skills : List String
  GithubStars : Int
  CanExitVim : Bool
  KnowsGo : Bool
  DebugsInProduction : Bool
  InterviewScore : F64
  CulturalFitScore : F64
  TechnicalScore : F64
  OverallScore : F64
  Status : Int
  FunFact : String
  Availability : String
  SalaryExpectation : String
  CreatedAt : Timestamp
  UpdatedAt : Timestamp
deriving DecidableEq

/-- Modelled from the spec: the generated message `applicantsv1.CreateApplicantRequest` is
missing; the fields are those that `CreateApplicant` reads. -/
structure CreateApplicantRequest where
  Name : String
  Email : String
  Position : String
  YearsExperience : Int
  Skills : List String
  GithubStars : Int
  CanExitVim : Bool
  KnowsGo : Bool
  DebugsInProduction : Bool
  InterviewScore : F64
  CulturalFitScore : F64
  TechnicalScore : F64
  Status : Int
  FunFact : String
  Availability : String
  SalaryExpectation : String
deriving DecidableEq

/-- Modelled from the spec: the generated message `applicantsv1.UpdateApplicantRequest` is
missing; the fields are those that `UpdateApplicant` reads. -/
structure UpdateApplicantRequest where
  Id : Int
  Name : String
  Email : String
  Position : String
  YearsExperience : Int
  Skills : List String
  GithubStars : Int
  CanExitVim : Bool
  KnowsGo : Bool
  DebugsInProduction : Bool
  InterviewScore : F64
  CulturalFitScore : F64
  TechnicalScore : F64
  Status : Int
  FunFact : String
  Availability : String
  SalaryExpectation : String
deriving DecidableEq

/-- Modelled from the spec: the generated type `sqlc.CreateApplicantParams` is missing; the
fields are those that `CreateApplicant` sets. -/
structure CreateApplicantParams where
  Name : String
  Email : String
  Position : String
  YearsExperience : Int
  Skills : List String
  GithubStars : Int
  CanExitVim : Bool
  KnowsGo : Bool
  DebugsInProduction : Bool
  InterviewScore : F64
  CulturalFitScore : F64
  TechnicalScore : F64
  OverallScore : F64
  Status : Int
  FunFact : NullString
  Availability : NullString
  SalaryExpectation : NullString
deriving DecidableEq

/-- Modelled from the spec: the generated type `sqlc.UpdateApplicantParams` is missing; the
fields are those that `UpdateApplicant` sets. -/
structure UpdateApplicantParams where
  ID : Int
  Name : String
  Email : String
  Position : String
  YearsExperience : Int
  Skills : List String
  GithubStars : Int
  CanExitVim : Bool
  KnowsGo : Bool
  DebugsInProduction : Bool
  InterviewScore : F64
  CulturalFitScore : F64
  TechnicalScore : F64
  OverallScore : F64
  Status : Int
  FunFact : NullString
  Availability : NullString
  SalaryExpectation : NullString
deriving DecidableEq

/-- Modelled from the spec: the generated type `sqlc.ListApplicantsParams` is missing; the
fields are those that `ListApplicants` sets. -/
structure ListApplicantsParams where
  Limit : Int
  Offset : Int
  Position : String
  Status : Int
  MinScore : F64
deriving DecidableEq

/-- Modelled from the spec: the generated type `sqlc.CountApplicantsParams` is missing; the
fields are those that `ListApplicants` sets. -/
structure CountApplicantsParams where
  Position : String
  Status : Int
  MinScore : F64
deriving DecidableEq

/-- Modelled from the spec: the generated message `applicantsv1.GetApplicantRequest` is
missing; it carries the id. -/
structure GetApplicantRequest where
  Id : Int
deriving DecidableEq

/-- Modelled from the spec: the generated message `applicantsv1.DeleteApplicantRequest` is
missing; it carries the id. -/
structure DeleteApplicantRequest where
  Id : Int
deriving DecidableEq

/-- Modelled from the spec: the generated message `applicantsv1.ListApplicantsRequest` is
missing; the fields are those that `ListApplicants` reads. -/
structure ListApplicantsRequest where
  Limit : Int
  Offset : Int
  Position : String
  Status : Int
  MinScore : F64
deriving DecidableEq

/-- Modelled from the spec: the generated message `applicantsv1.CreateApplicantResponse` is
missing; it carries the mapped applicant. -/
structure CreateApplicantResponse where
  Applicant : JobApplicant
deriving DecidableEq

/-- Modelled from the spec: the generated message `applicantsv1.GetApplicantResponse` is
missing; it carries the mapped applicant. -/
structure GetApplicantResponse where
  Applicant : JobApplicant
deriving DecidableEq

/-- Modelled from the spec: the generated message `applicantsv1.UpdateApplicantResponse` is
missing; it carries the mapped applicant. -/
structure UpdateApplicantResponse where
  Applicant : JobApplicant
deriving DecidableEq

/-- Modelled from the spec: the generated message `applicantsv1.DeleteApplicantResponse` is
missing; it carries the success flag. -/
structure DeleteApplicantResponse where
  Success : Bool
deriving DecidableEq

/-- Modelled from the spec: the generated message `applicantsv1.ListApplicantsResponse` is
missing; the fields are those that `ListApplicants` fills. -/
structure ListApplicantsResponse where
  Applicants : List JobApplicant
  TotalCount : Int
  Limit : Int
  Offset : Int
deriving DecidableEq

/-- The conversion `int32(n)` of a 64-bit integer: the low 32 bits, read as signed. -/
def toInt32 (n : Int) : Int := (n + 2 ^ 31) % 2 ^ 32 - 2 ^ 31

/-! ## Errors -/

/-- An error returned by the persistence layer: `sql.ErrNoRows`, a driver error `*pq.Error`
with its code, constraint name and message, or any other error with its text. -/
inductive DbError where
  | noRows : DbError
  | pq (Code : String) (Constraint : String) (Message : String) : DbError
  | other (text : String) : DbError
deriving DecidableEq

/-- The `Error()` text of a persistence error. -/
def DbError.Error : DbError → String
  | noRows => "sql: no rows in result set"
  | pq _ _ message => "pq: " ++ message
  | other text => text

/-- The gRPC status codes the service uses. -/
inductive Code where
  | InvalidArgument
  | NotFound
  | AlreadyExists
  | Internal
deriving DecidableEq

/-- The error built by `status.Errorf`: a code and the formatted message. -/
structure StatusError where
  code : Code
  message : String
deriving DecidableEq

/-- Go's `strings.Contains` on lists of characters. -/
def containsChars : List Char → List Char → Bool
  | [], substr => substr.isEmpty
  | c :: s, substr => substr.isPrefixOf (c :: s) || containsChars s substr

/-- Go's `strings.Contains`: whether `substr` occurs within `s`. -/
def Contains (s substr : String) : Bool := containsChars s.data substr.data

/-! ## internal/util/helpers.go and proto_helpers.go, continued -/

/-- ToNullString converts `*string` to `sql.NullString`; the nil pointer is `none`. -/
def ToNullString (s : Option String) : NullString :=
  match s with
  | none => { Valid := false }
  | some str => if str == "" then { Valid := false } else { Str := str, Valid := true }

/-- NullStringToString safely converts `sql.NullString` to string. -/
def NullStringToString (ns : NullString) : String :=
  if !ns.Valid then "" else ns.Str

/-- DbApplicantToProto converts a database applicant to protobuf format. -/
def DbApplicantToProto (app : Applicant) : JobApplicant :=
  { Id := app.ID
    Name := app.Name
    Email := app.Email
    Position := app.Position
    YearsExperience := app.YearsExperience
    Skills := app.Skills
    GithubStars := app.GithubStars
    CanExitVim := app.CanExitVim
    KnowsGo := app.KnowsGo
    DebugsInProduction := app.DebugsInProduction
    InterviewScore := RoundToTwoDecimals app.InterviewScore
    CulturalFitScore := RoundToTwoDecimals app.CulturalFitScore
    TechnicalScore := RoundToTwoDecimals app.TechnicalScore
    OverallScore := RoundToTwoDecimals app.OverallScore
    Status := app.Status
    FunFact := NullStringToString app.FunFact
    Availability := NullStringToString app.Availability
    SalaryExpectation := NullStringToString app.SalaryExpectation
    CreatedAt := timestamppbNew app.CreatedAt
    UpdatedAt := timestamppbNew app.UpdatedAt }

/-! ## internal/service

The persistence interface `sqlc.Querier` is a record of functions, one for each query the
service calls; each returns a row (or rows, or a count) or an error.  A service operation
returns what the Go method returns, a response pointer and an error, either of which can be
nil, together with the list of the persistence calls it made, in order. -/

/-- Modelled from the spec: the generated interface `sqlc.Querier` is missing; the methods are
the seven persistence operations of the specification, with the signatures of the test double
of the test suite. -/
structure Querier where
  CreateApplicant : CreateApplicantParams → Except DbError Applicant
  GetApplicant : Int → Except DbError Applicant
  UpdateApplicant : UpdateApplicantParams → Except DbError Applicant
  DeleteApplicant : Int → Option DbError
  ListApplicants : ListApplicantsParams → Except DbError (List Applicant)
  CountApplicants : CountApplicantsParams → Except DbError Int
  GetBestApplicant : Except DbError Applicant

/-- A call of the persistence interface with its argument. -/
inductive QueryCall where
  | CreateApplicant (arg : CreateApplicantParams)
  | GetApplicant (id : Int)
  | UpdateApplicant (arg : UpdateApplicantParams)
  | DeleteApplicant (id : Int)
  | ListApplicants (arg : ListApplicantsParams)
  | CountApplicants (arg : CountApplicantsParams)
  | GetBestApplicant
deriving DecidableEq

/-- The result of a service method: the returned pair `(response, error)` and the persistence
calls made. -/
structure Outcome (α : Type) where
  resp : Option α
  err : Option StatusError
  calls : List QueryCall

/-- Whether a persistence error is a unique-constraint violation on the email column: the
error is a `*pq.Error` with code 23505 and a constraint name containing "email". -/
def isEmailUniqueViolation : DbError → Bool
  | DbError.pq code constraint _ => code == "23505" && Contains constraint "email"
  | _ => false

section service

variable (lowerCase : Char → Char) (parseAddress : String → Bool)

/-- CreateApplicant creates a new applicant with calculated overall score. -/
def CreateApplicant (queries : Querier) (req : CreateApplicantRequest) :
    Outcome CreateApplicantResponse :=
  -- Validate input
  match ValidateApplicant parseAddress req.Name req.Email req.Position req.YearsExperience
      req.GithubStars req.InterviewScore req.CulturalFitScore req.TechnicalScore false 0 with
  | some err =>
    ⟨none, some ⟨Code.InvalidArgument, "validation failed: " ++ err⟩, []⟩
  | none =>
    -- Calculate overall score
    let overallScore := CalculateOverallScore lowerCase req.Name req.Skills req.YearsExperience
      req.InterviewScore req.CulturalFitScore req.TechnicalScore req.CanExitVim req.KnowsGo
      req.DebugsInProduction
    -- Prepare optional fields
    let funFact : Option String := if req.FunFact != "" then some req.FunFact else none
    let availability : Option String :=
      if req.Availability != "" then some req.Availability else none
    let salaryExpectation : Option String :=
      if req.SalaryExpectation != "" then some req.SalaryExpectation else none
    -- Create applicant
    let arg : CreateApplicantParams :=
      { Name := req.Name
        Email := req.Email
        Position := req.Position
        YearsExperience := req.YearsExperience
        Skills := req.Skills
        GithubStars := req.GithubStars
        CanExitVim := req.CanExitVim
        KnowsGo := req.KnowsGo
        DebugsInProduction := req.DebugsInProduction
        InterviewScore := req.InterviewScore
        CulturalFitScore := req.CulturalFitScore
        TechnicalScore := req.TechnicalScore
        OverallScore := overallScore
        Status := req.Status
        FunFact := ToNullString funFact
        Availability := ToNullString availability
        SalaryExpectation := ToNullString salaryExpectation }
    match queries.CreateApplicant arg with
    | Except.error err =>
      -- Check for unique constraint violation on email
      if isEmailUniqueViolation err then
        ⟨none, some ⟨Code.AlreadyExists, "email address already exists: " ++ req.Email⟩,
          [QueryCall.CreateApplicant arg]⟩
      else
        ⟨none, some ⟨Code.Internal, "failed to create applicant: " ++ err.Error⟩,
          [QueryCall.CreateApplicant arg]⟩
    | Except.ok applicant =>
      ⟨some { Applicant := DbApplicantToProto applicant }, none,
        [QueryCall.CreateApplicant arg]⟩

/-- UpdateApplicant updates an existing applicant and recalculates score. -/
def UpdateApplicant (queries : Querier) (req : UpdateApplicantRequest) :
    Outcome UpdateApplicantResponse :=
  -- Validate input
  match ValidateApplicant parseAddress req.Name req.Email req.Position req.YearsExperience
      req.GithubStars req.InterviewScore req.CulturalFitScore req.TechnicalScore true req.Id with
  | some err =>
    ⟨none, some ⟨Code.InvalidArgument, "validation failed: " ++ err⟩, []⟩
  | none =>
    -- Recalculate overall score
    let overallScore := CalculateOverallScore lowerCase req.Name req.Skills req.YearsExperience
      req.InterviewScore req.CulturalFitScore req.TechnicalScore req.CanExitVim req.KnowsGo
      req.DebugsInProduction
    -- Prepare optional fields
    let funFact : Option String := if req.FunFact != "" then some req.FunFact else none
    let availability : Option String :=
      if req.Availability != "" then some req.Availability else none
    let salaryExpectation : Option String :=
      if req.SalaryExpectation != "" then some req.SalaryExpectation else none
    let arg : UpdateApplicantParams :=
      { ID := req.Id
        Name := req.Name
        Email := req.Email
        Position := req.Position
        YearsExperience := req.YearsExperience
        Skills := req.Skills
        GithubStars := req.GithubStars
        CanExitVim := req.CanExitVim
        KnowsGo := req.KnowsGo
        DebugsInProduction := req.DebugsInProduction
        InterviewScore := req.InterviewScore
        CulturalFitScore := req.CulturalFitScore
        TechnicalScore := req.TechnicalScore
        OverallScore := overallScore
        Status := req.Status
        FunFact := ToNullString funFact
        Availability := ToNullString availability
        SalaryExpectation := ToNullString salaryExpectation }
    match queries.UpdateApplicant arg with
    | Except.error err =>
      -- Check for unique constraint violation on email
      if isEmailUniqueViolation err then
        ⟨none, some ⟨Code.AlreadyExists, "email address already exists: " ++ req.Email⟩,
          [QueryCall.UpdateApplicant arg]⟩
      else
        ⟨none, some ⟨Code.Internal, "failed to update applicant: " ++ err.Error⟩,
          [QueryCall.UpdateApplicant arg]⟩
    | Except.ok applicant =>
      ⟨some { Applicant := DbApplicantToProto applicant }, none,
        [QueryCall.UpdateApplicant arg]⟩

/-- GetApplicant retrieves an applicant by ID. -/
def GetApplicant (queries : Querier) (req : GetApplicantRequest) :
    Outcome GetApplicantResponse :=
  -- Validate input
  if req.Id ≤ 0 then
    ⟨none, some ⟨Code.InvalidArgument, "id must be positive"⟩, []⟩
  else
    match queries.GetApplicant req.Id with
    | Except.error err =>
      ⟨none, some ⟨Code.NotFound, "applicant not found: " ++ err.Error⟩,
        [QueryCall.GetApplicant req.Id]⟩
    | Except.ok applicant =>
      ⟨some { Applicant := DbApplicantToProto applicant }, none,
        [QueryCall.GetApplicant req.Id]⟩

/-- DeleteApplicant deletes an applicant by ID. -/
def DeleteApplicant (queries : Querier) (req : DeleteApplicantRequest) :
    Outcome DeleteApplicantResponse :=
  -- Validate input
  if req.Id ≤ 0 then
    ⟨none, some ⟨Code.InvalidArgument, "id must be positive"⟩, []⟩
  else
    match queries.DeleteApplicant req.Id with
    | some err =>
      ⟨none, some ⟨Code.Internal, "failed to delete applicant: " ++ err.Error⟩,
        [QueryCall.DeleteApplicant req.Id]⟩
    | none =>
      ⟨some { Success := true }, none, [QueryCall.DeleteApplicant req.Id]⟩

/-- ListApplicants retrieves a list of applicants with pagination. -/
def ListApplicants (queries : Querier) (req : ListApplicantsRequest) :
    Outcome ListApplicantsResponse :=
  -- Default limit
  let limit := req.Limit
  let limit := if limit < 1 then 10 else limit
  let limit := if limit > 100 then 100 else limit
  -- Ensure offset is non-negative
  let offset := req.Offset
  let offset := if offset < 0 then 0 else offset
  -- Get applicants
  let listArg : ListApplicantsParams :=
    { Limit := limit
      Offset := offset
      Position := req.Position
      Status := req.Status
      MinScore := req.MinScore }
  match queries.ListApplicants listArg with
  | Except.error err =>
    ⟨none, some ⟨Code.Internal, "failed to list applicants: " ++ err.Error⟩,
      [QueryCall.ListApplicants listArg]⟩
  | Except.ok applicants =>
    -- Get total count
    let countArg : CountApplicantsParams :=
      { Position := req.Position
        Status := req.Status
        MinScore := req.MinScore }
    match queries.CountApplicants countArg with
    | Except.error err =>
      ⟨none, some ⟨Code.Internal, "failed to count applicants: " ++ err.Error⟩,
        [QueryCall.ListApplicants listArg, QueryCall.CountApplicants countArg]⟩
    | Except.ok totalCount =>
      -- Convert to proto
      let protoApplicants := applicants.map DbApplicantToProto
      ⟨some { Applicants := protoApplicants
              TotalCount := toInt32 totalCount
              Limit := limit
              Offset := offset },
        none, [QueryCall.ListApplicants listArg, QueryCall.CountApplicants countArg]⟩

end service

/-! ## internal/service/get_best_applicant.go -/

/-- Modelled from the spec: the generated message `applicantsv1.GetBestApplicantRequest` is
missing; it has no field. -/
structure GetBestApplicantRequest where
deriving DecidableEq

/-- Modelled from the spec: the generated message `applicantsv1.GetBestApplicantResponse` is
missing; the fields are those that `GetBestApplicant` fills. -/
structure GetBestApplicantResponse where
  Applicant : JobApplicant
  Reason : String
deriving DecidableEq

/-- Nearest natural number to a non-negative rational, a half going to the even neighbour. -/
def roundHalfEven (x : ℚ) : Nat :=
  let f := ⌊x⌋.toNat
  if x - f < 1 / 2 then f
  else if 1 / 2 < x - f then f + 1
  else if f % 2 = 0 then f else f + 1

/-- The two decimal digits of a number below 100. -/
def twoDigits (n : Nat) : String :=
  String.mk [Nat.digitChar (n / 10), Nat.digitChar (n % 10)]

/-- Go's `fmt.Sprintf("%.2f", x)`: NaN and the infinities print as "NaN", "+Inf" and "-Inf"; a
finite value prints with a minus sign when negative, the integer part, a point and exactly two
decimals, the value being rounded to the nearest hundredth. -/
def formatFloat2 : F64 → String
  | F64.nan => "NaN"
  | F64.pinf => "+Inf"
  | F64.ninf => "-Inf"
  | F64.fin q =>
    let n := roundHalfEven (|q| * 100)
    (if q < 0 then "-" else "") ++ Nat.repr (n / 100) ++ "." ++ twoDigits (n % 100)

section getBest

variable (lowerCase : Char → Char)

/-- GetBestApplicant retrieves the best applicant. -/
def GetBestApplicant (queries : Querier) (req : GetBestApplicantRequest) :
    Outcome GetBestApplicantResponse :=
  let _ := req
  match queries.GetBestApplicant with
  | Except.error err =>
    ⟨none, some ⟨Code.Internal, "failed to get best applicant: " ++ err.Error⟩,
      [QueryCall.GetBestApplicant]⟩
  | Except.ok applicant =>
    -- Generate reason why they're the best
    let nameLower := ToLower lowerCase applicant.Name
    let reason :=
      if Contains nameLower "jonathan" && Contains nameLower "søholm" then
        "Danish excellence, impeccable Go skills, can center a div without Stack Overflow, " ++
          "and possesses the rare ability to write self-documenting code. Also has minor time travel capabilities."
      else
        "Scored " ++ formatFloat2 applicant.OverallScore
          ++ "% based on our completely objective and unbiased algorithm."
    ⟨some { Applicant := DbApplicantToProto applicant, Reason := reason }, none,
      [QueryCall.GetBestApplicant]⟩

end getBest

section serviceParams

variable (lowerCase : Char → Char)

/-- The parameters that `CreateApplicant` builds for the insert query. -/
def createParams (req : CreateApplicantRequest) : CreateApplicantParams :=
  { Name := req.Name
    Email := req.Email
    Position := req.Position
    YearsExperience := req.YearsExperience
    Skills := req.Skills
    GithubStars := req.GithubStars
    CanExitVim := req.CanExitVim
    KnowsGo := req.KnowsGo
    DebugsInProduction := req.DebugsInProduction
    InterviewScore := req.InterviewScore
    CulturalFitScore := req.CulturalFitScore
    TechnicalScore := req.TechnicalScore
    OverallScore := CalculateOverallScore lowerCase req.Name req.Skills req.YearsExperience
      req.InterviewScore req.CulturalFitScore req.TechnicalScore req.CanExitVim req.KnowsGo
      req.DebugsInProduction
    Status := req.Status
    FunFact := ToNullString (if req.FunFact != "" then some req.FunFact else none)
    Availability := ToNullString (if req.Availability != "" then some req.Availability else none)
    SalaryExpectation :=
      ToNullString (if req.SalaryExpectation != "" then some req.SalaryExpectation else none) }

/-- The parameters that `UpdateApplicant` builds for the update query. -/
def updateParams (req : UpdateApplicantRequest) : UpdateApplicantParams :=
  { ID := req.Id
    Name := req.Name
    Email := req.Email
    Position := req.Position
    YearsExperience := req.YearsExperience
    Skills := req.Skills
    GithubStars := req.GithubStars
    CanExitVim := req.CanExitVim
    KnowsGo := req.KnowsGo
    DebugsInProduction := req.DebugsInProduction
    InterviewScore := req.InterviewScore
    CulturalFitScore := req.CulturalFitScore
    TechnicalScore := req.TechnicalScore
    OverallScore := CalculateOverallScore lowerCase req.Name req.Skills req.YearsExperience
      req.InterviewScore req.CulturalFitScore req.TechnicalScore req.CanExitVim req.KnowsGo
      req.DebugsInProduction
    Status := req.Status
    FunFact := ToNullString (if req.FunFact != "" then some req.FunFact else none)
    Availability := ToNullString (if req.Availability != "" then some req.Availability else none)
    SalaryExpectation :=
      ToNullString (if req.SalaryExpectation != "" then some req.SalaryExpectation else none) }

end serviceParams

/-- The test double of `sqlc.Querier` used by the test suite: every query fails with
"... not implemented" unless it is overridden. -/
def mockQuerier : Querier where
  CreateApplicant := fun _ => Except.error (DbError.other "createFunc not implemented")
  GetApplicant := fun _ => Except.error (DbError.other "getFunc not implemented")
  UpdateApplicant := fun _ => Except.error (DbError.other "updateFunc not implemented")
  DeleteApplicant := fun _ => some (DbError.other "deleteFunc not implemented")
  ListApplicants := fun _ => Except.error (DbError.other "listFunc not implemented")
  CountApplicants := fun _ => Except.error (DbError.other "countFunc not implemented")
  GetBestApplicant := Except.error (DbError.other "getBestFunc not implemented")

/-- A stand-in for `mail.ParseAddress` in worked examples: it accepts the two well-formed
addresses that the examples use and nothing else. -/
def exampleParseAddress (email : String) : Bool :=
  email == "ann@example.com" || email == "jane@example.com"

/-- The create request of the test "Successful creation". -/
def janeCreateRequest : CreateApplicantRequest where
  Name := "Jane Doe"
  Email := "jane@example.com"
  Position := "Senior Developer"
  YearsExperience := 5
  Skills := ["Go", "Kubernetes"]
  GithubStars := 200
  CanExitVim := true
  KnowsGo := true
  DebugsInProduction := false
  InterviewScore := F64.fin 85
  CulturalFitScore := F64.fin 90
  TechnicalScore := F64.fin 88
  Status := 1
  FunFact := ""
  Availability := ""
  SalaryExpectation := ""

/-- The same applicant as an update request for id 1. -/
def janeUpdateRequest : UpdateApplicantRequest where
  Id := 1
  Name := "Jane Doe"
  Email := "jane@example.com"
  Position := "Senior Developer"
  YearsExperience := 5
  Skills := ["Go", "Kubernetes"]
  GithubStars := 200
  CanExitVim := true
  KnowsGo := true
  DebugsInProduction := false
  InterviewScore := F64.fin 85
  CulturalFitScore := F64.fin 90
  TechnicalScore := F64.fin 88
  Status := 1
  FunFact := ""
  Availability := ""
  SalaryExpectation := ""

/-- The stored row of the test "Successful retrieval". -/
def janeRow : Applicant where
  ID := 1
  Name := "Jane Doe"
  Email := "jane@example.com"
  Position := "Senior Developer"
  YearsExperience := 5
  Skills := ["Go", "Kubernetes"]
  GithubStars := 200
  CanExitVim := true
  KnowsGo := true
  DebugsInProduction := false
  InterviewScore := F64.fin 85
  CulturalFitScore := F64.fin 90
  TechnicalScore := F64.fin 88
  OverallScore := F64.fin 87.5
  Status := 1
  FunFact := {}
  Availability := {}
  SalaryExpectation := {}
  CreatedAt := ⟨0, 0⟩
  UpdatedAt := ⟨0, 0⟩

/-- A persistence layer whose insert and update fail with the unique violation of the test
"Email already exists". -/
def emailConflictQuerier : Querier :=
  { mockQuerier with
    CreateApplicant := fun _ => Except.error (DbError.pq "23505" "applicants_email_key" "")
    UpdateApplicant := fun _ => Except.error (DbError.pq "23505" "applicants_email_key" "") }

/-- A persistence layer whose lookup fails because the database cannot be reached. -/
def unreachableQuerier : Querier :=
  { mockQuerier with
    GetApplicant := fun _ => Except.error (DbError.other "dial tcp: connection refused") }

/-- A persistence layer whose lookup finds no row. -/
def emptyQuerier : Querier :=
  { mockQuerier with GetApplicant := fun _ => Except.error DbError.noRows }

/-- A persistence layer holding the single row `janeRow`. -/
def janeQuerier : Querier :=
  { mockQuerier with
    GetApplicant := fun _ => Except.ok janeRow
    ListApplicants := fun _ => Except.ok [janeRow]
    CountApplicants := fun _ => Except.ok 1 }

/-- A persistence layer holding `janeRow` whose count query fails. -/
def countFailingQuerier : Querier :=
  { janeQuerier with
    CountApplicants := fun _ => Except.error (DbError.other "database error") }

/-- A persistence layer whose delete succeeds, as in the test "Successful deletion". -/
def deletingQuerier : Querier :=
  { mockQuerier with DeleteApplicant := fun _ => none }

/-- The best row of the test "Jonathan special case". -/
def jonathanRow : Applicant :=
  { janeRow with Name := "Jonathan Søholm-Boesen", OverallScore := F64.fin 99.5 }

/-- The best row of the test "generic case": Jane Doe with an overall score of 95.5. -/
def genericBestRow : Applicant :=
  { janeRow with ID := 2, OverallScore := F64.fin 95.5 }

/-- A stored row whose interview score is the constant 0.015: the float64 nearest to 0.015. -/
def lowScoreRow : Applicant :=
  { janeRow with InterviewScore := F64.lit 0.015 }

/-- A persistence layer whose best applicant is the given row. -/
def bestQuerier (row : Applicant) : Querier :=
  { mockQuerier with GetBestApplicant := Except.ok row }

/-! ## Reference definitions written from the specification -/

section reference

variable (lowerCase : Char → Char)

/-- Specification wording "skills contains X (case-insensitive exact token match)": some
element of the list equals the token once both are lower-cased. -/
def specContains (skills : List String) (token : String) : Prop :=
  ∃ s ∈ skills, ToLower lowerCase s = ToLower lowerCase token

instance (skills : List String) (token : String) : Decidable (specContains lowerCase skills token) :=
  inferInstanceAs (Decidable (∃ s ∈ skills, ToLower lowerCase s = ToLower lowerCase token))

/-- Specification wording "round to 2 decimal places using round-half-away-from-zero", over the
real numbers: the multiple of 0.01 nearest to the value, a tie going to the one of larger
magnitude. -/
def specRound2Exact (q : ℚ) : ℚ := SignType.sign q * ⌊|q| * 100 + 1 / 2⌋ / 100

/-- The nearest integer with ties going away from zero, `sign(p) * floor(|p| + 1/2)`, of a
float64; NaN and the infinities are left as they are. -/
def specHalfAway : F64 → F64
  | F64.fin p => F64.fin (SignType.sign p * ⌊|p| + 1 / 2⌋)
  | x => x

/-- The rounding to 2 decimal places carried out in float64: the float64 product by 100 is
rounded to the nearest integer, ties going away from zero, and the integer is divided by 100 in
float64. -/
def specRound2 (x : F64) : F64 := specHalfAway (x * F64.fin 100) / F64.fin 100

/-- Steps 2 to 7 of the scoring algorithm of the specification, each one an update of `Base`,
in the order in which the specification lists them, every operation a float64 operation. -/
def specSteps (skills : List String) (yearsExperience : Int)
    (canExitVim knowsGo debugsInProduction : Bool) : List (F64 → F64) :=
  [ fun B => if specContains lowerCase skills "Java" ∧ knowsGo = false then B * F64.lit 0.7 else B,
    fun B => if canExitVim = true then B + F64.fin 2.0 else B,
    fun B => if debugsInProduction = true then B + F64.fin 1.0
      else if yearsExperience > 2 then B - F64.fin 0.5 else B,
    fun B => B + F64.Min (F64.fin 0.5 * F64.ofInt yearsExperience) (F64.fin 3.5),
    fun B => if (skills.length : Int) > 5
      then B + F64.Min (F64.lit 0.2 * F64.ofInt ((skills.length : Int) - 5)) (F64.fin 2.0) else B,
    fun B => if specContains lowerCase skills "JavaScript"
        ∧ ¬ specContains lowerCase skills "TypeScript" ∧ knowsGo = false
      then B * F64.fin 0.75 else B ]

/-- The scoring algorithm as the specification states it, evaluated in float64: the weighted
sum, the six updates in order, the clamp, the rounding. -/
def referenceScore (skills : List String) (yearsExperience : Int)
    (interviewScore culturalFitScore technicalScore : F64)
    (canExitVim knowsGo debugsInProduction : Bool) : F64 :=
  let B := F64.lit 0.4 * technicalScore + F64.lit 0.3 * interviewScore
    + F64.lit 0.3 * culturalFitScore
  let B := (specSteps lowerCase skills yearsExperience canExitVim knowsGo
    debugsInProduction).foldl (fun b step => step b) B
  specRound2 (F64.Max (F64.fin 0) (F64.Min B (F64.fin 100)))

/-- Steps 2 to 7 of the scoring algorithm of the specification over the real numbers. -/
def exactSteps (skills : List String) (yearsExperience : Int)
    (canExitVim knowsGo debugsInProduction : Bool) : List (ℚ → ℚ) :=
  [ fun B => if specContains lowerCase skills "Java" ∧ knowsGo = false then B * 0.7 else B,
    fun B => if canExitVim = true then B + 2.0 else B,
    fun B => if debugsInProduction = true then B + 1.0
      else if yearsExperience > 2 then B - 0.5 else B,
    fun B => B + min (0.5 * (yearsExperience : ℚ)) 3.5,
    fun B => if (skills.length : Int) > 5
      then B + min (0.2 * ((skills.length : ℚ) - 5)) 2.0 else B,
    fun B => if specContains lowerCase skills "JavaScript"
        ∧ ¬ specContains lowerCase skills "TypeScript" ∧ knowsGo = false
      then B * 0.75 else B ]

/-- The scoring algorithm as the specification states it, evaluated over the real numbers. -/
def exactReferenceScore (skills : List String) (yearsExperience : Int)
    (interviewScore culturalFitScore technicalScore : ℚ)
    (canExitVim knowsGo debugsInProduction : Bool) : ℚ :=
  let B := 0.4 * technicalScore + 0.3 * interviewScore + 0.3 * culturalFitScore
  let B := (exactSteps lowerCase skills yearsExperience canExitVim knowsGo
    debugsInProduction).foldl (fun b step => step b) B
  specRound2Exact (max 0 (min B 100))

end reference

section referenceValidation

variable (parseAddress : String → Bool)

/-- Specification wording "lies in [0,100] inclusive". -/
def specInRange (x : F64) : Prop :=
  F64.le (F64.fin 0) x = true ∧ F64.le x (F64.fin 100) = true

instance (x : F64) : Decidable (specInRange x) :=
  inferInstanceAs (Decidable (_ ∧ _))

/-- The conditions under which the specification lets the validator succeed. -/
def specAccepts (name email position : String) (yearsExperience githubStars : Int)
    (interviewScore culturalFitScore technicalScore : F64) (isUpdate : Bool) (id : Int) : Prop :=
  (isUpdate = false ∨ id > 0)
  ∧ (TrimSpace name ≠ "" ∧ 2 ≤ len name ∧ len name ≤ 255)
  ∧ (TrimSpace email ≠ "" ∧ parseAddress email = true)
  ∧ (TrimSpace position ≠ "" ∧ 2 ≤ len position)
  ∧ yearsExperience ≥ 0
  ∧ githubStars ≥ 0
  ∧ specInRange interviewScore ∧ specInRange culturalFitScore ∧ specInRange technicalScore

/-- The reason of the first rule that fails, in a list of rules given as pairs of "the rule
fails" and the reason; `none` when no rule fails. -/
def firstFailure : List (Bool × String) → Option String
  | [] => none
  | (failed, reason) :: rest => if failed then some reason else firstFailure rest

/-- The rules of the validator in the fixed order of the specification, each with its reason.
A score rule fails when the score is below 0 or above 100. -/
def specRules (name email position : String) (yearsExperience githubStars : Int)
    (interviewScore culturalFitScore technicalScore : F64) (isUpdate : Bool) (id : Int) :
    List (Bool × String) :=
  [ (isUpdate && decide (id ≤ 0), "id must be positive"),
    (TrimSpace name == "", "name is required"),
    (decide (len name < 2), "name must be at least 2 characters"),
    (decide (len name > 255), "name must be at most 255 characters"),
    (TrimSpace email == "", "email is required"),
    (!parseAddress email, "email must be a valid email address"),
    (TrimSpace position == "", "position is required"),
    (decide (len position < 2), "position must be at least 2 characters"),
    (decide (yearsExperience < 0), "years_experience must be positive"),
    (decide (githubStars < 0), "github_stars must be positive"),
    (F64.lt interviewScore (F64.fin 0) || F64.gt interviewScore (F64.fin 100),
      "interview_score must be between 0 and 100"),
    (F64.lt culturalFitScore (F64.fin 0) || F64.gt culturalFitScore (F64.fin 100),
      "cultural_fit_score must be between 0 and 100"),
    (F64.lt technicalScore (F64.fin 0) || F64.gt technicalScore (F64.fin 100),
      "technical_score must be between 0 and 100") ]

end referenceValidation

/-- Specification wording of the effective limit of a listing: 10 when the requested limit is
below 1, 100 when it is above 100, the requested limit otherwise. -/
def specEffectiveLimit (limit : Int) : Int :=
  if limit < 1 then 10 else if limit > 100 then 100 else limit

/-- Specification wording of the effective offset of a listing: 0 when the requested offset is
negative, the requested offset otherwise. -/
def specEffectiveOffset (offset : Int) : Int :=
  if offset < 0 then 0 else offset

/-- Specification wording of the persistence failure that is an email conflict: a driver
error with code 23505 whose constraint name contains "email". -/
def specEmailConflict (e : DbError) : Prop :=
  ∃ constraint message, e = DbError.pq "23505" constraint message
    ∧ Contains constraint "email" = true

/-- Specification wording of a well-formed result: a present response with no error, or an
absent response with an error; never both and never neither. -/
def specResponseXorError {α : Type} (o : Outcome α) : Prop :=
  (o.resp.isSome = true ∧ o.err = none) ∨ (o.resp = none ∧ o.err.isSome = true)

/-- Specification wording of the stored state of an optional text field for a request text:
absent when the text is empty, present with the same text otherwise. -/
def specOptionalStored (ns : NullString) (text : String) : Prop :=
  (text = "" ∧ ns.Valid = false) ∨ (text ≠ "" ∧ ns.Valid = true ∧ ns.Str = text)

/-- The number written by a list of decimal digits. -/
def digitsValue (ds : List Char) : Nat :=
  ds.foldl (fun v c => 10 * v + (c.toNat - '0'.toNat)) 0

/-- Specification wording "formatted with exactly 2 decimal places": an optional minus sign,
the integer part in decimal digits without a leading zero, a point and exactly two decimal
digits, the number written being a hundredth nearest to the value. -/
def specTwoDecimals (q : ℚ) (text : String) : Prop :=
  ∃ (intPart : List Char) (d1 d2 : Char),
    text = (if q < 0 then "-" else "") ++ String.mk intPart ++ "." ++ String.mk [d1, d2]
    ∧ (∀ c ∈ intPart, c.isDigit = true) ∧ d1.isDigit = true ∧ d2.isDigit = true
    ∧ (intPart = ['0'] ∨ (intPart ≠ [] ∧ intPart.head? ≠ some '0'))
    ∧ |(|q| - ((digitsValue intPart : ℚ) + (digitsValue [d1, d2] : ℚ) / 100))| ≤ 1 / 200

/-- Specification wording of the clamp: `max(0, min(Base, 100))`. -/
def specClamp (B : F64) : F64 := F64.Max (F64.fin 0) (F64.Min B (F64.fin 100))

/-- Specification wording of the weighted sub-score sum `W`,
`0.4*technical + 0.3*interview + 0.3*cultural`, evaluated in float64. -/
def specWeighted (interviewScore culturalFitScore technicalScore : F64) : F64 :=
  F64.lit 0.4 * technicalScore + F64.lit 0.3 * interviewScore + F64.lit 0.3 * culturalFitScore

/-- The weighted sub-score sum `W` over the real numbers. -/
def specWeightedExact (interviewScore culturalFitScore technicalScore : ℚ) : ℚ :=
  0.4 * technicalScore + 0.3 * interviewScore + 0.3 * culturalFitScore

/-- Specification wording of the sum `A` of the additive adjustments for `n` skills, over the
real numbers: 2 for exiting Vim; 1 for debugging in production, otherwise -0.5 with more than 2
years of experience; the experience boost `min(0.5*years, 3.5)`; the skill-diversity bonus
`min(0.2*(n-5), 2)` with more than 5 skills. -/
def specAdditive (canExitVim debugsInProduction : Bool) (yearsExperience : Int) (n : Nat) : ℚ :=
  (if canExitVim = true then 2 else 0)
  + (if debugsInProduction = true then 1 else if yearsExperience > 2 then -0.5 else 0)
  + min (0.5 * (yearsExperience : ℚ)) 3.5
  + (if n > 5 then min (0.2 * ((n : ℚ) - 5)) 2 else 0)

/-- The additive adjustments of the specification (Vim, honesty, experience, skill diversity
for `n` skills) added to `B` one after the other in float64. -/
def specAdjusted (canExitVim debugsInProduction : Bool) (yearsExperience : Int) (n : Nat)
    (B : F64) : F64 :=
  let B := if canExitVim = true then B + F64.fin 2.0 else B
  let B := if debugsInProduction = true then B + F64.fin 1.0
    else if yearsExperience > 2 then B - F64.fin 0.5 else B
  let B := B + F64.Min (F64.fin 0.5 * F64.ofInt yearsExperience) (F64.fin 3.5)
  if n > 5 then B + F64.Min (F64.lit 0.2 * F64.ofInt ((n : Int) - 5)) (F64.fin 2.0) else B

/-- The special-cased reason of `GetBestApplicant`. -/
def jonathanReason : String :=
  "Danish excellence, impeccable Go skills, can center a div without Stack Overflow, and possesses the rare ability to write self-documenting code. Also has minor time travel capabilities."

/-- Specification wording of the generic reason: the score interpolated with 2 decimals. -/
def specGenericReason (overallScore : F64) : String :=
  "Scored " ++ formatFloat2 overallScore
    ++ "% based on our completely objective and unbiased algorithm."

section scoreSteps

variable (lowerCase : Char → Char)

/-- The steps of `CalculateOverallScore` between the weighted sum and the clamp, as a function
of the weighted sum `x`: the Java penalty, the additive adjustments, the JavaScript penalty. -/
def scoreFromWeighted (skills : List String) (yearsExperience : Int)
    (canExitVim knowsGo debugsInProduction : Bool) (x : F64) : F64 :=
  let b := if ContainsSkill lowerCase skills "Java" && !knowsGo then x * F64.lit 0.7 else x
  let b := specAdjusted canExitVim debugsInProduction yearsExperience skills.length b
  if ContainsSkill lowerCase skills "JavaScript" && !ContainsSkill lowerCase skills "TypeScript"
      && !knowsGo then b * F64.fin 0.75
  else b

end scoreSteps

/-- A persistence layer holding `janeRow` whose count query returns 2^31. -/
def hugeCountQuerier : Querier :=
  { janeQuerier with CountApplicants := fun _ => Except.ok 2147483648 }

/-- A name of 200 characters, each the two-byte letter "ø". -/
def longDanishName : String := String.mk (List.replicate 200 'ø')

/-! ## Basic facts on float64

### Rounding to binary64 -/

namespace F64

theorem tiesToEven_intCast (n : Int) : tiesToEven (n : ℚ) = n := by
  simp [tiesToEven]

theorem floor_le_tiesToEven (x : ℚ) : ⌊x⌋ ≤ tiesToEven x := by
  unfold tiesToEven
  split_ifs <;> omega

theorem tiesToEven_le_floor_add_one (x : ℚ) : tiesToEven x ≤ ⌊x⌋ + 1 := by
  unfold tiesToEven
  split_ifs <;> omega

theorem tiesToEven_mono {x y : ℚ} (h : x ≤ y) : tiesToEven x ≤ tiesToEven y := by
  have hf : ⌊x⌋ ≤ ⌊y⌋ := Int.floor_mono h
  rcases lt_or_eq_of_le hf with hlt | heq
  · have h1 := tiesToEven_le_floor_add_one x
    have h2 := floor_le_tiesToEven y
    omega
  · unfold tiesToEven
    rw [← heq]
    have hxy : x - ⌊x⌋ ≤ y - ⌊x⌋ := by linarith
    split_ifs <;> first | omega | (exfalso; linarith)

theorem tiesToEven_eq_of_near {x : ℚ} {m : Int} (h1 : (m : ℚ) - 1 / 2 < x)
    (h2 : x < m + 1 / 2) : tiesToEven x = m := by
  have hm := tiesToEven_mono h1.le
  have hM := tiesToEven_mono h2.le
  have hfl : ⌊x⌋ = m ∨ ⌊x⌋ = m - 1 := by
    have a1 : m - 1 ≤ ⌊x⌋ := by
      rw [Int.le_floor]; push_cast; linarith
    have a2 : ⌊x⌋ < m + 1 := by
      rw [Int.floor_lt]; push_cast; linarith
    omega
  rcases hfl with hf | hf
  · unfold tiesToEven
    rw [hf]
    rw [if_pos (by linarith)]
  · unfold tiesToEven
    rw [hf]
    have : ¬ (x - ((m - 1 : Int) : ℚ) < 1 / 2) := by push_cast; linarith
    rw [if_neg this, if_pos (by push_cast; linarith)]
    omega

theorem tiesToEven_neg (x : ℚ) : tiesToEven (-x) = -tiesToEven x := by
  by_cases hx : (⌊x⌋ : ℚ) = x
  · rw [← hx, ← Int.cast_neg, tiesToEven_intCast, tiesToEven_intCast]
  · have hlt : (⌊x⌋ : ℚ) < x := lt_of_le_of_ne (Int.floor_le x) hx
    have hfl : ⌊-x⌋ = -⌊x⌋ - 1 := by
      rw [Int.floor_eq_iff]
      have := Int.lt_floor_add_one x
      push_cast
      constructor <;> linarith
    unfold tiesToEven
    rw [hfl]
    push_cast
    split_ifs <;> first | omega | (exfalso; linarith)

theorem abs_sub_tiesToEven_le (x : ℚ) : |x - tiesToEven x| ≤ 1 / 2 := by
  have h1 := Int.floor_le x
  have h2 := Int.lt_floor_add_one x
  unfold tiesToEven
  rw [abs_le]
  split_ifs <;> push_cast <;> constructor <;> linarith

theorem two_zpow_pos (k : Int) : (0 : ℚ) < 2 ^ k := zpow_pos (by norm_num) k

theorem two_zpow_eq_intCast {n : Int} (h : 0 ≤ n) : ∃ z : Int, (2 : ℚ) ^ n = z := by
  obtain ⟨k, rfl⟩ := Int.eq_ofNat_of_zero_le h
  exact ⟨2 ^ k, by push_cast; rw [zpow_natCast]⟩

theorem ulpExp_neg (q : ℚ) : ulpExp (-q) = ulpExp q := by
  unfold ulpExp
  rw [abs_neg]

theorem ulpExp_ge (q : ℚ) : -1074 ≤ ulpExp q := le_max_right _ _

theorem log_sub_le_ulpExp (q : ℚ) : Int.log 2 |q| - 52 ≤ ulpExp q := le_max_left _ _

theorem nearest_neg (q : ℚ) : nearest (-q) = -nearest q := by
  unfold nearest
  rw [ulpExp_neg, neg_div, tiesToEven_neg]
  push_cast
  ring

theorem nearest_zero : nearest 0 = 0 := by
  unfold nearest
  rw [zero_div]
  have : tiesToEven 0 = 0 := by exact_mod_cast tiesToEven_intCast 0
  rw [this]
  simp

/-- A multiple of the spacing around `q` that is at least `q` is at least `nearest q`. -/
theorem nearest_le_of_le_grid {q : ℚ} {z : Int} (h : q ≤ z * 2 ^ ulpExp q) :
    nearest q ≤ z * 2 ^ ulpExp q := by
  unfold nearest
  have hp := two_zpow_pos (ulpExp q)
  have h1 : q / 2 ^ ulpExp q ≤ z := by
    rw [div_le_iff₀ hp]; exact h
  have h2 := tiesToEven_mono h1
  rw [tiesToEven_intCast] at h2
  have h3 : (tiesToEven (q / 2 ^ ulpExp q) : ℚ) ≤ z := by exact_mod_cast h2
  exact mul_le_mul_of_nonneg_right h3 hp.le

/-- A multiple of the spacing around `q` that is at most `q` is at most `nearest q`. -/
theorem grid_le_nearest_of_le {q : ℚ} {z : Int} (h : (z : ℚ) * 2 ^ ulpExp q ≤ q) :
    (z : ℚ) * 2 ^ ulpExp q ≤ nearest q := by
  unfold nearest
  have hp := two_zpow_pos (ulpExp q)
  have h1 : (z : ℚ) ≤ q / 2 ^ ulpExp q := by
    rw [le_div_iff₀ hp]; exact h
  have h2 := tiesToEven_mono h1
  rw [tiesToEven_intCast] at h2
  have h3 : (z : ℚ) ≤ tiesToEven (q / 2 ^ ulpExp q) := by exact_mod_cast h2
  exact mul_le_mul_of_nonneg_right h3 hp.le

/-- A power of two whose exponent is at least the spacing exponent is a multiple of the
spacing. -/
theorem two_zpow_eq_grid {j k : Int} (h : k ≤ j) : ∃ z : Int, (2 : ℚ) ^ j = z * 2 ^ k := by
  obtain ⟨z, hz⟩ := two_zpow_eq_intCast (sub_nonneg.mpr h)
  refine ⟨z, ?_⟩
  rw [← hz, ← zpow_add₀ (by norm_num : (2 : ℚ) ≠ 0)]
  congr 1
  ring

theorem nearest_nonneg {q : ℚ} (h : 0 ≤ q) : 0 ≤ nearest q := by
  have := grid_le_nearest_of_le (q := q) (z := 0) (by simpa using h)
  simpa using this

theorem ulpExp_mono {q1 q2 : ℚ} (h0 : 0 < q1) (h : q1 ≤ q2) : ulpExp q1 ≤ ulpExp q2 := by
  unfold ulpExp
  have h2 : 0 < q2 := lt_of_lt_of_le h0 h
  rw [abs_of_pos h0, abs_of_pos h2]
  have := Int.log_mono_right (b := 2) h0 h
  exact max_le_max (by omega) (le_refl _)

theorem nearest_mono_of_pos {q1 q2 : ℚ} (h0 : 0 < q1) (h : q1 ≤ q2) :
    nearest q1 ≤ nearest q2 := by
  have h2 : 0 < q2 := lt_of_lt_of_le h0 h
  rcases lt_or_eq_of_le (ulpExp_mono h0 h) with hk | hk
  · -- different spacings: a power of two lies between the two values
    have hk2 : ulpExp q2 = Int.log 2 |q2| - 52 := by
      have hge := ulpExp_ge q1
      unfold ulpExp at hk ⊢
      rcases max_cases (Int.log 2 |q2| - 52) (-1074) with ⟨e, _⟩ | ⟨e, _⟩
      · exact e
      · rw [e] at hk
        exact absurd hk (not_lt.mpr (le_max_right _ _))
    have hk1 := log_sub_le_ulpExp q1
    rw [abs_of_pos h2] at hk2
    rw [abs_of_pos h0] at hk1
    -- the power of two
    have hlo : (2 : ℚ) ^ Int.log 2 q2 ≤ q2 := by
      exact_mod_cast Int.zpow_log_le_self (b := 2) (by norm_num) h2
    have hhi : q1 < (2 : ℚ) ^ (Int.log 2 q1 + 1) := by
      exact_mod_cast Int.lt_zpow_succ_log_self (b := 2) (by norm_num) q1
    have hhi2 : (2 : ℚ) ^ (Int.log 2 q1 + 1) ≤ 2 ^ Int.log 2 q2 :=
      zpow_le_zpow_right₀ (by norm_num) (by omega)
    obtain ⟨z2, hz2⟩ := two_zpow_eq_grid (j := Int.log 2 q2) (k := ulpExp q2) (by omega)
    obtain ⟨z1, hz1⟩ := two_zpow_eq_grid (j := Int.log 2 q2) (k := ulpExp q1) (by omega)
    have a1 : nearest q1 ≤ 2 ^ Int.log 2 q2 := by
      rw [hz1]
      apply nearest_le_of_le_grid
      rw [← hz1]
      linarith
    have a2 : (2 : ℚ) ^ Int.log 2 q2 ≤ nearest q2 := by
      rw [hz2]
      apply grid_le_nearest_of_le
      rw [← hz2]
      exact hlo
    exact le_trans a1 a2
  · unfold nearest
    rw [hk]
    have hp := two_zpow_pos (ulpExp q2)
    have h1 : q1 / 2 ^ ulpExp q2 ≤ q2 / 2 ^ ulpExp q2 := div_le_div_of_nonneg_right h hp.le
    have h3 : (tiesToEven (q1 / 2 ^ ulpExp q2) : ℚ) ≤ tiesToEven (q2 / 2 ^ ulpExp q2) := by
      exact_mod_cast tiesToEven_mono h1
    exact mul_le_mul_of_nonneg_right h3 hp.le

/-- Rounding to the nearest binary64 value is monotone. -/
theorem nearest_mono {q1 q2 : ℚ} (h : q1 ≤ q2) : nearest q1 ≤ nearest q2 := by
  rcases lt_trichotomy 0 q1 with h1 | h1 | h1
  · exact nearest_mono_of_pos h1 h
  · subst h1
    rw [nearest_zero]
    exact nearest_nonneg h
  · rcases le_or_lt 0 q2 with h2 | h2
    · have a := nearest_nonneg h2
      have b := nearest_nonneg (q := -q1) (by linarith)
      rw [nearest_neg] at b
      linarith
    · have := @nearest_mono_of_pos (-q2) (-q1) (by linarith) (by linarith)
      rw [nearest_neg, nearest_neg] at this
      linarith

theorem abs_nearest_lt_of_log {q : ℚ} (hq : q ≠ 0) :
    |q| < 2 ^ (ulpExp q + 53) := by
  have hpos : 0 < |q| := abs_pos.mpr hq
  have h1 : |q| < (2 : ℚ) ^ (Int.log 2 |q| + 1) := by
    exact_mod_cast Int.lt_zpow_succ_log_self (b := 2) (by norm_num) |q|
  have h2 : (2 : ℚ) ^ (Int.log 2 |q| + 1) ≤ 2 ^ (ulpExp q + 53) :=
    zpow_le_zpow_right₀ (by norm_num) (by have := log_sub_le_ulpExp q; omega)
  exact lt_of_lt_of_le h1 h2

/-- A value `m * 2^k` with a significand `m` of at most 53 bits and an exponent `k` of at least
-1074 is its own nearest binary64 value. -/
theorem nearest_eq_self_of_repr {q : ℚ} (m k : Int) (hm : |m| < 2 ^ 53) (hk : -1074 ≤ k)
    (hq : q = m * 2 ^ k) : nearest q = q := by
  by_cases h0 : q = 0
  · rw [h0, nearest_zero]
  · have hpos : 0 < |q| := abs_pos.mpr h0
    have hlt : |q| < (2 : ℚ) ^ (53 + k) := by
      rw [hq, abs_mul, abs_of_pos (two_zpow_pos k), zpow_add₀ (by norm_num : (2 : ℚ) ≠ 0)]
      have : |(m : ℚ)| < 2 ^ (53 : Int) := by
        have : ((|m| : Int) : ℚ) < ((2 ^ 53 : Int) : ℚ) := by exact_mod_cast hm
        push_cast at this
        rw [zpow_ofNat]
        exact this
      exact mul_lt_mul_of_pos_right this (two_zpow_pos k)
    have hlog : Int.log 2 |q| < 53 + k := by
      rw [← Int.lt_zpow_iff_log_lt (by norm_num) hpos]
      exact_mod_cast hlt
    have hu : ulpExp q ≤ k := by
      unfold ulpExp
      exact max_le (by omega) hk
    obtain ⟨z, hz⟩ := two_zpow_eq_grid hu
    have hp := two_zpow_pos (ulpExp q)
    have e1 : q / 2 ^ ulpExp q = ((m * z : Int) : ℚ) := by
      rw [div_eq_iff hp.ne']
      push_cast
      rw [mul_assoc, ← hz]
      exact hq
    unfold nearest
    rw [e1, tiesToEven_intCast, ← e1]
    field_simp

theorem abs_tiesToEven_le {x : ℚ} {n : Int} (h : |x| ≤ n) : |tiesToEven x| ≤ n := by
  rw [abs_le] at h ⊢
  have h1 := tiesToEven_mono h.1
  have h2 := tiesToEven_mono h.2
  rw [← Int.cast_neg, tiesToEven_intCast] at h1
  rw [tiesToEven_intCast] at h2
  exact ⟨h1, h2⟩

/-- The nearest binary64 value is a fixed point of the rounding. -/
theorem nearest_nearest (q : ℚ) : nearest (nearest q) = nearest q := by
  by_cases h0 : q = 0
  · rw [h0, nearest_zero, nearest_zero]
  · have hp := two_zpow_pos (ulpExp q)
    have hlt := abs_nearest_lt_of_log h0
    have hx : |q / 2 ^ ulpExp q| ≤ ((2 ^ 53 : Int) : ℚ) := by
      rw [abs_div, abs_of_pos hp, div_le_iff₀ hp]
      push_cast
      have : (2 : ℚ) ^ (ulpExp q + 53) = 2 ^ 53 * 2 ^ ulpExp q := by
        rw [zpow_add₀ (by norm_num : (2 : ℚ) ≠ 0), mul_comm]
        norm_cast
      linarith
    have hm := abs_tiesToEven_le hx
    rcases lt_or_eq_of_le hm with hlt2 | heq
    · exact nearest_eq_self_of_repr (tiesToEven (q / 2 ^ ulpExp q)) (ulpExp q) hlt2
        (ulpExp_ge q) rfl
    · -- the significand is 2^53: the value is 2^52 at the next exponent
      have hsign : tiesToEven (q / 2 ^ ulpExp q) = 2 ^ 53
          ∨ tiesToEven (q / 2 ^ ulpExp q) = -2 ^ 53 := by
        rcases abs_cases (tiesToEven (q / 2 ^ ulpExp q)) with ⟨e, _⟩ | ⟨e, _⟩ <;> omega
      rcases hsign with e | e
      · refine nearest_eq_self_of_repr (2 ^ 52) (ulpExp q + 1) (by norm_num)
          (by have := ulpExp_ge q; omega) ?_
        unfold nearest
        rw [e, zpow_add₀ (by norm_num : (2 : ℚ) ≠ 0)]
        push_cast
        ring
      · refine nearest_eq_self_of_repr (-2 ^ 52) (ulpExp q + 1) (by norm_num)
          (by have := ulpExp_ge q; omega) ?_
        unfold nearest
        rw [e, zpow_add₀ (by norm_num : (2 : ℚ) ≠ 0)]
        push_cast
        ring

theorem nearest_of_round_eq_fin {q r : ℚ} (h : round q = fin r) : nearest r = r := by
  unfold round at h
  split_ifs at h
  rw [← fin.inj h]
  exact nearest_nearest q

theorem round_eq_fin_of_nearest {q r : ℚ} (h : nearest q = r) (h1 : r < 2 ^ 1024)
    (h2 : -2 ^ 1024 < r) : round q = fin r := by
  unfold round
  rw [h, if_neg (not_le.mpr h1), if_neg (not_le.mpr h2)]

/-- A result of the rounding is a binary64 value: rounding it again changes nothing. -/
theorem round_of_round_eq_fin {q r : ℚ} (h : round q = fin r) : round r = fin r := by
  have hn := nearest_of_round_eq_fin h
  unfold round at h ⊢
  split_ifs at h with h1 h2
  rw [hn]
  have e := fin.inj h
  rw [e] at h1 h2
  rw [if_neg h1, if_neg h2]

theorem round_ne_nan (q : ℚ) : round q ≠ nan := by
  unfold round
  split_ifs <;> exact fun h => F64.noConfusion h

theorem round_zero : round 0 = fin 0 := by
  unfold round
  rw [nearest_zero]
  norm_num

/-- A value `m * 2^k` with a significand of at most 53 bits, an exponent of at least -1074 and
a magnitude below 2^1024 is a binary64 value: the rounding returns it. -/
theorem round_eq_self (q : ℚ) (m k : Int) (hm : |m| < 2 ^ 53) (hk : -1074 ≤ k)
    (hq : q = m * 2 ^ k) (h1 : q < 2 ^ 1024) (h2 : -2 ^ 1024 < q) : round q = fin q :=
  round_eq_fin_of_nearest (nearest_eq_self_of_repr m k hm hk hq) h1 h2

theorem round_intCast (n : Int) (h : |n| < 2 ^ 53) : round (n : ℚ) = fin n := by
  refine round_eq_self _ n 0 h (by norm_num) (by simp) ?_ ?_
  · have h1 : (n : ℚ) < ((2 ^ 53 : Int) : ℚ) := by
      exact_mod_cast lt_of_le_of_lt (le_abs_self n) h
    have h2 : (((2 ^ 53 : Int) : ℚ)) ≤ 2 ^ 1024 := by norm_num
    linarith
  · have h1 : ((-(2 ^ 53) : Int) : ℚ) < (n : ℚ) := by
      exact_mod_cast (abs_lt.mp h).1
    have h2 : -(2 : ℚ) ^ 1024 ≤ ((-(2 ^ 53) : Int) : ℚ) := by norm_num
    linarith

theorem ulpExp_eq_of_bounds {q : ℚ} (e : Int) (h1 : (2 : ℚ) ^ e ≤ q) (h2 : q < 2 ^ (e + 1))
    (he : -1022 ≤ e) : ulpExp q = e - 52 := by
  have hq : 0 < q := lt_of_lt_of_le (two_zpow_pos e) h1
  have hlog : Int.log 2 q = e := by
    apply le_antisymm
    · have : Int.log 2 q < e + 1 := by
        rw [← Int.lt_zpow_iff_log_lt (by norm_num) hq]
        exact_mod_cast h2
      omega
    · rw [← Int.zpow_le_iff_le_log (by norm_num) hq]
      exact_mod_cast h1
  unfold ulpExp
  rw [abs_of_pos hq, hlog]
  exact max_eq_left (by omega)

/-- Evaluation of the rounding of a positive value in the normal range: `q` lies in
`[2^e, 2^(e+1))` and `m` is the integer nearest to `q / 2^(e-52)`. -/
theorem round_eq_of_pos {q r : ℚ} (e m : Int) (he : -1022 ≤ e) (h1 : (2 : ℚ) ^ e ≤ q)
    (h2 : q < 2 ^ (e + 1)) (hm1 : (m : ℚ) - 1 / 2 < q / 2 ^ (e - 52))
    (hm2 : q / 2 ^ (e - 52) < m + 1 / 2) (hr : r = m * 2 ^ (e - 52)) (hb1 : r < 2 ^ 1024)
    (hb2 : -2 ^ 1024 < r) : round q = fin r := by
  apply round_eq_fin_of_nearest _ hb1 hb2
  unfold nearest
  rw [ulpExp_eq_of_bounds e h1 h2 he, tiesToEven_eq_of_near hm1 hm2, hr]

/-- Evaluation of the rounding of a positive value in the normal range on a tie:
`q / 2^(e-52)` lies halfway between two integers and `m` is the even one. -/
theorem round_eq_of_pos_tie {q r : ℚ} (e m : Int) (he : -1022 ≤ e) (h1 : (2 : ℚ) ^ e ≤ q)
    (h2 : q < 2 ^ (e + 1))
    (hm : q / 2 ^ (e - 52) = m + 1 / 2 ∨ q / 2 ^ (e - 52) = m - 1 / 2) (hev : m % 2 = 0)
    (hr : r = m * 2 ^ (e - 52)) (hb1 : r < 2 ^ 1024) (hb2 : -2 ^ 1024 < r) :
    round q = fin r := by
  have key : tiesToEven (q / 2 ^ (e - 52)) = m := by
    rcases hm with hm | hm
    · have hfl : ⌊q / 2 ^ (e - 52)⌋ = m := by
        rw [hm, Int.floor_eq_iff]
        constructor <;> linarith
      unfold tiesToEven
      rw [hfl, hm]
      norm_num
      exact Int.dvd_of_emod_eq_zero hev
    · have hfl : ⌊q / 2 ^ (e - 52)⌋ = m - 1 := by
        rw [hm, Int.floor_eq_iff]
        push_cast
        constructor <;> linarith
      unfold tiesToEven
      rw [hfl, hm]
      push_cast
      norm_num
      omega
  apply round_eq_fin_of_nearest _ hb1 hb2
  unfold nearest
  rw [ulpExp_eq_of_bounds e h1 h2 he, key, hr]

theorem round_neg (q : ℚ) : round (-q) = neg (round q) := by
  unfold round
  rw [nearest_neg]
  by_cases h1 : 2 ^ 1024 ≤ nearest q
  · have h2 : ¬ (2 : ℚ) ^ 1024 ≤ -nearest q := by
      have : (0 : ℚ) < 2 ^ 1024 := by positivity
      intro h
      linarith
    have h3 : -nearest q ≤ -2 ^ 1024 := by linarith
    rw [if_pos h1, if_neg h2, if_pos h3]
    rfl
  · by_cases h2 : nearest q ≤ -2 ^ 1024
    · have h3 : (2 : ℚ) ^ 1024 ≤ -nearest q := by linarith
      rw [if_neg h1, if_pos h2, if_pos h3]
      rfl
    · have h3 : ¬ (2 : ℚ) ^ 1024 ≤ -nearest q := by
        intro h
        exact h2 (by linarith)
      have h4 : ¬ -nearest q ≤ -2 ^ 1024 := by
        intro h
        exact h1 (by linarith)
      rw [if_neg h1, if_neg h2, if_neg h3, if_neg h4]
      rfl

/-- Evaluation of the rounding of a negative value from that of its opposite. -/
theorem round_eq_of_neg {q r : ℚ} (p s : ℚ) (hq : q = -p) (hp : round p = fin s)
    (hr : r = -s) : round q = fin r := by
  rw [hq, hr, round_neg, hp]
  rfl

/-- The rounding to binary64 is monotone. -/
theorem round_mono {a b : ℚ} (h : a ≤ b) : le (round a) (round b) = true := by
  have hn := nearest_mono h
  have hpos : (0 : ℚ) < 2 ^ 1024 := by positivity
  unfold round
  by_cases a1 : 2 ^ 1024 ≤ nearest a
  · have b1 : (2 : ℚ) ^ 1024 ≤ nearest b := le_trans a1 hn
    rw [if_pos a1, if_pos b1]
    rfl
  · rw [if_neg a1]
    by_cases a2 : nearest a ≤ -2 ^ 1024
    · rw [if_pos a2]
      split_ifs <;> rfl
    · rw [if_neg a2]
      by_cases b1 : 2 ^ 1024 ≤ nearest b
      · rw [if_pos b1]
        rfl
      · have b2 : ¬ nearest b ≤ -2 ^ 1024 := fun hb => a2 (le_trans hn hb)
        rw [if_neg b1, if_neg b2]
        simpa [le] using hn

end F64

/-! ### Arithmetic, comparisons, `math.Min`, `math.Max` and `math.Round` -/

namespace F64

theorem add_def (x y : F64) : x + y = add x y := rfl

theorem mul_def (x y : F64) : x * y = mul x y := rfl

theorem sub_def (x y : F64) : x - y = add x (neg y) := rfl

theorem div_def (x y : F64) : x / y = div x y := rfl

@[simp] theorem fin_add_fin (a b : ℚ) : fin a + fin b = round (a + b) := rfl

@[simp] theorem fin_sub_fin (a b : ℚ) : fin a - fin b = round (a - b) := by
  show round (a + -b) = round (a - b)
  rw [sub_eq_add_neg]

@[simp] theorem fin_mul_fin (a b : ℚ) : fin a * fin b = round (a * b) := rfl

theorem fin_div_fin (a b : ℚ) (hb : b ≠ 0) : fin a / fin b = round (a / b) := by
  show div (fin a) (fin b) = round (a / b)
  simp [div, hb]

@[simp] theorem fin_div_hundred (a : ℚ) : fin a / fin 100 = round (a / 100) :=
  fin_div_fin a 100 (by norm_num)

@[simp] theorem nan_add (x : F64) : nan + x = nan := by cases x <;> rfl

@[simp] theorem add_nan (x : F64) : x + nan = nan := by cases x <;> rfl

@[simp] theorem nan_mul (x : F64) : nan * x = nan := by cases x <;> rfl

@[simp] theorem mul_nan (x : F64) : x * nan = nan := by cases x <;> rfl

@[simp] theorem nan_sub (x : F64) : nan - x = nan := by cases x <;> rfl

@[simp] theorem nan_div (x : F64) : nan / x = nan := by cases x <;> rfl

@[simp] theorem lt_fin_fin (a b : ℚ) : lt (fin a) (fin b) = decide (a < b) := rfl

@[simp] theorem le_fin_fin (a b : ℚ) : le (fin a) (fin b) = decide (a ≤ b) := rfl

theorem ofInt_eq (n : Int) : ofInt n = round n := rfl

@[simp] theorem Round_fin (a : ℚ) : Round (fin a) = fin (roundHalfAway a) := rfl

theorem Min_fin_fin (a b : ℚ) : Min (fin a) (fin b) = fin (min a b) := by
  show (if lt (fin a) (fin b) then fin a else fin b) = fin (min a b)
  rw [lt_fin_fin]
  by_cases h : a < b
  · simp [h, min_eq_left h.le]
  · simp [h, min_eq_right (not_lt.mp h)]

theorem Max_fin_fin (a b : ℚ) : Max (fin a) (fin b) = fin (max a b) := by
  show (if gt (fin a) (fin b) then fin a else fin b) = fin (max a b)
  rw [gt, lt_fin_fin]
  by_cases h : b < a
  · simp [h, max_eq_left h.le]
  · simp [h, max_eq_right (not_lt.mp h)]

theorem mul_swap (x y : F64) : x * y = y * x := by
  cases x <;> cases y <;> first | rfl | exact congrArg round (mul_comm _ _)

theorem eq_fin_of_isFinite {x : F64} (h : x.isFinite = true) : ∃ q, x = fin q := by
  cases x <;> simp [isFinite] at h
  exact ⟨_, rfl⟩

theorem roundHalfAway_nonneg {q : ℚ} (h : 0 ≤ q) : 0 ≤ roundHalfAway q := by
  rw [roundHalfAway, if_pos h]
  exact Int.floor_nonneg.mpr (by linarith)

theorem roundHalfAway_le {q : ℚ} {n : Int} (h0 : 0 ≤ q) (h : q ≤ n) : roundHalfAway q ≤ n := by
  rw [roundHalfAway, if_pos h0]
  have : ⌊q + 1 / 2⌋ < n + 1 := by
    rw [Int.floor_lt]
    push_cast
    linarith
  omega

theorem roundHalfAway_mono {x y : ℚ} (h : x ≤ y) : roundHalfAway x ≤ roundHalfAway y := by
  unfold roundHalfAway
  by_cases hx : 0 ≤ x
  · have hy : 0 ≤ y := le_trans hx h
    rw [if_pos hx, if_pos hy]
    exact Int.floor_mono (by linarith)
  · rw [if_neg hx]
    by_cases hy : 0 ≤ y
    · rw [if_pos hy]
      have h1 : 0 ≤ ⌊-x + 1 / 2⌋ := Int.floor_nonneg.mpr (by linarith)
      have h2 : 0 ≤ ⌊y + 1 / 2⌋ := Int.floor_nonneg.mpr (by linarith)
      omega
    · rw [if_neg hy]
      have := Int.floor_mono (show -y + 1 / 2 ≤ -x + 1 / 2 by linarith)
      omega

/-! ### The order of float64 values -/

theorem ninf_le {x : F64} (h : x ≠ nan) : le ninf x = true := by
  cases x <;> first | rfl | exact absurd rfl h

theorem le_pinf {x : F64} (h : x ≠ nan) : le x pinf = true := by
  cases x <;> first | rfl | exact absurd rfl h

theorem ne_nan_of_le_left {x y : F64} (h : le x y = true) : x ≠ nan := by
  intro e
  rw [e] at h
  exact absurd h (by simp [le])

theorem ne_nan_of_le_right {x y : F64} (h : le x y = true) : y ≠ nan := by
  intro e
  rw [e] at h
  cases x <;> exact absurd h (by simp [le])

theorem le_self {x : F64} (h : x ≠ nan) : le x x = true := by
  cases x <;> first | rfl | exact absurd rfl h | simp

theorem le_trans' {x y z : F64} (h1 : le x y = true) (h2 : le y z = true) :
    le x z = true := by
  cases x <;> cases y <;> cases z <;> simp_all [le]
  exact h1.trans h2

theorem add_fin_mono {x y : F64} (h : le x y = true) (c : ℚ) :
    le (x + fin c) (y + fin c) = true := by
  rw [add_def, add_def]
  cases x <;> cases y <;> first
    | (exfalso; simp [le] at h; done)
    | (apply ninf_le; simp [add, round_ne_nan])
    | (apply le_pinf; simp [add, round_ne_nan])
    | (rename_i a b
       exact round_mono (by have : a ≤ b := by simpa [le] using h
                            linarith))

theorem sub_fin_mono {x y : F64} (h : le x y = true) (c : ℚ) :
    le (x - fin c) (y - fin c) = true :=
  add_fin_mono h (-c)

theorem mul_fin_mono {x y : F64} (h : le x y = true) {c : ℚ} (hc : 0 < c) :
    le (x * fin c) (y * fin c) = true := by
  rw [mul_def, mul_def]
  have e1 : infTimes true c = pinf := by simp [infTimes, hc.ne', hc]
  have e2 : infTimes false c = ninf := by simp [infTimes, hc.ne', hc]
  cases x <;> cases y <;> first
    | (exfalso; simp [le] at h; done)
    | (simp only [mul, e1, e2]; first | (apply ninf_le; simp [round_ne_nan])
                                      | (apply le_pinf; simp [round_ne_nan]))
    | (rename_i a b
       exact round_mono (by have : a ≤ b := by simpa [le] using h
                            exact mul_le_mul_of_nonneg_right this hc.le))

theorem div_fin_mono {x y : F64} (h : le x y = true) {c : ℚ} (hc : 0 < c) :
    le (x / fin c) (y / fin c) = true := by
  rw [div_def, div_def]
  cases x <;> cases y <;> first
    | (exfalso; simp [le] at h; done)
    | (simp only [div, hc.ne', hc.le, if_true, if_false]
       first | (apply ninf_le; simp [round_ne_nan])
             | (apply le_pinf; simp [round_ne_nan])
             | (rename_i a b
                exact round_mono (by have : a ≤ b := by simpa [le] using h
                                     exact div_le_div_of_nonneg_right this hc.le)))

theorem Min_pinf_fin (c : ℚ) : Min pinf (fin c) = fin c := by simp [Min, lt]

theorem Max_fin_ninf (c : ℚ) : Max (fin c) ninf = fin c := by simp [Max, gt, lt]

theorem Min_fin_ne_nan {y : F64} (h : y ≠ nan) (c : ℚ) : Min y (fin c) ≠ nan := by
  cases y with
  | nan => exact absurd rfl h
  | ninf => exact fun e => F64.noConfusion e
  | pinf => rw [Min_pinf_fin]; exact fun e => F64.noConfusion e
  | fin b => rw [Min_fin_fin]; exact fun e => F64.noConfusion e

theorem Max_fin_ne_nan {y : F64} (h : y ≠ nan) (c : ℚ) : Max (fin c) y ≠ nan := by
  cases y with
  | nan => exact absurd rfl h
  | ninf => rw [Max_fin_ninf]; exact fun e => F64.noConfusion e
  | pinf => exact fun e => F64.noConfusion e
  | fin b => rw [Max_fin_fin]; exact fun e => F64.noConfusion e

theorem Min_fin_mono {x y : F64} (h : le x y = true) (c : ℚ) :
    le (Min x (fin c)) (Min y (fin c)) = true := by
  have hy := ne_nan_of_le_right h
  cases x with
  | nan => simp [le] at h
  | ninf => exact ninf_le (Min_fin_ne_nan hy c)
  | pinf =>
    cases y with
    | pinf => rw [Min_pinf_fin]; simp
    | _ => simp [le] at h
  | fin a =>
    cases y with
    | nan => simp [le] at h
    | ninf => simp [le] at h
    | pinf =>
      rw [Min_pinf_fin, Min_fin_fin]
      simp
    | fin b =>
      have hab : a ≤ b := by simpa [le] using h
      rw [Min_fin_fin, Min_fin_fin, le_fin_fin, decide_eq_true_eq]
      exact min_le_min hab (le_refl c)

theorem Max_fin_mono {x y : F64} (h : le x y = true) (c : ℚ) :
    le (Max (fin c) x) (Max (fin c) y) = true := by
  have hx := ne_nan_of_le_left h
  cases y with
  | nan => exact absurd rfl (ne_nan_of_le_right h)
  | pinf => exact le_pinf (Max_fin_ne_nan hx c)
  | ninf =>
    cases x with
    | ninf => rw [Max_fin_ninf]; simp
    | _ => simp [le] at h
  | fin b =>
    cases x with
    | nan => simp [le] at h
    | pinf => simp [le] at h
    | ninf =>
      rw [Max_fin_ninf, Max_fin_fin]
      simp
    | fin a =>
      have hab : a ≤ b := by simpa [le] using h
      rw [Max_fin_fin, Max_fin_fin, le_fin_fin, decide_eq_true_eq]
      exact max_le_max (le_refl c) hab

theorem Round_mono {x y : F64} (h : le x y = true) : le (Round x) (Round y) = true := by
  cases x <;> cases y <;> first
    | (exfalso; simp [le] at h; done)
    | rfl
    | (rename_i a b
       have hab : a ≤ b := by simpa [le] using h
       simp only [Round, le_fin_fin, decide_eq_true_eq]
       exact_mod_cast roundHalfAway_mono hab)

end F64

namespace F64

theorem add_swap (x y : F64) : x + y = y + x := by
  cases x <;> cases y <;> first | rfl | exact congrArg round (add_comm _ _)

theorem lt_eq_false_of_le {x y : F64} (h : le x y = true) : lt y x = false := by
  cases x <;> cases y <;> simp_all [le, lt]

theorem lt_nan_right (x : F64) : lt x nan = false := by
  cases x <;> rfl

theorem lt_nan_left (x : F64) : lt nan x = false := by
  cases x <;> rfl

theorem le_total_of_ne_nan {x y : F64} (hx : x ≠ nan) (hy : y ≠ nan) :
    le x y = true ∨ le y x = true := by
  cases x <;> cases y <;> simp_all [le]
  exact le_total _ _

theorem eq_of_le_of_le {x y : F64} (h1 : le x y = true) (h2 : le y x = true) : x = y := by
  cases x <;> cases y <;> simp_all [le]
  exact le_antisymm h1 h2

/-- A sum that is finite is a binary64 value. -/
theorem round_of_add_eq_fin {x y : F64} {r : ℚ} (h : x + y = fin r) : round r = fin r := by
  rw [add_def] at h
  cases x <;> cases y <;> simp only [add] at h <;>
    first | exact F64.noConfusion h | exact round_of_round_eq_fin h

/-- A product that is finite is a binary64 value. -/
theorem round_of_mul_eq_fin {x y : F64} {r : ℚ} (h : x * y = fin r) : round r = fin r := by
  rw [mul_def] at h
  cases x <;> cases y <;> simp only [mul, infTimes] at h <;>
    first
    | exact F64.noConfusion h
    | exact round_of_round_eq_fin h
    | split_ifs at h

theorem zero_mul_fin (c : ℚ) : fin 0 * fin c = fin 0 := by
  rw [fin_mul_fin, zero_mul, round_zero]

theorem leOrNaN_of_le {x y : F64} (h : le x y = true) : leOrNaN x y := Or.inr (Or.inr h)

/-- A function that keeps NaN and is monotone on the other values keeps `leOrNaN`. -/
theorem leOrNaN_map {f : F64 → F64} (hnan : f nan = nan)
    (hmono : ∀ x y, le x y = true → le (f x) (f y) = true) {x y : F64} (h : leOrNaN x y) :
    leOrNaN (f x) (f y) := by
  rcases h with h | h | h
  · left; rw [h, hnan]
  · right; left; rw [h, hnan]
  · right; right; exact hmono x y h

theorem leOrNaN_add_right {x y : F64} (h : leOrNaN x y) (z : F64) :
    leOrNaN (x + z) (y + z) := by
  rcases h with h | h | h
  · left; rw [h, nan_add]
  · right; left; rw [h, nan_add]
  · cases z with
    | nan => left; rw [add_nan]
    | fin c => exact leOrNaN_of_le (add_fin_mono h c)
    | pinf =>
      rw [add_def, add_def]
      cases x <;> cases y <;> simp_all [le, add, leOrNaN]
    | ninf =>
      rw [add_def, add_def]
      cases x <;> cases y <;> simp_all [le, add, leOrNaN]

theorem leOrNaN_add_left {x y : F64} (h : leOrNaN x y) (z : F64) :
    leOrNaN (z + x) (z + y) := by
  rw [add_swap z x, add_swap z y]
  exact leOrNaN_add_right h z

theorem leOrNaN_mul_fin {x y : F64} (h : leOrNaN x y) {c : ℚ} (hc : 0 < c) :
    leOrNaN (x * fin c) (y * fin c) :=
  leOrNaN_map (f := fun v => v * fin c) (nan_mul _) (fun _ _ h => mul_fin_mono h hc) h

theorem leOrNaN_add_fin {x y : F64} (h : leOrNaN x y) (c : ℚ) :
    leOrNaN (x + fin c) (y + fin c) :=
  leOrNaN_add_right h (fin c)

theorem leOrNaN_sub_fin {x y : F64} (h : leOrNaN x y) (c : ℚ) :
    leOrNaN (x - fin c) (y - fin c) :=
  leOrNaN_add_right h (fin (-c))

/-- What `leOrNaN old new` says of Go's comparisons: `new < old` is false, and `old <= new`
holds when neither value is NaN. -/
theorem lt_false_of_leOrNaN {x y : F64} (h : leOrNaN x y) :
    lt y x = false ∧ (x ≠ nan → y ≠ nan → le x y = true) := by
  rcases h with h | h | h
  · rw [h]; exact ⟨lt_nan_right y, fun hx => absurd rfl hx⟩
  · rw [h]; exact ⟨lt_nan_left x, fun _ hy => absurd rfl hy⟩
  · exact ⟨lt_eq_false_of_le h, fun _ _ => h⟩

/-- Sum of two values with finite lower bounds. -/
theorem add_ge_of_ge {x z : F64} {a c : ℚ} (hx : le (fin a) x = true)
    (hz : le (fin c) z = true) : le (round (a + c)) (x + z) = true := by
  rw [add_def]
  cases x <;> cases z <;> first
    | (exfalso; simp [le] at hx; done)
    | (exfalso; simp [le] at hz; done)
    | (apply le_pinf; simp [add, round_ne_nan])
    | (rename_i p q
       exact round_mono (by have h1 : a ≤ p := by simpa [le] using hx
                            have h2 : c ≤ q := by simpa [le] using hz
                            linarith))

theorem add_nonneg_of_nonneg {x z : F64} (hx : le (fin 0) x = true)
    (hz : le (fin 0) z = true) : le (fin 0) (x + z) = true := by
  have := add_ge_of_ge hx hz
  rwa [add_zero, round_zero] at this

theorem mul_fin_nonneg {x : F64} (hx : le (fin 0) x = true) {c : ℚ} (hc : 0 < c) :
    le (fin 0) (x * fin c) = true := by
  have := mul_fin_mono hx hc
  rwa [zero_mul_fin] at this

/-- Multiplying a non-negative binary64 value by a factor between 0 and 1 does not raise it. -/
theorem mul_fin_le_self {x : F64} {c : ℚ} (hc0 : 0 < c) (hc1 : c ≤ 1)
    (hx : le (fin 0) x = true) (hr : ∀ r, x = fin r → round r = fin r) :
    le (x * fin c) x = true := by
  cases x with
  | nan => simp [le] at hx
  | ninf => simp [le] at hx
  | pinf => simp [mul_def, mul, infTimes, hc0.ne', hc0, le]
  | fin a =>
    have ha : 0 ≤ a := by simpa [le] using hx
    have h1 : a * c ≤ a := by nlinarith
    have h2 := round_mono h1
    rw [hr a rfl] at h2
    exact h2

theorem Min_eq_right_of_le {z : F64} {c : ℚ} (h : le (fin c) z = true) :
    Min z (fin c) = fin c := by
  cases z with
  | nan => simp [le] at h
  | ninf => simp [le] at h
  | pinf => exact Min_pinf_fin c
  | fin b =>
    have hb : c ≤ b := by simpa [le] using h
    rw [Min_fin_fin, min_eq_right hb]

/-- `math.Min` of a value with a finite lower bound and a constant is finite. -/
theorem Min_fin_of_ge {z : F64} {a c : ℚ} (h : le (fin a) z = true) :
    ∃ m : ℚ, Min z (fin c) = fin m ∧ min a c ≤ m ∧ m ≤ c := by
  cases z with
  | nan => simp [le] at h
  | ninf => simp [le] at h
  | pinf => exact ⟨c, Min_pinf_fin c, min_le_right _ _, le_refl _⟩
  | fin b =>
    have hb : a ≤ b := by simpa [le] using h
    exact ⟨min b c, Min_fin_fin b c, min_le_min hb (le_refl c), min_le_right _ _⟩

end F64

theorem lit_04 : F64.lit 0.4 = F64.fin (3602879701896397 / 9007199254740992) :=
  F64.round_eq_of_pos (-2) 7205759403792794 (by norm_num) (by norm_num) (by norm_num)
    (by norm_num) (by norm_num) (by norm_num) (by norm_num) (by norm_num)

theorem lit_03 : F64.lit 0.3 = F64.fin (5404319552844595 / 18014398509481984) :=
  F64.round_eq_of_pos (-2) 5404319552844595 (by norm_num) (by norm_num) (by norm_num)
    (by norm_num) (by norm_num) (by norm_num) (by norm_num) (by norm_num)

theorem lit_07 : F64.lit 0.7 = F64.fin (3152519739159347 / 4503599627370496) :=
  F64.round_eq_of_pos (-1) 6305039478318694 (by norm_num) (by norm_num) (by norm_num)
    (by norm_num) (by norm_num) (by norm_num) (by norm_num) (by norm_num)

theorem lit_02 : F64.lit 0.2 = F64.fin (3602879701896397 / 18014398509481984) :=
  F64.round_eq_of_pos (-3) 7205759403792794 (by norm_num) (by norm_num) (by norm_num)
    (by norm_num) (by norm_num) (by norm_num) (by norm_num) (by norm_num)

/-! ## The score calculator -/

section score

variable (lowerCase : Char → Char)

theorem CalculateOverallScore_eq_clampAndRound (name : String) (skills : List String)
    (yearsExperience : Int) (interviewScore culturalFitScore technicalScore : F64)
    (canExitVim knowsGo debugsInProduction : Bool) :
    CalculateOverallScore lowerCase name skills yearsExperience interviewScore culturalFitScore
        technicalScore canExitVim knowsGo debugsInProduction
      = clampAndRound (scoreBeforeClamp lowerCase skills yearsExperience interviewScore
          culturalFitScore technicalScore canExitVim knowsGo debugsInProduction) := rfl

theorem clampAndRound_nan : clampAndRound F64.nan = F64.nan := rfl

/-- The clamp and the rounding are monotone. -/
theorem clampAndRound_mono {x y : F64} (h : F64.le x y = true) :
    F64.le (clampAndRound x) (clampAndRound y) = true :=
  F64.div_fin_mono (F64.Round_mono (F64.mul_fin_mono
    (F64.Max_fin_mono (F64.Min_fin_mono h 100) 0) (by norm_num))) (by norm_num)

theorem clampAndRound_zero : clampAndRound (F64.fin 0) = F64.fin 0 := by
  have h1 : F64.Min (F64.fin 0) (F64.fin 100) = F64.fin 0 := by
    rw [F64.Min_fin_fin]
    norm_num
  have h2 : F64.Max (F64.fin 0) (F64.fin 0) = F64.fin 0 := by
    rw [F64.Max_fin_fin]
    norm_num
  have h3 : F64.fin 0 * F64.fin 100 = F64.fin 0 := F64.zero_mul_fin 100
  have h4 : F64.Round (F64.fin 0) = F64.fin 0 := by
    rw [F64.Round_fin]
    norm_num [F64.roundHalfAway]
  have h5 : F64.fin 0 / F64.fin 100 = F64.fin 0 := by
    rw [F64.fin_div_hundred, zero_div, F64.round_zero]
  simp only [clampAndRound, h1, h2, h3, h4, h5]

theorem clampAndRound_hundred : clampAndRound (F64.fin 100) = F64.fin 100 := by
  have h1 : F64.Min (F64.fin 100) (F64.fin 100) = F64.fin 100 := by
    rw [F64.Min_fin_fin]
    norm_num
  have h2 : F64.Max (F64.fin 0) (F64.fin 100) = F64.fin 100 := by
    rw [F64.Max_fin_fin]
    norm_num
  have h3 : F64.fin 100 * F64.fin 100 = F64.fin 10000 := by
    rw [F64.fin_mul_fin]
    exact F64.round_eq_of_pos (13) 5497558138880000 (by norm_num) (by norm_num) (by norm_num)
      (by norm_num) (by norm_num) (by norm_num) (by norm_num) (by norm_num)
  have h4 : F64.Round (F64.fin 10000) = F64.fin 10000 := by
    rw [F64.Round_fin]
    norm_num [F64.roundHalfAway]
  have h5 : F64.fin 10000 / F64.fin 100 = F64.fin 100 := by
    rw [F64.fin_div_hundred]
    exact F64.round_eq_of_pos (6) 7036874417766400 (by norm_num) (by norm_num) (by norm_num)
      (by norm_num) (by norm_num) (by norm_num) (by norm_num) (by norm_num)
  simp only [clampAndRound, h1, h2, h3, h4, h5]

theorem clampAndRound_ninf : clampAndRound F64.ninf = F64.fin 0 := by
  have h : clampAndRound F64.ninf = clampAndRound (F64.fin 0) := by
    have h1 : F64.Min (F64.fin 0) (F64.fin 100) = F64.fin 0 := by
      rw [F64.Min_fin_fin]
      norm_num
    have h2 : F64.Max (F64.fin 0) (F64.fin 0) = F64.fin 0 := by
      rw [F64.Max_fin_fin]
      norm_num
    have h3 : F64.Min F64.ninf (F64.fin 100) = F64.ninf := rfl
    simp only [clampAndRound, h1, h2, h3, F64.Max_fin_ninf]
  rw [h, clampAndRound_zero]

theorem clampAndRound_pinf : clampAndRound F64.pinf = F64.fin 100 := by
  have h : clampAndRound F64.pinf = clampAndRound (F64.fin 100) := by
    have h1 : F64.Min (F64.fin 100) (F64.fin 100) = F64.fin 100 := by
      rw [F64.Min_fin_fin]
      norm_num
    simp only [clampAndRound, h1, F64.Min_pinf_fin]
  rw [h, clampAndRound_hundred]

/-- The clamp and the rounding send every value except NaN into the range 0-100. -/
theorem clampAndRound_range (b : F64) (hb : b ≠ F64.nan) :
    ∃ s : ℚ, clampAndRound b = F64.fin s ∧ 0 ≤ s ∧ s ≤ 100 := by
  have h1 := clampAndRound_mono (F64.ninf_le hb)
  have h2 := clampAndRound_mono (F64.le_pinf hb)
  rw [clampAndRound_ninf] at h1
  rw [clampAndRound_pinf] at h2
  cases h : clampAndRound b with
  | nan => rw [h] at h1; simp [F64.le] at h1
  | ninf => rw [h] at h1; simp [F64.le] at h1
  | pinf => rw [h] at h2; simp [F64.le] at h2
  | fin s =>
    rw [h] at h1 h2
    exact ⟨s, rfl, by simpa [F64.le] using h1, by simpa [F64.le] using h2⟩

theorem clampAndRound_nonneg {b : F64} (hb : b ≠ F64.nan) :
    F64.le (F64.fin 0) (clampAndRound b) = true := by
  have h1 := clampAndRound_mono (F64.ninf_le hb)
  rwa [clampAndRound_ninf] at h1

/-- A value that is at most 0 is clamped to 0. -/
theorem clampAndRound_of_le_zero {b : F64} (h : F64.le b (F64.fin 0) = true) :
    clampAndRound b = F64.fin 0 := by
  have h1 := clampAndRound_mono h
  rw [clampAndRound_zero] at h1
  exact F64.eq_of_le_of_le h1 (clampAndRound_nonneg (F64.ne_nan_of_le_left h))

theorem ContainsSkill_iff (skills : List String) (skill : String) :
    ContainsSkill lowerCase skills skill = true ↔ specContains lowerCase skills skill := by
  simp [ContainsSkill, specContains, List.any_eq_true]

theorem ContainsSkill_eq_decide (skills : List String) (skill : String) :
    ContainsSkill lowerCase skills skill = decide (specContains lowerCase skills skill) := by
  rw [Bool.eq_iff_iff, ContainsSkill_iff, decide_eq_true_iff]

theorem roundHalfAway_eq_sign (q : ℚ) :
    F64.roundHalfAway q = SignType.sign q * ⌊|q| + 1 / 2⌋ := by
  rcases lt_trichotomy q 0 with h | h | h
  · rw [F64.roundHalfAway, if_neg (not_le.mpr h), abs_of_neg h, sign_neg h]
    simp
  · subst h
    norm_num [F64.roundHalfAway]
  · rw [F64.roundHalfAway, if_pos h.le, abs_of_pos h, sign_pos h]
    simp

/-- Go's `math.Round` is the nearest integer with ties going away from zero. -/
theorem Round_eq_specHalfAway (x : F64) : F64.Round x = specHalfAway x := by
  cases x with
  | nan => rfl
  | ninf => rfl
  | pinf => rfl
  | fin q =>
    simp only [F64.Round, specHalfAway]
    rw [roundHalfAway_eq_sign]
    push_cast
    rfl

/-- The inlined rounding of the code, `math.Round(x*100) / 100`, is the rounding to 2 decimals
carried out in float64. -/
theorem Round_mul_div_eq_specRound2 (x : F64) :
    F64.Round (x * F64.fin 100) / F64.fin 100 = specRound2 x := by
  rw [Round_eq_specHalfAway]
  rfl

theorem RoundToTwoDecimals_eq_specRound2 (f : F64) : RoundToTwoDecimals f = specRound2 f :=
  Round_mul_div_eq_specRound2 f

theorem CalculateOverallScore_eq_specRound2_specClamp (name : String) (skills : List String)
    (yearsExperience : Int) (interviewScore culturalFitScore technicalScore : F64)
    (canExitVim knowsGo debugsInProduction : Bool) :
    CalculateOverallScore lowerCase name skills yearsExperience interviewScore culturalFitScore
        technicalScore canExitVim knowsGo debugsInProduction
      = specRound2 (specClamp (scoreBeforeClamp lowerCase skills yearsExperience interviewScore
          culturalFitScore technicalScore canExitVim knowsGo debugsInProduction)) := by
  rw [CalculateOverallScore_eq_clampAndRound]
  unfold clampAndRound specClamp
  exact Round_mul_div_eq_specRound2 _

theorem weighted_eq_specWeighted (i c t : F64) :
    (t * F64.lit 0.4) + (i * F64.lit 0.3) + (c * F64.lit 0.3) = specWeighted i c t := by
  unfold specWeighted
  rw [F64.mul_swap t, F64.mul_swap i, F64.mul_swap c]

theorem scoreBeforeClamp_eq_scoreFromWeighted (skills : List String) (yearsExperience : Int)
    (i c t : F64) (canExitVim knowsGo debugsInProduction : Bool) :
    scoreBeforeClamp lowerCase skills yearsExperience i c t canExitVim knowsGo
        debugsInProduction
      = scoreFromWeighted lowerCase skills yearsExperience canExitVim knowsGo debugsInProduction
          (specWeighted i c t) := by
  unfold scoreBeforeClamp scoreFromWeighted specAdjusted
  simp only [weighted_eq_specWeighted, F64.mul_swap (F64.ofInt _)]
  have hn : ((skills.length : Int) > 5) ↔ skills.length > 5 := by omega
  simp only [hn]

theorem CalculateOverallScore_eq_scoreFromWeighted (name : String) (skills : List String)
    (yearsExperience : Int) (i c t : F64) (canExitVim knowsGo debugsInProduction : Bool) :
    CalculateOverallScore lowerCase name skills yearsExperience i c t canExitVim knowsGo
        debugsInProduction
      = clampAndRound (scoreFromWeighted lowerCase skills yearsExperience canExitVim knowsGo
          debugsInProduction (specWeighted i c t)) := by
  rw [CalculateOverallScore_eq_clampAndRound, scoreBeforeClamp_eq_scoreFromWeighted]

end score

section scoreClaims

variable (lowerCase : Char → Char)

/-- C1: at the input with a NaN technical score (sub-scores 50, 50 and NaN, no skills, 0
years, no trait) the result of `CalculateOverallScore` is NaN, which is neither `>= 0` nor
`<= 100`: the comparisons of `math.Min` and `math.Max` let NaN through the clamp. -/
theorem CalculateOverallScore_nan_not_in_range :
    CalculateOverallScore id "Ann" [] 0 (F64.fin 50) (F64.fin 50) F64.nan
        false false false = F64.nan
    ∧ ¬ (F64.le (F64.fin 0) (CalculateOverallScore id "Ann" [] 0 (F64.fin 50) (F64.fin 50)
          F64.nan false false false) = true
      ∧ F64.le (CalculateOverallScore id "Ann" [] 0 (F64.fin 50) (F64.fin 50) F64.nan
          false false false) (F64.fin 100) = true) := by
  have h : CalculateOverallScore id "Ann" [] 0 (F64.fin 50) (F64.fin 50) F64.nan
      false false false = F64.nan := by
    rw [CalculateOverallScore_eq_clampAndRound]
    have hb : scoreBeforeClamp id [] 0 (F64.fin 50) (F64.fin 50) F64.nan false false false
        = F64.nan := by
      simp [scoreBeforeClamp, ContainsSkill]
    rw [hb, clampAndRound_nan]
  refine ⟨h, ?_⟩
  rw [h]
  simp [F64.le]

/-- For every input the score is NaN or a value `s` with `0 <= s <= 100`: the clamp and the
rounding keep every value except NaN within the range. -/
theorem CalculateOverallScore_range (name : String) (skills : List String)
    (yearsExperience : Int) (interviewScore culturalFitScore technicalScore : F64)
    (canExitVim knowsGo debugsInProduction : Bool) :
    CalculateOverallScore lowerCase name skills yearsExperience interviewScore culturalFitScore
        technicalScore canExitVim knowsGo debugsInProduction = F64.nan
      ∨ (F64.le (F64.fin 0) (CalculateOverallScore lowerCase name skills yearsExperience
            interviewScore culturalFitScore technicalScore canExitVim knowsGo
            debugsInProduction) = true
        ∧ F64.le (CalculateOverallScore lowerCase name skills yearsExperience interviewScore
            culturalFitScore technicalScore canExitVim knowsGo debugsInProduction)
            (F64.fin 100) = true) := by
  rw [CalculateOverallScore_eq_clampAndRound]
  by_cases hb : scoreBeforeClamp lowerCase skills yearsExperience interviewScore
      culturalFitScore technicalScore canExitVim knowsGo debugsInProduction = F64.nan
  · left
    rw [hb, clampAndRound_nan]
  · right
    obtain ⟨s, hs, h0, h1⟩ := clampAndRound_range _ hb
    rw [hs]
    simp [h0, h1]

/-- C2 (amended): for every input, `CalculateOverallScore` equals the reference definition of
the specification evaluated in float64, every product, sum and quotient rounded to binary64:
weighted sum, Java penalty, Vim bonus, honesty adjustment, experience boost, skill-diversity
bonus, JavaScript penalty, in this order, then clamp and rounding to 2 decimals. -/
theorem CalculateOverallScore_eq_referenceScore (name : String) (skills : List String)
    (yearsExperience : Int) (interviewScore culturalFitScore technicalScore : F64)
    (canExitVim knowsGo debugsInProduction : Bool) :
    CalculateOverallScore lowerCase name skills yearsExperience interviewScore culturalFitScore
        technicalScore canExitVim knowsGo debugsInProduction
      = referenceScore lowerCase skills yearsExperience interviewScore culturalFitScore
          technicalScore canExitVim knowsGo debugsInProduction := by
  rw [CalculateOverallScore_eq_clampAndRound]
  unfold referenceScore clampAndRound
  simp only []
  rw [Round_mul_div_eq_specRound2]
  congr 3
  simp only [scoreBeforeClamp, specSteps, List.foldl_cons, List.foldl_nil,
    ContainsSkill_eq_decide, F64.mul_swap (F64.lit 0.4), F64.mul_swap (F64.lit 0.3),
    F64.mul_swap (F64.fin 0.5), F64.mul_swap (F64.lit 0.2)]
  cases knowsGo <;> cases canExitVim <;> cases debugsInProduction <;> simp

end scoreClaims

/-! ## The validator -/

section validationClaims

variable (parseAddress : String → Bool)

/-- For a score that is not NaN, passing the range check of the validator is lying in
[0,100]. -/
theorem rangeCheck_eq_false_iff (x : F64) (hx : x.isNaN = false) :
    (F64.lt x (F64.fin 0) || F64.gt x (F64.fin 100)) = false ↔ specInRange x := by
  cases x with
  | nan => simp [F64.isNaN] at hx
  | ninf => simp [specInRange, F64.lt, F64.le]
  | pinf => simp [specInRange, F64.lt, F64.gt, F64.le]
  | fin q => simp [specInRange, F64.gt]

theorem ite_some_eq_none_iff {c : Prop} [Decidable c] {m : String} {rest : Option String} :
    (if c then some m else rest) = none ↔ ¬ c ∧ rest = none := by
  by_cases h : c <;> simp [h]

/-- The validator succeeds exactly when none of its thirteen checks fires. -/
theorem ValidateApplicant_eq_none_iff (name email position : String)
    (yearsExperience githubStars : Int) (interviewScore culturalFitScore technicalScore : F64)
    (isUpdate : Bool) (id : Int) :
    ValidateApplicant parseAddress name email position yearsExperience githubStars
        interviewScore culturalFitScore technicalScore isUpdate id = none
      ↔ (isUpdate && decide (id ≤ 0)) = false
        ∧ (TrimSpace name == "") = false ∧ ¬ len name < 2 ∧ ¬ len name > 255
        ∧ (TrimSpace email == "") = false ∧ (!parseAddress email) = false
        ∧ (TrimSpace position == "") = false ∧ ¬ len position < 2
        ∧ ¬ yearsExperience < 0 ∧ ¬ githubStars < 0
        ∧ (F64.lt interviewScore (F64.fin 0) || F64.gt interviewScore (F64.fin 100)) = false
        ∧ (F64.lt culturalFitScore (F64.fin 0) || F64.gt culturalFitScore (F64.fin 100)) = false
        ∧ (F64.lt technicalScore (F64.fin 0) || F64.gt technicalScore (F64.fin 100)) = false := by
  simp only [ValidateApplicant, ite_some_eq_none_iff, and_true, Bool.not_eq_true]

/-- C3: a request that is valid but for a NaN interview score is accepted by
`ValidateApplicant`, although NaN does not lie in [0,100]: both comparisons of
`score < 0 || score > 100` are false on NaN. -/
theorem ValidateApplicant_accepts_nan :
    ValidateApplicant exampleParseAddress "Ann" "ann@example.com" "Dev" 0 0 F64.nan (F64.fin 50)
        (F64.fin 50) false 0 = none
    ∧ ¬ specAccepts exampleParseAddress "Ann" "ann@example.com" "Dev" 0 0 F64.nan (F64.fin 50)
        (F64.fin 50) false 0 := by
  refine ⟨by decide, ?_⟩
  intro h
  have h1 : specInRange F64.nan := h.2.2.2.2.2.2.1
  exact absurd h1.1 (by decide)

/-- For every input whose three scores are not NaN, `ValidateApplicant` returns
success if and only if: not an update or id > 0; the name is non-empty after trimming and has
between 2 and 255 bytes; the email is non-empty after trimming and parses as an address; the
position is non-empty after trimming and has at least 2 bytes; yearsExperience >= 0;
githubStars >= 0; and each of the three scores lies in [0,100] inclusive. -/
theorem ValidateApplicant_success_iff (name email position : String)
    (yearsExperience githubStars : Int) (interviewScore culturalFitScore technicalScore : F64)
    (isUpdate : Bool) (id : Int)
    (hi : interviewScore.isNaN = false) (hc : culturalFitScore.isNaN = false)
    (ht : technicalScore.isNaN = false) :
    ValidateApplicant parseAddress name email position yearsExperience githubStars
        interviewScore culturalFitScore technicalScore isUpdate id = none
      ↔ specAccepts parseAddress name email position yearsExperience githubStars
          interviewScore culturalFitScore technicalScore isUpdate id := by
  rw [ValidateApplicant_eq_none_iff, rangeCheck_eq_false_iff _ hi, rangeCheck_eq_false_iff _ hc,
    rangeCheck_eq_false_iff _ ht]
  unfold specAccepts
  have hid : (isUpdate && decide (id ≤ 0)) = false ↔ (isUpdate = false ∨ id > 0) := by
    cases isUpdate <;> simp
  have hne : ∀ s : String, (s == "") = false ↔ s ≠ "" := by
    intro s
    simp
  have hp : (!parseAddress email) = false ↔ parseAddress email = true := by
    cases parseAddress email <;> simp
  rw [hid, hne, hne, hne, hp]
  simp only [not_lt, gt_iff_lt, ge_iff_le, and_assoc]

/-- With the boundary scores 0 and 100 the request of the examples is accepted
and satisfies the conditions of the specification. -/
theorem ValidateApplicant_success_iff_witness :
    ValidateApplicant exampleParseAddress "Ann" "ann@example.com" "Dev" 0 0 (F64.fin 0)
        (F64.fin 100) (F64.fin 50) false 0 = none
      ↔ specAccepts exampleParseAddress "Ann" "ann@example.com" "Dev" 0 0 (F64.fin 0)
          (F64.fin 100) (F64.fin 50) false 0 :=
  ValidateApplicant_success_iff exampleParseAddress "Ann" "ann@example.com" "Dev" 0 0
    (F64.fin 0) (F64.fin 100) (F64.fin 50) false 0 rfl rfl rfl

theorem firstFailure_cons (failed : Bool) (reason : String) (rest : List (Bool × String)) :
    firstFailure ((failed, reason) :: rest)
      = if failed = true then some reason else firstFailure rest := rfl

/-- C4: the validator returns the reason of the first rule that fails, in the fixed order
id, name required, name too short, name too long, email required, email invalid, position
required, position too short, years, stars, interview score, cultural-fit score, technical
score (`none` when no rule fails); in particular a request with an empty name and an invalid
email, whose id rule passes, reports "name is required". -/
theorem ValidateApplicant_eq_firstFailure (name email position : String)
    (yearsExperience githubStars : Int) (interviewScore culturalFitScore technicalScore : F64)
    (isUpdate : Bool) (id : Int) :
    ValidateApplicant parseAddress name email position yearsExperience githubStars
        interviewScore culturalFitScore technicalScore isUpdate id
      = firstFailure (specRules parseAddress name email position yearsExperience githubStars
          interviewScore culturalFitScore technicalScore isUpdate id)
    ∧ ((isUpdate = false ∨ id > 0) → TrimSpace name = "" → parseAddress email = false →
        ValidateApplicant parseAddress name email position yearsExperience githubStars
          interviewScore culturalFitScore technicalScore isUpdate id = some "name is required") := by
  constructor
  · simp only [ValidateApplicant, specRules, firstFailure_cons, firstFailure, decide_eq_true_eq]
  · intro hid hname _
    have h1 : (isUpdate && decide (id ≤ 0)) = false := by
      rcases hid with h | h
      · simp [h]
      · simp [not_le.mpr h]
    simp only [ValidateApplicant, h1, hname]
    rfl

/-- C4 (witness): an update with a positive id, an all-blank name and an invalid email is
rejected with "name is required" only. -/
theorem ValidateApplicant_eq_firstFailure_witness :
    ValidateApplicant exampleParseAddress "  " "not-an-email" "" (-1) 0 (F64.fin 0)
        (F64.fin 0) (F64.fin 200) true 7 = some "name is required" :=
  (ValidateApplicant_eq_firstFailure exampleParseAddress "  " "not-an-email" "" (-1) 0
    (F64.fin 0) (F64.fin 0) (F64.fin 200) true 7).2 (Or.inr (by decide)) (by decide) (by decide)

end validationClaims

/-! ## The service operations -/

section serviceClaims

variable (lowerCase : Char → Char) (parseAddress : String → Bool)

theorem CreateApplicant_of_invalid (queries : Querier) (req : CreateApplicantRequest)
    (reason : String)
    (h : ValidateApplicant parseAddress req.Name req.Email req.Position req.YearsExperience
      req.GithubStars req.InterviewScore req.CulturalFitScore req.TechnicalScore false 0
        = some reason) :
    CreateApplicant lowerCase parseAddress queries req
      = ⟨none, some ⟨Code.InvalidArgument, "validation failed: " ++ reason⟩, []⟩ := by
  simp only [CreateApplicant, h]

theorem UpdateApplicant_of_invalid (queries : Querier) (req : UpdateApplicantRequest)
    (reason : String)
    (h : ValidateApplicant parseAddress req.Name req.Email req.Position req.YearsExperience
      req.GithubStars req.InterviewScore req.CulturalFitScore req.TechnicalScore true req.Id
        = some reason) :
    UpdateApplicant lowerCase parseAddress queries req
      = ⟨none, some ⟨Code.InvalidArgument, "validation failed: " ++ reason⟩, []⟩ := by
  simp only [UpdateApplicant, h]

theorem CreateApplicant_of_valid (queries : Querier) (req : CreateApplicantRequest)
    (h : ValidateApplicant parseAddress req.Name req.Email req.Position req.YearsExperience
      req.GithubStars req.InterviewScore req.CulturalFitScore req.TechnicalScore false 0 = none) :
    CreateApplicant lowerCase parseAddress queries req
      = match queries.CreateApplicant (createParams lowerCase req) with
        | Except.error err =>
          if isEmailUniqueViolation err then
            ⟨none, some ⟨Code.AlreadyExists, "email address already exists: " ++ req.Email⟩,
              [QueryCall.CreateApplicant (createParams lowerCase req)]⟩
          else
            ⟨none, some ⟨Code.Internal, "failed to create applicant: " ++ err.Error⟩,
              [QueryCall.CreateApplicant (createParams lowerCase req)]⟩
        | Except.ok applicant =>
          ⟨some { Applicant := DbApplicantToProto applicant }, none,
            [QueryCall.CreateApplicant (createParams lowerCase req)]⟩ := by
  simp only [CreateApplicant, h, createParams]

theorem UpdateApplicant_of_valid (queries : Querier) (req : UpdateApplicantRequest)
    (h : ValidateApplicant parseAddress req.Name req.Email req.Position req.YearsExperience
      req.GithubStars req.InterviewScore req.CulturalFitScore req.TechnicalScore true req.Id
        = none) :
    UpdateApplicant lowerCase parseAddress queries req
      = match queries.UpdateApplicant (updateParams lowerCase req) with
        | Except.error err =>
          if isEmailUniqueViolation err then
            ⟨none, some ⟨Code.AlreadyExists, "email address already exists: " ++ req.Email⟩,
              [QueryCall.UpdateApplicant (updateParams lowerCase req)]⟩
          else
            ⟨none, some ⟨Code.Internal, "failed to update applicant: " ++ err.Error⟩,
              [QueryCall.UpdateApplicant (updateParams lowerCase req)]⟩
        | Except.ok applicant =>
          ⟨some { Applicant := DbApplicantToProto applicant }, none,
            [QueryCall.UpdateApplicant (updateParams lowerCase req)]⟩ := by
  simp only [UpdateApplicant, h, updateParams]

theorem CreateApplicant_calls_of_valid (queries : Querier) (req : CreateApplicantRequest)
    (h : ValidateApplicant parseAddress req.Name req.Email req.Position req.YearsExperience
      req.GithubStars req.InterviewScore req.CulturalFitScore req.TechnicalScore false 0 = none) :
    (CreateApplicant lowerCase parseAddress queries req).calls
      = [QueryCall.CreateApplicant (createParams lowerCase req)] := by
  rw [CreateApplicant_of_valid lowerCase parseAddress queries req h]
  split
  · split_ifs <;> rfl
  · rfl

theorem UpdateApplicant_calls_of_valid (queries : Querier) (req : UpdateApplicantRequest)
    (h : ValidateApplicant parseAddress req.Name req.Email req.Position req.YearsExperience
      req.GithubStars req.InterviewScore req.CulturalFitScore req.TechnicalScore true req.Id
        = none) :
    (UpdateApplicant lowerCase parseAddress queries req).calls
      = [QueryCall.UpdateApplicant (updateParams lowerCase req)] := by
  rw [UpdateApplicant_of_valid lowerCase parseAddress queries req h]
  split
  · split_ifs <;> rfl
  · rfl

theorem CreateApplicant_of_error (queries : Querier) (req : CreateApplicantRequest)
    (e : DbError)
    (h : ValidateApplicant parseAddress req.Name req.Email req.Position req.YearsExperience
      req.GithubStars req.InterviewScore req.CulturalFitScore req.TechnicalScore false 0 = none)
    (hq : queries.CreateApplicant (createParams lowerCase req) = Except.error e) :
    CreateApplicant lowerCase parseAddress queries req
      = if isEmailUniqueViolation e then
          ⟨none, some ⟨Code.AlreadyExists, "email address already exists: " ++ req.Email⟩,
            [QueryCall.CreateApplicant (createParams lowerCase req)]⟩
        else
          ⟨none, some ⟨Code.Internal, "failed to create applicant: " ++ e.Error⟩,
            [QueryCall.CreateApplicant (createParams lowerCase req)]⟩ := by
  rw [CreateApplicant_of_valid lowerCase parseAddress queries req h, hq]

theorem UpdateApplicant_of_error (queries : Querier) (req : UpdateApplicantRequest)
    (e : DbError)
    (h : ValidateApplicant parseAddress req.Name req.Email req.Position req.YearsExperience
      req.GithubStars req.InterviewScore req.CulturalFitScore req.TechnicalScore true req.Id
        = none)
    (hq : queries.UpdateApplicant (updateParams lowerCase req) = Except.error e) :
    UpdateApplicant lowerCase parseAddress queries req
      = if isEmailUniqueViolation e then
          ⟨none, some ⟨Code.AlreadyExists, "email address already exists: " ++ req.Email⟩,
            [QueryCall.UpdateApplicant (updateParams lowerCase req)]⟩
        else
          ⟨none, some ⟨Code.Internal, "failed to update applicant: " ++ e.Error⟩,
            [QueryCall.UpdateApplicant (updateParams lowerCase req)]⟩ := by
  rw [UpdateApplicant_of_valid lowerCase parseAddress queries req h, hq]

/-- C5: for every Create and every Update request that passes validation, exactly one
persistence call is made, and in its parameters the overall score is `CalculateOverallScore`
of the request's own fields while name, email, position, years of experience, skills, GitHub
stars, the three booleans, the three sub-scores and the status are the request's fields (and the
id, for an update).  The request has no overall-score field, so the persisted score is this
function of the request and nothing else. -/
theorem persisted_score_is_calculated (queries : Querier) (creq : CreateApplicantRequest)
    (ureq : UpdateApplicantRequest) :
    (ValidateApplicant parseAddress creq.Name creq.Email creq.Position creq.YearsExperience
        creq.GithubStars creq.InterviewScore creq.CulturalFitScore creq.TechnicalScore false 0
          = none →
      ∃ arg : CreateApplicantParams,
        (CreateApplicant lowerCase parseAddress queries creq).calls
          = [QueryCall.CreateApplicant arg]
        ∧ arg.OverallScore = CalculateOverallScore lowerCase creq.Name creq.Skills
            creq.YearsExperience creq.InterviewScore creq.CulturalFitScore creq.TechnicalScore
            creq.CanExitVim creq.KnowsGo creq.DebugsInProduction
        ∧ arg.Name = creq.Name ∧ arg.Email = creq.Email ∧ arg.Position = creq.Position
        ∧ arg.YearsExperience = creq.YearsExperience ∧ arg.Skills = creq.Skills
        ∧ arg.GithubStars = creq.GithubStars ∧ arg.CanExitVim = creq.CanExitVim
        ∧ arg.KnowsGo = creq.KnowsGo ∧ arg.DebugsInProduction = creq.DebugsInProduction
        ∧ arg.InterviewScore = creq.InterviewScore
        ∧ arg.CulturalFitScore = creq.CulturalFitScore
        ∧ arg.TechnicalScore = creq.TechnicalScore ∧ arg.Status = creq.Status)
    ∧ (ValidateApplicant parseAddress ureq.Name ureq.Email ureq.Position ureq.YearsExperience
        ureq.GithubStars ureq.InterviewScore ureq.CulturalFitScore ureq.TechnicalScore true
          ureq.Id = none →
      ∃ arg : UpdateApplicantParams,
        (UpdateApplicant lowerCase parseAddress queries ureq).calls
          = [QueryCall.UpdateApplicant arg]
        ∧ arg.OverallScore = CalculateOverallScore lowerCase ureq.Name ureq.Skills
            ureq.YearsExperience ureq.InterviewScore ureq.CulturalFitScore ureq.TechnicalScore
            ureq.CanExitVim ureq.KnowsGo ureq.DebugsInProduction
        ∧ arg.ID = ureq.Id
        ∧ arg.Name = ureq.Name ∧ arg.Email = ureq.Email ∧ arg.Position = ureq.Position
        ∧ arg.YearsExperience = ureq.YearsExperience ∧ arg.Skills = ureq.Skills
        ∧ arg.GithubStars = ureq.GithubStars ∧ arg.CanExitVim = ureq.CanExitVim
        ∧ arg.KnowsGo = ureq.KnowsGo ∧ arg.DebugsInProduction = ureq.DebugsInProduction
        ∧ arg.InterviewScore = ureq.InterviewScore
        ∧ arg.CulturalFitScore = ureq.CulturalFitScore
        ∧ arg.TechnicalScore = ureq.TechnicalScore ∧ arg.Status = ureq.Status) := by
  constructor
  · intro h
    simp only [CreateApplicant, h]
    split
    · split_ifs <;>
        exact ⟨_, rfl, rfl, rfl, rfl, rfl, rfl, rfl, rfl, rfl, rfl, rfl, rfl, rfl, rfl, rfl⟩
    · exact ⟨_, rfl, rfl, rfl, rfl, rfl, rfl, rfl, rfl, rfl, rfl, rfl, rfl, rfl, rfl, rfl⟩
  · intro h
    simp only [UpdateApplicant, h]
    split
    · split_ifs <;>
        exact ⟨_, rfl, rfl, rfl, rfl, rfl, rfl, rfl, rfl, rfl, rfl, rfl, rfl, rfl, rfl, rfl, rfl⟩
    · exact ⟨_, rfl, rfl, rfl, rfl, rfl, rfl, rfl, rfl, rfl, rfl, rfl, rfl, rfl, rfl, rfl, rfl⟩

/-- C5 (witness): the create and the update request of the tests pass validation, and the one
call each of them makes carries the calculated score. -/
theorem persisted_score_is_calculated_witness :
    (∃ arg : CreateApplicantParams,
      (CreateApplicant id exampleParseAddress mockQuerier janeCreateRequest).calls
        = [QueryCall.CreateApplicant arg]
      ∧ arg.OverallScore = CalculateOverallScore id "Jane Doe" ["Go", "Kubernetes"] 5
          (F64.fin 85) (F64.fin 90) (F64.fin 88) true true false)
    ∧ (∃ arg : UpdateApplicantParams,
      (UpdateApplicant id exampleParseAddress mockQuerier janeUpdateRequest).calls
        = [QueryCall.UpdateApplicant arg]
      ∧ arg.OverallScore = CalculateOverallScore id "Jane Doe" ["Go", "Kubernetes"] 5
          (F64.fin 85) (F64.fin 90) (F64.fin 88) true true false) := by
  have h := persisted_score_is_calculated id exampleParseAddress mockQuerier janeCreateRequest
    janeUpdateRequest
  obtain ⟨a, h1, h2, _⟩ := h.1 (by decide)
  obtain ⟨b, h3, h4, _⟩ := h.2 (by decide)
  exact ⟨⟨a, h1, h2⟩, ⟨b, h3, h4⟩⟩

/-- C6: a precondition failure is reported before any persistence call.  When
`ValidateApplicant` fails for a Create request (isUpdate=false) or for an Update request
(isUpdate=true, id = the request's id), and when the id of a Get or Delete request is not
positive, the operation returns no response and an InvalidArgument error, and it makes no call
to the persistence interface. -/
theorem precondition_failure_makes_no_call (queries : Querier) (creq : CreateApplicantRequest)
    (ureq : UpdateApplicantRequest) (greq : GetApplicantRequest) (dreq : DeleteApplicantRequest) :
    (ValidateApplicant parseAddress creq.Name creq.Email creq.Position creq.YearsExperience
        creq.GithubStars creq.InterviewScore creq.CulturalFitScore creq.TechnicalScore false 0
          ≠ none →
      (CreateApplicant lowerCase parseAddress queries creq).resp = none
      ∧ ((CreateApplicant lowerCase parseAddress queries creq).err.map StatusError.code)
          = some Code.InvalidArgument
      ∧ (CreateApplicant lowerCase parseAddress queries creq).calls = [])
    ∧ (ValidateApplicant parseAddress ureq.Name ureq.Email ureq.Position ureq.YearsExperience
        ureq.GithubStars ureq.InterviewScore ureq.CulturalFitScore ureq.TechnicalScore true
          ureq.Id ≠ none →
      (UpdateApplicant lowerCase parseAddress queries ureq).resp = none
      ∧ ((UpdateApplicant lowerCase parseAddress queries ureq).err.map StatusError.code)
          = some Code.InvalidArgument
      ∧ (UpdateApplicant lowerCase parseAddress queries ureq).calls = [])
    ∧ (greq.Id ≤ 0 →
      (GetApplicant queries greq).resp = none
      ∧ ((GetApplicant queries greq).err.map StatusError.code) = some Code.InvalidArgument
      ∧ (GetApplicant queries greq).calls = [])
    ∧ (dreq.Id ≤ 0 →
      (DeleteApplicant queries dreq).resp = none
      ∧ ((DeleteApplicant queries dreq).err.map StatusError.code) = some Code.InvalidArgument
      ∧ (DeleteApplicant queries dreq).calls = []) := by
  refine ⟨?_, ?_, ?_, ?_⟩
  · intro h
    obtain ⟨reason, hr⟩ := Option.ne_none_iff_exists'.mp h
    rw [CreateApplicant_of_invalid lowerCase parseAddress queries creq reason hr]
    exact ⟨rfl, rfl, rfl⟩
  · intro h
    obtain ⟨reason, hr⟩ := Option.ne_none_iff_exists'.mp h
    rw [UpdateApplicant_of_invalid lowerCase parseAddress queries ureq reason hr]
    exact ⟨rfl, rfl, rfl⟩
  · intro h
    have hg : GetApplicant queries greq
        = ⟨none, some ⟨Code.InvalidArgument, "id must be positive"⟩, []⟩ := by
      simp only [GetApplicant, if_pos h]
    rw [hg]
    exact ⟨rfl, rfl, rfl⟩
  · intro h
    have hd : DeleteApplicant queries dreq
        = ⟨none, some ⟨Code.InvalidArgument, "id must be positive"⟩, []⟩ := by
      simp only [DeleteApplicant, if_pos h]
    rw [hd]
    exact ⟨rfl, rfl, rfl⟩

/-- C6 (witness): a create request with an empty name, an update request with id 0, a lookup
of id 0 and a deletion of id -3 are all refused without a persistence call. -/
theorem precondition_failure_makes_no_call_witness :
    (CreateApplicant id exampleParseAddress janeQuerier { janeCreateRequest with Name := "" }).calls
        = []
    ∧ (UpdateApplicant id exampleParseAddress janeQuerier { janeUpdateRequest with Id := 0 }).calls
        = []
    ∧ (GetApplicant janeQuerier ⟨0⟩).calls = []
    ∧ (DeleteApplicant janeQuerier ⟨-3⟩).calls = [] := by
  have h := precondition_failure_makes_no_call id exampleParseAddress janeQuerier
    { janeCreateRequest with Name := "" } { janeUpdateRequest with Id := 0 } ⟨0⟩ ⟨-3⟩
  exact ⟨(h.1 (by decide)).2.2, (h.2.1 (by decide)).2.2, (h.2.2.1 (by decide)).2.2,
    (h.2.2.2 (by decide)).2.2⟩

theorem isPrefixOf_self (l : List Char) : l.isPrefixOf l = true := by
  induction l with
  | nil => rfl
  | cons c l ih => simp [List.isPrefixOf, ih]

theorem containsChars_self (l : List Char) : containsChars l l = true := by
  cases l with
  | nil => rfl
  | cons c l => simp [containsChars, isPrefixOf_self]

theorem containsChars_append (a b : List Char) : containsChars (a ++ b) b = true := by
  induction a with
  | nil => exact containsChars_self b
  | cons c a ih => simp [containsChars, ih]

/-- A text that ends with `s` contains `s`. -/
theorem Contains_append (a s : String) : Contains (a ++ s) s = true := by
  simp only [Contains, String.data_append]
  exact containsChars_append _ _

theorem isEmailUniqueViolation_iff (e : DbError) :
    isEmailUniqueViolation e = true ↔ specEmailConflict e := by
  cases e with
  | noRows => simp [isEmailUniqueViolation, specEmailConflict]
  | other text => simp [isEmailUniqueViolation, specEmailConflict]
  | pq code constraint message =>
    simp only [isEmailUniqueViolation, specEmailConflict, Bool.and_eq_true, beq_iff_eq,
      DbError.pq.injEq]
    constructor
    · rintro ⟨rfl, h⟩
      exact ⟨constraint, message, ⟨rfl, rfl, rfl⟩, h⟩
    · rintro ⟨c, m, ⟨rfl, rfl, rfl⟩, h⟩
      exact ⟨rfl, h⟩

/-- C7: for a Create or Update request that passes validation and whose persistence call
fails with the error `e`: when `e` is a driver error with code 23505 whose constraint name
contains "email", the outcome is AlreadyExists with a message that contains the request's
email and there is no response; for every other error (a unique violation on a constraint
that does not mention email, another driver error, a non-driver error) the outcome is Internal
and there is no response. -/
theorem persistence_error_mapping (queries : Querier) (creq : CreateApplicantRequest)
    (ureq : UpdateApplicantRequest) (carg : CreateApplicantParams) (uarg : UpdateApplicantParams)
    (e : DbError) :
    (ValidateApplicant parseAddress creq.Name creq.Email creq.Position creq.YearsExperience
        creq.GithubStars creq.InterviewScore creq.CulturalFitScore creq.TechnicalScore false 0
          = none →
      (CreateApplicant lowerCase parseAddress queries creq).calls
          = [QueryCall.CreateApplicant carg] →
      queries.CreateApplicant carg = Except.error e →
      (CreateApplicant lowerCase parseAddress queries creq).resp = none
      ∧ (specEmailConflict e →
          ∃ message, (CreateApplicant lowerCase parseAddress queries creq).err
              = some ⟨Code.AlreadyExists, message⟩
            ∧ Contains message creq.Email = true)
      ∧ (¬ specEmailConflict e →
          ((CreateApplicant lowerCase parseAddress queries creq).err.map StatusError.code)
            = some Code.Internal))
    ∧ (ValidateApplicant parseAddress ureq.Name ureq.Email ureq.Position ureq.YearsExperience
        ureq.GithubStars ureq.InterviewScore ureq.CulturalFitScore ureq.TechnicalScore true
          ureq.Id = none →
      (UpdateApplicant lowerCase parseAddress queries ureq).calls
          = [QueryCall.UpdateApplicant uarg] →
      queries.UpdateApplicant uarg = Except.error e →
      (UpdateApplicant lowerCase parseAddress queries ureq).resp = none
      ∧ (specEmailConflict e →
          ∃ message, (UpdateApplicant lowerCase parseAddress queries ureq).err
              = some ⟨Code.AlreadyExists, message⟩
            ∧ Contains message ureq.Email = true)
      ∧ (¬ specEmailConflict e →
          ((UpdateApplicant lowerCase parseAddress queries ureq).err.map StatusError.code)
            = some Code.Internal)) := by
  constructor
  · intro hv hcalls hq
    rw [CreateApplicant_calls_of_valid lowerCase parseAddress queries creq hv] at hcalls
    simp only [List.cons.injEq, QueryCall.CreateApplicant.injEq, and_true] at hcalls
    rw [← hcalls] at hq
    rw [CreateApplicant_of_error lowerCase parseAddress queries creq e hv hq]
    by_cases hu : isEmailUniqueViolation e = true
    · rw [if_pos hu]
      refine ⟨rfl, fun _ => ⟨_, rfl, Contains_append _ _⟩, fun hn => ?_⟩
      exact absurd ((isEmailUniqueViolation_iff e).mp hu) hn
    · rw [if_neg hu]
      refine ⟨rfl, fun hc => ?_, fun _ => rfl⟩
      exact absurd ((isEmailUniqueViolation_iff e).mpr hc) hu
  · intro hv hcalls hq
    rw [UpdateApplicant_calls_of_valid lowerCase parseAddress queries ureq hv] at hcalls
    simp only [List.cons.injEq, QueryCall.UpdateApplicant.injEq, and_true] at hcalls
    rw [← hcalls] at hq
    rw [UpdateApplicant_of_error lowerCase parseAddress queries ureq e hv hq]
    by_cases hu : isEmailUniqueViolation e = true
    · rw [if_pos hu]
      refine ⟨rfl, fun _ => ⟨_, rfl, Contains_append _ _⟩, fun hn => ?_⟩
      exact absurd ((isEmailUniqueViolation_iff e).mp hu) hn
    · rw [if_neg hu]
      refine ⟨rfl, fun hc => ?_, fun _ => rfl⟩
      exact absurd ((isEmailUniqueViolation_iff e).mpr hc) hu

/-- C7 (witness): on the unique violation of the tests Create and Update answer
AlreadyExists with the email in the message, and on a plain "not implemented" error they
answer Internal. -/
theorem persistence_error_mapping_witness :
    (∃ message, (CreateApplicant id exampleParseAddress emailConflictQuerier
          janeCreateRequest).err = some ⟨Code.AlreadyExists, message⟩
        ∧ Contains message "jane@example.com" = true)
    ∧ (∃ message, (UpdateApplicant id exampleParseAddress emailConflictQuerier
          janeUpdateRequest).err = some ⟨Code.AlreadyExists, message⟩
        ∧ Contains message "jane@example.com" = true)
    ∧ ((CreateApplicant id exampleParseAddress mockQuerier janeCreateRequest).err.map
        StatusError.code) = some Code.Internal
    ∧ ((UpdateApplicant id exampleParseAddress mockQuerier janeUpdateRequest).err.map
        StatusError.code) = some Code.Internal := by
  have h1 := persistence_error_mapping id exampleParseAddress emailConflictQuerier
    janeCreateRequest janeUpdateRequest (createParams id janeCreateRequest)
    (updateParams id janeUpdateRequest) (DbError.pq "23505" "applicants_email_key" "")
  have h2 := persistence_error_mapping id exampleParseAddress mockQuerier
    janeCreateRequest janeUpdateRequest (createParams id janeCreateRequest)
    (updateParams id janeUpdateRequest) (DbError.other "createFunc not implemented")
  have h3 := persistence_error_mapping id exampleParseAddress mockQuerier
    janeCreateRequest janeUpdateRequest (createParams id janeCreateRequest)
    (updateParams id janeUpdateRequest) (DbError.other "updateFunc not implemented")
  have hc : specEmailConflict (DbError.pq "23505" "applicants_email_key" "") :=
    ⟨_, _, rfl, by decide⟩
  have hn : ∀ text, ¬ specEmailConflict (DbError.other text) := by
    rintro text ⟨_, _, h, _⟩
    cases h
  refine ⟨?_, ?_, ?_, ?_⟩
  · exact (h1.1 (by decide) (CreateApplicant_calls_of_valid _ _ _ _ (by decide)) rfl).2.1 hc
  · exact (h1.2 (by decide) (UpdateApplicant_calls_of_valid _ _ _ _ (by decide)) rfl).2.1 hc
  · exact (h2.1 (by decide) (CreateApplicant_calls_of_valid _ _ _ _ (by decide)) rfl).2.2 (hn _)
  · exact (h3.2 (by decide) (UpdateApplicant_calls_of_valid _ _ _ _ (by decide)) rfl).2.2 (hn _)

/-- C8 (counterexample): a lookup of id 1 that fails because the database cannot be reached
is answered with NotFound, not with Internal. -/
theorem GetApplicant_unreachable_is_NotFound :
    ((GetApplicant unreachableQuerier ⟨1⟩).err.map StatusError.code) = some Code.NotFound
    ∧ ((GetApplicant unreachableQuerier ⟨1⟩).err.map StatusError.code) ≠ some Code.Internal := by
  decide

/-- C8 (amended): for Get with id > 0, whenever the persistence lookup returns an error, be it
that no record with that id exists or any other failure, the outcome is NotFound, with the text
of the underlying error in the message, and there is no response. -/
theorem GetApplicant_error_is_NotFound (queries : Querier) (req : GetApplicantRequest)
    (e : DbError) (hid : req.Id > 0) (hq : queries.GetApplicant req.Id = Except.error e) :
    (GetApplicant queries req).resp = none
    ∧ (GetApplicant queries req).err
        = some ⟨Code.NotFound, "applicant not found: " ++ e.Error⟩ := by
  have h : GetApplicant queries req
      = ⟨none, some ⟨Code.NotFound, "applicant not found: " ++ e.Error⟩,
          [QueryCall.GetApplicant req.Id]⟩ := by
    simp only [GetApplicant, if_neg (not_le.mpr hid), hq]
  rw [h]
  exact ⟨rfl, rfl⟩

/-- C8 (witness): a lookup of id 999 that finds no row is answered with NotFound. -/
theorem GetApplicant_error_is_NotFound_witness :
    (GetApplicant emptyQuerier ⟨999⟩).resp = none
    ∧ (GetApplicant emptyQuerier ⟨999⟩).err
        = some ⟨Code.NotFound, "applicant not found: " ++ DbError.noRows.Error⟩ :=
  GetApplicant_error_is_NotFound emptyQuerier ⟨999⟩ DbError.noRows (by decide) rfl

theorem effectiveLimit_eq (limit : Int) :
    (if (if limit < 1 then 10 else limit) > 100 then 100 else (if limit < 1 then 10 else limit))
      = specEffectiveLimit limit := by
  unfold specEffectiveLimit
  split_ifs <;> omega

/-- The outcome of `ListApplicants` in terms of the effective limit and offset. -/
theorem ListApplicants_eq (queries : Querier) (req : ListApplicantsRequest) :
    ListApplicants queries req
      = match queries.ListApplicants ⟨specEffectiveLimit req.Limit,
            specEffectiveOffset req.Offset, req.Position, req.Status, req.MinScore⟩ with
        | Except.error err =>
          ⟨none, some ⟨Code.Internal, "failed to list applicants: " ++ err.Error⟩,
            [QueryCall.ListApplicants ⟨specEffectiveLimit req.Limit,
              specEffectiveOffset req.Offset, req.Position, req.Status, req.MinScore⟩]⟩
        | Except.ok applicants =>
          match queries.CountApplicants ⟨req.Position, req.Status, req.MinScore⟩ with
          | Except.error err =>
            ⟨none, some ⟨Code.Internal, "failed to count applicants: " ++ err.Error⟩,
              [QueryCall.ListApplicants ⟨specEffectiveLimit req.Limit,
                specEffectiveOffset req.Offset, req.Position, req.Status, req.MinScore⟩,
               QueryCall.CountApplicants ⟨req.Position, req.Status, req.MinScore⟩]⟩
          | Except.ok totalCount =>
            ⟨some ⟨applicants.map DbApplicantToProto, toInt32 totalCount,
                specEffectiveLimit req.Limit, specEffectiveOffset req.Offset⟩, none,
              [QueryCall.ListApplicants ⟨specEffectiveLimit req.Limit,
                specEffectiveOffset req.Offset, req.Position, req.Status, req.MinScore⟩,
               QueryCall.CountApplicants ⟨req.Position, req.Status, req.MinScore⟩]⟩ := by
  simp only [ListApplicants, effectiveLimit_eq, specEffectiveOffset]

/-- C9: `ListApplicants` computes the effective limit as 10 when the requested limit is below
1, as 100 when it is above 100 and as the requested limit otherwise, and the effective offset as
0 when the requested offset is negative and as the requested offset otherwise.  These values
are the limit and offset of the page fetch, which is the first persistence call, and of every
response returned.  The effective limit lies in [1,100] and the effective offset is >= 0;
limit 0 gives 10, limit 500 gives 100, offset -5 gives 0. -/
theorem ListApplicants_effective_page (queries : Querier) (req : ListApplicantsRequest) :
    (∃ arg rest, (ListApplicants queries req).calls = QueryCall.ListApplicants arg :: rest
      ∧ arg.Limit = specEffectiveLimit req.Limit ∧ arg.Offset = specEffectiveOffset req.Offset)
    ∧ (∀ r, (ListApplicants queries req).resp = some r →
        r.Limit = specEffectiveLimit req.Limit ∧ r.Offset = specEffectiveOffset req.Offset)
    ∧ (1 ≤ specEffectiveLimit req.Limit ∧ specEffectiveLimit req.Limit ≤ 100
        ∧ 0 ≤ specEffectiveOffset req.Offset)
    ∧ specEffectiveLimit 0 = 10 ∧ specEffectiveLimit 500 = 100 ∧ specEffectiveOffset (-5) = 0 := by
  refine ⟨?_, ?_, ⟨?_, ?_, ?_⟩, by decide, by decide, by decide⟩
  · rw [ListApplicants_eq]
    split
    · exact ⟨_, _, rfl, rfl, rfl⟩
    · split <;> exact ⟨_, _, rfl, rfl, rfl⟩
  · intro r
    rw [ListApplicants_eq]
    split
    · intro h
      cases h
    · split
      · intro h
        cases h
      · intro h
        cases h
        exact ⟨rfl, rfl⟩
  · unfold specEffectiveLimit
    split_ifs <;> omega
  · unfold specEffectiveLimit
    split_ifs <;> omega
  · unfold specEffectiveOffset
    split_ifs <;> omega

/-- C9 (witness): a listing with limit 500 and offset -5 that succeeds returns limit 100 and
offset 0. -/
theorem ListApplicants_effective_page_witness :
    ∃ r, (ListApplicants janeQuerier ⟨500, -5, "", 0, F64.fin 0⟩).resp = some r
      ∧ r.Limit = 100 ∧ r.Offset = 0 :=
  ⟨_, rfl, (ListApplicants_effective_page janeQuerier ⟨500, -5, "", 0, F64.fin 0⟩).2.1 _ rfl⟩

/-- C10: `ListApplicants` passes the position, status and minScore of the request unchanged to
the page fetch and to the count call: the persistence calls made are the page fetch alone or the
page fetch followed by the count call, every page fetch among them carries the three filters of
the request and so does every count call, so that both calls receive identical filter values. -/
theorem ListApplicants_filters_unchanged (queries : Querier) (req : ListApplicantsRequest) :
    (∀ larg, QueryCall.ListApplicants larg ∈ (ListApplicants queries req).calls →
      larg.Position = req.Position ∧ larg.Status = req.Status ∧ larg.MinScore = req.MinScore)
    ∧ (∀ carg, QueryCall.CountApplicants carg ∈ (ListApplicants queries req).calls →
      carg.Position = req.Position ∧ carg.Status = req.Status ∧ carg.MinScore = req.MinScore)
    ∧ (∃ larg, (ListApplicants queries req).calls = [QueryCall.ListApplicants larg]
        ∨ ∃ carg, (ListApplicants queries req).calls
            = [QueryCall.ListApplicants larg, QueryCall.CountApplicants carg]) := by
  rw [ListApplicants_eq]
  split
  · refine ⟨?_, ?_, ⟨_, Or.inl rfl⟩⟩
    · intro larg h
      simp only [List.mem_singleton, QueryCall.ListApplicants.injEq] at h
      subst h
      exact ⟨rfl, rfl, rfl⟩
    · intro carg h
      simp only [List.mem_singleton] at h
      cases h
  · have key : ∀ calls : List QueryCall,
        calls = [QueryCall.ListApplicants ⟨specEffectiveLimit req.Limit,
            specEffectiveOffset req.Offset, req.Position, req.Status, req.MinScore⟩,
          QueryCall.CountApplicants ⟨req.Position, req.Status, req.MinScore⟩] →
        (∀ larg, QueryCall.ListApplicants larg ∈ calls →
          larg.Position = req.Position ∧ larg.Status = req.Status
            ∧ larg.MinScore = req.MinScore)
        ∧ (∀ carg, QueryCall.CountApplicants carg ∈ calls →
          carg.Position = req.Position ∧ carg.Status = req.Status
            ∧ carg.MinScore = req.MinScore)
        ∧ (∃ larg, calls = [QueryCall.ListApplicants larg]
            ∨ ∃ carg, calls = [QueryCall.ListApplicants larg, QueryCall.CountApplicants carg]) := by
      rintro calls rfl
      refine ⟨?_, ?_, ⟨_, Or.inr ⟨_, rfl⟩⟩⟩
      · intro larg h
        simp only [List.mem_cons, QueryCall.ListApplicants.injEq, List.mem_singleton,
          reduceCtorEq, or_false, List.not_mem_nil] at h
        subst h
        exact ⟨rfl, rfl, rfl⟩
      · intro carg h
        simp only [List.mem_cons, QueryCall.CountApplicants.injEq, List.mem_singleton,
          reduceCtorEq, false_or, or_false, List.not_mem_nil] at h
        subst h
        exact ⟨rfl, rfl, rfl⟩
    split <;> exact key _ rfl

/-- C10 (witness): a listing filtered by position, status and minimum score makes a count call,
and the count call carries the same three filters. -/
theorem ListApplicants_filters_unchanged_witness :
    QueryCall.CountApplicants ⟨"Senior Developer", 1, F64.fin 80⟩
        ∈ (ListApplicants janeQuerier ⟨20, 0, "Senior Developer", 1, F64.fin 80⟩).calls
    ∧ (⟨"Senior Developer", 1, F64.fin 80⟩ : CountApplicantsParams).Position
        = (⟨20, 0, "Senior Developer", 1, F64.fin 80⟩ : ListApplicantsRequest).Position :=
  ⟨by decide,
    ((ListApplicants_filters_unchanged janeQuerier ⟨20, 0, "Senior Developer", 1, F64.fin 80⟩).2.1
      ⟨"Senior Developer", 1, F64.fin 80⟩ (by decide)).1⟩

end serviceClaims

/-! ## Results and errors of the operations -/

section outcomeClaims

variable (lowerCase : Char → Char) (parseAddress : String → Bool)

/-- A result is well formed when it is a response without an error or an error without a
response. -/
theorem CreateApplicant_resp_xor_err (queries : Querier) (req : CreateApplicantRequest) :
    ((CreateApplicant lowerCase parseAddress queries req).resp.isSome = true
        ∧ (CreateApplicant lowerCase parseAddress queries req).err = none)
    ∨ ((CreateApplicant lowerCase parseAddress queries req).resp = none
        ∧ (CreateApplicant lowerCase parseAddress queries req).err.isSome = true) := by
  unfold CreateApplicant
  split
  · exact Or.inr ⟨rfl, rfl⟩
  · simp only []
    split
    · split <;> exact Or.inr ⟨rfl, rfl⟩
    · exact Or.inl ⟨rfl, rfl⟩

theorem UpdateApplicant_resp_xor_err (queries : Querier) (req : UpdateApplicantRequest) :
    ((UpdateApplicant lowerCase parseAddress queries req).resp.isSome = true
        ∧ (UpdateApplicant lowerCase parseAddress queries req).err = none)
    ∨ ((UpdateApplicant lowerCase parseAddress queries req).resp = none
        ∧ (UpdateApplicant lowerCase parseAddress queries req).err.isSome = true) := by
  unfold UpdateApplicant
  split
  · exact Or.inr ⟨rfl, rfl⟩
  · simp only []
    split
    · split <;> exact Or.inr ⟨rfl, rfl⟩
    · exact Or.inl ⟨rfl, rfl⟩

theorem GetApplicant_resp_xor_err (queries : Querier) (req : GetApplicantRequest) :
    ((GetApplicant queries req).resp.isSome = true ∧ (GetApplicant queries req).err = none)
    ∨ ((GetApplicant queries req).resp = none
        ∧ (GetApplicant queries req).err.isSome = true) := by
  unfold GetApplicant
  split
  · exact Or.inr ⟨rfl, rfl⟩
  · split
    · exact Or.inr ⟨rfl, rfl⟩
    · exact Or.inl ⟨rfl, rfl⟩

theorem DeleteApplicant_resp_xor_err (queries : Querier) (req : DeleteApplicantRequest) :
    ((DeleteApplicant queries req).resp.isSome = true ∧ (DeleteApplicant queries req).err = none)
    ∨ ((DeleteApplicant queries req).resp = none
        ∧ (DeleteApplicant queries req).err.isSome = true) := by
  unfold DeleteApplicant
  split
  · exact Or.inr ⟨rfl, rfl⟩
  · split
    · exact Or.inr ⟨rfl, rfl⟩
    · exact Or.inl ⟨rfl, rfl⟩

theorem ListApplicants_resp_xor_err (queries : Querier) (req : ListApplicantsRequest) :
    ((ListApplicants queries req).resp.isSome = true ∧ (ListApplicants queries req).err = none)
    ∨ ((ListApplicants queries req).resp = none
        ∧ (ListApplicants queries req).err.isSome = true) := by
  rw [ListApplicants_eq]
  split
  · exact Or.inr ⟨rfl, rfl⟩
  · split
    · exact Or.inr ⟨rfl, rfl⟩
    · exact Or.inl ⟨rfl, rfl⟩

theorem GetBestApplicant_resp_xor_err (queries : Querier) (req : GetBestApplicantRequest) :
    ((GetBestApplicant lowerCase queries req).resp.isSome = true
        ∧ (GetBestApplicant lowerCase queries req).err = none)
    ∨ ((GetBestApplicant lowerCase queries req).resp = none
        ∧ (GetBestApplicant lowerCase queries req).err.isSome = true) := by
  unfold GetBestApplicant
  simp only []
  split
  · exact Or.inr ⟨rfl, rfl⟩
  · exact Or.inl ⟨rfl, rfl⟩

/-- C11: each of the six operations (Create, Get, Update, Delete, List, GetBest), for every
request and every behaviour of the persistence layer, returns either a response and no error
or no response and an error, never both and never neither.  In particular List returns no
response, and an Internal error, when the page fetch it made fails and when the count call it
made fails. -/
theorem every_outcome_is_response_xor_error (queries : Querier) (creq : CreateApplicantRequest)
    (greq : GetApplicantRequest) (ureq : UpdateApplicantRequest) (dreq : DeleteApplicantRequest)
    (lreq : ListApplicantsRequest) (breq : GetBestApplicantRequest) :
    specResponseXorError (CreateApplicant lowerCase parseAddress queries creq)
    ∧ specResponseXorError (GetApplicant queries greq)
    ∧ specResponseXorError (UpdateApplicant lowerCase parseAddress queries ureq)
    ∧ specResponseXorError (DeleteApplicant queries dreq)
    ∧ specResponseXorError (ListApplicants queries lreq)
    ∧ specResponseXorError (GetBestApplicant lowerCase queries breq)
    ∧ (∀ larg e, QueryCall.ListApplicants larg ∈ (ListApplicants queries lreq).calls →
        queries.ListApplicants larg = Except.error e →
        (ListApplicants queries lreq).resp = none
        ∧ ((ListApplicants queries lreq).err.map StatusError.code) = some Code.Internal)
    ∧ (∀ carg e, QueryCall.CountApplicants carg ∈ (ListApplicants queries lreq).calls →
        queries.CountApplicants carg = Except.error e →
        (ListApplicants queries lreq).resp = none
        ∧ ((ListApplicants queries lreq).err.map StatusError.code) = some Code.Internal) := by
  refine ⟨CreateApplicant_resp_xor_err lowerCase parseAddress queries creq,
    GetApplicant_resp_xor_err queries greq,
    UpdateApplicant_resp_xor_err lowerCase parseAddress queries ureq,
    DeleteApplicant_resp_xor_err queries dreq, ListApplicants_resp_xor_err queries lreq,
    GetBestApplicant_resp_xor_err lowerCase queries breq, ?_, ?_⟩
  · intro larg e
    rw [ListApplicants_eq]
    split
    · intro _ _
      exact ⟨rfl, rfl⟩
    · rename_i rows hrows
      have key : ∀ calls : List QueryCall,
          calls = [QueryCall.ListApplicants ⟨specEffectiveLimit lreq.Limit,
              specEffectiveOffset lreq.Offset, lreq.Position, lreq.Status, lreq.MinScore⟩,
            QueryCall.CountApplicants ⟨lreq.Position, lreq.Status, lreq.MinScore⟩] →
          QueryCall.ListApplicants larg ∈ calls →
          queries.ListApplicants larg ≠ Except.error e := by
        rintro calls rfl hmem
        simp only [List.mem_cons, QueryCall.ListApplicants.injEq, List.mem_singleton,
          reduceCtorEq, or_false, List.not_mem_nil] at hmem
        subst hmem
        rw [hrows]
        exact fun h => Except.noConfusion h
      split
      · intro hmem hq
        exact absurd hq (key _ rfl hmem)
      · intro hmem hq
        exact absurd hq (key _ rfl hmem)
  · intro carg e
    rw [ListApplicants_eq]
    split
    · intro hmem
      simp only [List.mem_singleton, reduceCtorEq] at hmem
    · split
      · intro _ _
        exact ⟨rfl, rfl⟩
      · rename_i total htotal
        intro hmem hq
        simp only [List.mem_cons, QueryCall.CountApplicants.injEq, List.mem_singleton,
          reduceCtorEq, false_or, or_false, List.not_mem_nil] at hmem
        subst hmem
        rw [htotal] at hq
        exact Except.noConfusion hq

/-- C11 (witness): a listing whose page fetch fails, and a listing whose page fetch succeeds
and whose count call fails, both return no response and an Internal error. -/
theorem every_outcome_is_response_xor_error_witness :
    ((ListApplicants mockQuerier ⟨10, 0, "", 0, F64.fin 0⟩).resp = none
      ∧ ((ListApplicants mockQuerier ⟨10, 0, "", 0, F64.fin 0⟩).err.map StatusError.code)
          = some Code.Internal)
    ∧ ((ListApplicants countFailingQuerier ⟨10, 0, "", 0, F64.fin 0⟩).resp = none
      ∧ ((ListApplicants countFailingQuerier ⟨10, 0, "", 0, F64.fin 0⟩).err.map
          StatusError.code) = some Code.Internal) :=
  ⟨(every_outcome_is_response_xor_error id exampleParseAddress mockQuerier
      janeCreateRequest ⟨1⟩ janeUpdateRequest ⟨1⟩ ⟨10, 0, "", 0, F64.fin 0⟩ ⟨⟩).2.2.2.2.2.2.1
      ⟨10, 0, "", 0, F64.fin 0⟩ (DbError.other "listFunc not implemented") (by decide) rfl,
    (every_outcome_is_response_xor_error id exampleParseAddress countFailingQuerier
      janeCreateRequest ⟨1⟩ janeUpdateRequest ⟨1⟩ ⟨10, 0, "", 0, F64.fin 0⟩ ⟨⟩).2.2.2.2.2.2.2
      ⟨"", 0, F64.fin 0⟩ (DbError.other "database error") (by decide) rfl⟩

/-- C12: `DeleteApplicant` returns a response with success=true if and only if the id is
positive and the persistence delete returns no error; every response it returns has
success=true; and when the id is positive and the persistence delete fails, there is no
response and the error is Internal. -/
theorem DeleteApplicant_success_iff (queries : Querier) (req : DeleteApplicantRequest) :
    ((∃ r, (DeleteApplicant queries req).resp = some r ∧ r.Success = true)
        ↔ req.Id > 0 ∧ queries.DeleteApplicant req.Id = none)
    ∧ (∀ r, (DeleteApplicant queries req).resp = some r → r.Success = true)
    ∧ (∀ e, req.Id > 0 → queries.DeleteApplicant req.Id = some e →
        (DeleteApplicant queries req).resp = none
        ∧ ((DeleteApplicant queries req).err.map StatusError.code) = some Code.Internal) := by
  unfold DeleteApplicant
  by_cases hid : req.Id ≤ 0
  · rw [if_pos hid]
    refine ⟨⟨?_, ?_⟩, ?_, ?_⟩
    · rintro ⟨r, h, _⟩
      cases h
    · rintro ⟨h, _⟩
      omega
    · intro r h
      cases h
    · intro e h
      omega
  · rw [if_neg hid]
    cases hq : queries.DeleteApplicant req.Id with
    | none =>
      refine ⟨⟨fun _ => ⟨by omega, rfl⟩, fun _ => ⟨_, rfl, rfl⟩⟩, ?_, ?_⟩
      · intro r h
        cases h
        rfl
      · intro e _ h
        cases h
    | some err =>
      refine ⟨⟨?_, ?_⟩, ?_, ?_⟩
      · rintro ⟨r, h, _⟩
        cases h
      · rintro ⟨_, h⟩
        cases h
      · intro r h
        cases h
      · intro e _ _
        exact ⟨rfl, rfl⟩

/-- C12 (witness): deleting id 1 succeeds when the persistence delete succeeds, and is an
Internal error when the persistence delete fails. -/
theorem DeleteApplicant_success_iff_witness :
    (∃ r, (DeleteApplicant deletingQuerier ⟨1⟩).resp = some r ∧ r.Success = true)
    ∧ ((DeleteApplicant mockQuerier ⟨1⟩).err.map StatusError.code) = some Code.Internal :=
  ⟨(DeleteApplicant_success_iff deletingQuerier ⟨1⟩).1.mpr ⟨by decide, rfl⟩,
    ((DeleteApplicant_success_iff mockQuerier ⟨1⟩).2.2
      (DbError.other "deleteFunc not implemented") (by decide) rfl).2⟩

end outcomeClaims

/-! ## The helpers and the record mapper -/

section helperClaims

variable (lowerCase : Char → Char) (parseAddress : String → Bool)

theorem RoundToTwoDecimals_lit_0015 : RoundToTwoDecimals (F64.lit 0.015) = F64.lit 0.02 := by
  have h1 : F64.lit 0.015 = F64.fin (1080863910568919 / 72057594037927936) := by
    exact F64.round_eq_of_pos (-7) 8646911284551352 (by norm_num) (by norm_num) (by norm_num)
      (by norm_num) (by norm_num) (by norm_num) (by norm_num) (by norm_num)
  have h2 : F64.fin (1080863910568919 / 72057594037927936) * F64.fin 100 = F64.fin (3 / 2) := by
    rw [F64.fin_mul_fin]
    exact F64.round_eq_of_pos (0) 6755399441055744 (by norm_num) (by norm_num) (by norm_num)
      (by norm_num) (by norm_num) (by norm_num) (by norm_num) (by norm_num)
  have h3 : F64.Round (F64.fin (3 / 2)) = F64.fin 2 := by
    rw [F64.Round_fin]
    norm_num [F64.roundHalfAway]
  have h4 : F64.fin 2 / F64.fin 100 = F64.fin (5764607523034235 / 288230376151711744) := by
    rw [F64.fin_div_hundred]
    exact F64.round_eq_of_pos (-6) 5764607523034235 (by norm_num) (by norm_num) (by norm_num)
      (by norm_num) (by norm_num) (by norm_num) (by norm_num) (by norm_num)
  have k1 : F64.lit 0.02 = F64.fin (5764607523034235 / 288230376151711744) := by
    exact F64.round_eq_of_pos (-6) 5764607523034235 (by norm_num) (by norm_num) (by norm_num)
      (by norm_num) (by norm_num) (by norm_num) (by norm_num) (by norm_num)
  simp only [RoundToTwoDecimals, h1, h2, h3, h4, k1]

theorem RoundToTwoDecimals_lit_0005 : RoundToTwoDecimals (F64.lit 0.005) = F64.lit 0.01 := by
  have h1 : F64.lit 0.005 = F64.fin (5764607523034235 / 1152921504606846976) := by
    exact F64.round_eq_of_pos (-8) 5764607523034235 (by norm_num) (by norm_num) (by norm_num)
      (by norm_num) (by norm_num) (by norm_num) (by norm_num) (by norm_num)
  have h2 : F64.fin (5764607523034235 / 1152921504606846976) * F64.fin 100 = F64.fin (1 / 2) := by
    rw [F64.fin_mul_fin]
    exact F64.round_eq_of_pos (-1) 4503599627370496 (by norm_num) (by norm_num) (by norm_num)
      (by norm_num) (by norm_num) (by norm_num) (by norm_num) (by norm_num)
  have h3 : F64.Round (F64.fin (1 / 2)) = F64.fin 1 := by
    rw [F64.Round_fin]
    norm_num [F64.roundHalfAway]
  have h4 : F64.fin 1 / F64.fin 100 = F64.fin (5764607523034235 / 576460752303423488) := by
    rw [F64.fin_div_hundred]
    exact F64.round_eq_of_pos (-7) 5764607523034235 (by norm_num) (by norm_num) (by norm_num)
      (by norm_num) (by norm_num) (by norm_num) (by norm_num) (by norm_num)
  have k1 : F64.lit 0.01 = F64.fin (5764607523034235 / 576460752303423488) := by
    exact F64.round_eq_of_pos (-7) 5764607523034235 (by norm_num) (by norm_num) (by norm_num)
      (by norm_num) (by norm_num) (by norm_num) (by norm_num) (by norm_num)
  simp only [RoundToTwoDecimals, h1, h2, h3, h4, k1]

theorem RoundToTwoDecimals_lit_neg_0005 :
    RoundToTwoDecimals (F64.lit (-0.005)) = F64.lit (-0.01) := by
  have h1 : F64.lit (-0.005) = F64.fin (-5764607523034235 / 1152921504606846976) := by
    exact F64.round_eq_of_neg (1 / 200) (5764607523034235 / 1152921504606846976) (by norm_num)
      (F64.round_eq_of_pos (-8) 5764607523034235 (by norm_num) (by norm_num) (by norm_num)
      (by norm_num) (by norm_num) (by norm_num) (by norm_num) (by norm_num)) (by norm_num)
  have h2 : F64.fin (-5764607523034235 / 1152921504606846976) * F64.fin 100 = F64.fin (-1 / 2) := by
    rw [F64.fin_mul_fin]
    exact F64.round_eq_of_neg (144115188075855875 / 288230376151711744) (1 / 2) (by norm_num)
      (F64.round_eq_of_pos (-1) 4503599627370496 (by norm_num) (by norm_num) (by norm_num)
      (by norm_num) (by norm_num) (by norm_num) (by norm_num) (by norm_num)) (by norm_num)
  have h3 : F64.Round (F64.fin (-1 / 2)) = F64.fin (-1) := by
    rw [F64.Round_fin]
    norm_num [F64.roundHalfAway]
  have h4 : F64.fin (-1) / F64.fin 100 = F64.fin (-5764607523034235 / 576460752303423488) := by
    rw [F64.fin_div_hundred]
    exact F64.round_eq_of_neg (1 / 100) (5764607523034235 / 576460752303423488) (by norm_num)
      (F64.round_eq_of_pos (-7) 5764607523034235 (by norm_num) (by norm_num) (by norm_num)
      (by norm_num) (by norm_num) (by norm_num) (by norm_num) (by norm_num)) (by norm_num)
  have k1 : F64.lit (-0.01) = F64.fin (-5764607523034235 / 576460752303423488) := by
    exact F64.round_eq_of_neg (1 / 100) (5764607523034235 / 576460752303423488) (by norm_num)
      (F64.round_eq_of_pos (-7) 5764607523034235 (by norm_num) (by norm_num) (by norm_num)
      (by norm_num) (by norm_num) (by norm_num) (by norm_num) (by norm_num)) (by norm_num)
  simp only [RoundToTwoDecimals, h1, h2, h3, h4, k1]

theorem RoundToTwoDecimals_lit_10245 : RoundToTwoDecimals (F64.lit 10.245) = F64.lit 10.25 := by
  have h1 : F64.lit 10.245 = F64.fin (5767422272801341 / 562949953421312) := by
    exact F64.round_eq_of_pos (3) 5767422272801341 (by norm_num) (by norm_num) (by norm_num)
      (by norm_num) (by norm_num) (by norm_num) (by norm_num) (by norm_num)
  have h2 : F64.fin (5767422272801341 / 562949953421312) * F64.fin 100 = F64.fin (2049 / 2) := by
    rw [F64.fin_mul_fin]
    exact F64.round_eq_of_pos (10) 4505798650626048 (by norm_num) (by norm_num) (by norm_num)
      (by norm_num) (by norm_num) (by norm_num) (by norm_num) (by norm_num)
  have h3 : F64.Round (F64.fin (2049 / 2)) = F64.fin 1025 := by
    rw [F64.Round_fin]
    norm_num [F64.roundHalfAway]
  have h4 : F64.fin 1025 / F64.fin 100 = F64.fin (41 / 4) := by
    rw [F64.fin_div_hundred]
    exact F64.round_eq_of_pos (3) 5770237022568448 (by norm_num) (by norm_num) (by norm_num)
      (by norm_num) (by norm_num) (by norm_num) (by norm_num) (by norm_num)
  have k1 : F64.lit 10.25 = F64.fin (41 / 4) := by
    exact F64.round_eq_of_pos (3) 5770237022568448 (by norm_num) (by norm_num) (by norm_num)
      (by norm_num) (by norm_num) (by norm_num) (by norm_num) (by norm_num)
  simp only [RoundToTwoDecimals, h1, h2, h3, h4, k1]

theorem RoundToTwoDecimals_lit_0004 : RoundToTwoDecimals (F64.lit 0.004) = F64.fin 0 := by
  have h1 : F64.lit 0.004 = F64.fin (1152921504606847 / 288230376151711744) := by
    exact F64.round_eq_of_pos (-8) 4611686018427388 (by norm_num) (by norm_num) (by norm_num)
      (by norm_num) (by norm_num) (by norm_num) (by norm_num) (by norm_num)
  have h2 : F64.fin (1152921504606847 / 288230376151711744) * F64.fin 100 = F64.fin
    (3602879701896397 / 9007199254740992) := by
    rw [F64.fin_mul_fin]
    exact F64.round_eq_of_pos (-2) 7205759403792794 (by norm_num) (by norm_num) (by norm_num)
      (by norm_num) (by norm_num) (by norm_num) (by norm_num) (by norm_num)
  have h3 : F64.Round (F64.fin (3602879701896397 / 9007199254740992)) = F64.fin 0 := by
    rw [F64.Round_fin]
    norm_num [F64.roundHalfAway]
  have h4 : F64.fin 0 / F64.fin 100 = F64.fin 0 := by
    rw [F64.fin_div_hundred]
    exact (by simpa using F64.round_zero)
  simp only [RoundToTwoDecimals, h1, h2, h3, h4]

theorem lit_0015 : F64.lit 0.015 = F64.fin (1080863910568919 / 72057594037927936) := by
  have h1 : F64.lit 0.015 = F64.fin (1080863910568919 / 72057594037927936) := by
    exact F64.round_eq_of_pos (-7) 8646911284551352 (by norm_num) (by norm_num) (by norm_num)
      (by norm_num) (by norm_num) (by norm_num) (by norm_num) (by norm_num)
  exact h1

theorem lit_002_ne_lit_001 : F64.lit 0.02 ≠ F64.lit 0.01 := by
  have h1 : F64.lit 0.02 = F64.fin (5764607523034235 / 288230376151711744) := by
    exact F64.round_eq_of_pos (-6) 5764607523034235 (by norm_num) (by norm_num) (by norm_num)
      (by norm_num) (by norm_num) (by norm_num) (by norm_num) (by norm_num)
  have h2 : F64.lit 0.01 = F64.fin (5764607523034235 / 576460752303423488) := by
    exact F64.round_eq_of_pos (-7) 5764607523034235 (by norm_num) (by norm_num) (by norm_num)
      (by norm_num) (by norm_num) (by norm_num) (by norm_num) (by norm_num)
  rw [h1, h2]
  intro h
  have := F64.fin.inj h
  norm_num at this

theorem specRound2Exact_0015 :
    specRound2Exact (1080863910568919 / 72057594037927936) = 0.01 := by
  unfold specRound2Exact
  rw [sign_pos (by norm_num), abs_of_pos (by norm_num)]
  norm_num

theorem roundHalfAway_mul_hundred (q : ℚ) :
    (F64.roundHalfAway (q * 100) : ℚ) / 100 = specRound2Exact q := by
  unfold specRound2Exact
  rw [roundHalfAway_eq_sign]
  have h100 : (0 : ℚ) < 100 := by norm_num
  rw [abs_mul, abs_of_pos h100]
  rcases lt_trichotomy q 0 with h | h | h
  · rw [sign_neg h, sign_neg (mul_neg_of_neg_of_pos h h100)]
    push_cast
    ring
  · subst h; simp
  · rw [sign_pos h, sign_pos (mul_pos h h100)]
    push_cast
    ring

theorem NullStringToString_eq (ns : NullString) :
    NullStringToString ns = if ns.Valid = true then ns.Str else "" := by
  unfold NullStringToString
  cases ns.Valid <;> rfl

/-- C13 (counterexample): a stored interview score of 0.015, held as the float64 just below
0.015, is mapped to 0.02, whereas the stored value rounded half away from zero to 2 decimals is
0.01. -/
theorem DbApplicantToProto_score_is_not_half_away :
    (DbApplicantToProto lowScoreRow).InterviewScore = F64.lit 0.02
    ∧ lowScoreRow.InterviewScore = F64.fin (1080863910568919 / 72057594037927936)
    ∧ specRound2Exact (1080863910568919 / 72057594037927936) = 0.01
    ∧ F64.lit 0.02 ≠ F64.lit 0.01 :=
  ⟨RoundToTwoDecimals_lit_0015, lit_0015, specRound2Exact_0015, lit_002_ne_lit_001⟩

/-- C13 (amended): `DbApplicantToProto` copies id, name, email, position, years of experience,
skills, GitHub stars and the three boolean traits unchanged; each of the four scores is
`RoundToTwoDecimals` of the stored value, which is the rounding to 2 decimals carried out in
float64: the float64 product of the stored value and 100, rounded to the nearest integer with
ties away from zero and divided by 100 in float64; the status keeps its number; each optional
text is the empty string when absent and the stored string when present. -/
theorem DbApplicantToProto_fields (app : Applicant) :
    ((DbApplicantToProto app).Id = app.ID ∧ (DbApplicantToProto app).Name = app.Name
      ∧ (DbApplicantToProto app).Email = app.Email
      ∧ (DbApplicantToProto app).Position = app.Position
      ∧ (DbApplicantToProto app).YearsExperience = app.YearsExperience
      ∧ (DbApplicantToProto app).Skills = app.Skills
      ∧ (DbApplicantToProto app).GithubStars = app.GithubStars
      ∧ (DbApplicantToProto app).CanExitVim = app.CanExitVim
      ∧ (DbApplicantToProto app).KnowsGo = app.KnowsGo
      ∧ (DbApplicantToProto app).DebugsInProduction = app.DebugsInProduction)
    ∧ ((DbApplicantToProto app).InterviewScore = RoundToTwoDecimals app.InterviewScore
      ∧ (DbApplicantToProto app).CulturalFitScore = RoundToTwoDecimals app.CulturalFitScore
      ∧ (DbApplicantToProto app).TechnicalScore = RoundToTwoDecimals app.TechnicalScore
      ∧ (DbApplicantToProto app).OverallScore = RoundToTwoDecimals app.OverallScore)
    ∧ ((DbApplicantToProto app).InterviewScore = specRound2 app.InterviewScore
      ∧ (DbApplicantToProto app).CulturalFitScore = specRound2 app.CulturalFitScore
      ∧ (DbApplicantToProto app).TechnicalScore = specRound2 app.TechnicalScore
      ∧ (DbApplicantToProto app).OverallScore = specRound2 app.OverallScore)
    ∧ (DbApplicantToProto app).Status = app.Status
    ∧ ((DbApplicantToProto app).FunFact
          = (if app.FunFact.Valid = true then app.FunFact.Str else "")
      ∧ (DbApplicantToProto app).Availability
          = (if app.Availability.Valid = true then app.Availability.Str else "")
      ∧ (DbApplicantToProto app).SalaryExpectation
          = (if app.SalaryExpectation.Valid = true then app.SalaryExpectation.Str else "")) :=
  ⟨⟨rfl, rfl, rfl, rfl, rfl, rfl, rfl, rfl, rfl, rfl⟩, ⟨rfl, rfl, rfl, rfl⟩,
    ⟨RoundToTwoDecimals_eq_specRound2 _, RoundToTwoDecimals_eq_specRound2 _,
      RoundToTwoDecimals_eq_specRound2 _, RoundToTwoDecimals_eq_specRound2 _⟩, rfl,
    ⟨NullStringToString_eq _, NullStringToString_eq _, NullStringToString_eq _⟩⟩

theorem ToNullString_valid_eq_false_iff (s : Option String) :
    (ToNullString s).Valid = false ↔ s = none ∨ s = some "" := by
  cases s with
  | none => simp [ToNullString]
  | some str =>
    by_cases h : str = ""
    · simp [ToNullString, h]
    · simp [ToNullString, h]

theorem ToNullString_some_of_ne (str : String) (h : str ≠ "") :
    ToNullString (some str) = ⟨str, true⟩ := by
  simp [ToNullString, h]

/-- What the service hands to persistence for one optional text of a request. -/
theorem optional_text_stored (text : String) :
    specOptionalStored (ToNullString (if text != "" then some text else none)) text := by
  by_cases h : text = ""
  · subst h
    exact Or.inl ⟨rfl, rfl⟩
  · refine Or.inr ⟨h, ?_⟩
    have hne : (text != "") = true := by simpa using h
    rw [if_pos hne, ToNullString_some_of_ne text h]
    exact ⟨rfl, rfl⟩

/-- C15: `ToNullString` returns an absent value (Valid=false) exactly when its argument is nil
or points to the empty string, and otherwise a present value carrying the same string
unchanged (a whitespace-only string stays present).  Consequently, for every Create and Update
request that passes validation, each of funFact, availability and salaryExpectation handed to
persistence is absent when the request's text is empty and is otherwise present with the
request's non-empty text, never present with the empty string. -/
theorem optional_text_normalisation (s : Option String) (queries : Querier)
    (creq : CreateApplicantRequest) (ureq : UpdateApplicantRequest) :
    ((ToNullString s).Valid = false ↔ s = none ∨ s = some "")
    ∧ (∀ str, s = some str → str ≠ "" → ToNullString s = ⟨str, true⟩)
    ∧ ToNullString (some "   ") = ⟨"   ", true⟩
    ∧ (ValidateApplicant parseAddress creq.Name creq.Email creq.Position creq.YearsExperience
        creq.GithubStars creq.InterviewScore creq.CulturalFitScore creq.TechnicalScore false 0
          = none →
      ∃ arg : CreateApplicantParams,
        (CreateApplicant lowerCase parseAddress queries creq).calls
          = [QueryCall.CreateApplicant arg]
        ∧ specOptionalStored arg.FunFact creq.FunFact
        ∧ specOptionalStored arg.Availability creq.Availability
        ∧ specOptionalStored arg.SalaryExpectation creq.SalaryExpectation)
    ∧ (ValidateApplicant parseAddress ureq.Name ureq.Email ureq.Position ureq.YearsExperience
        ureq.GithubStars ureq.InterviewScore ureq.CulturalFitScore ureq.TechnicalScore true
          ureq.Id = none →
      ∃ arg : UpdateApplicantParams,
        (UpdateApplicant lowerCase parseAddress queries ureq).calls
          = [QueryCall.UpdateApplicant arg]
        ∧ specOptionalStored arg.FunFact ureq.FunFact
        ∧ specOptionalStored arg.Availability ureq.Availability
        ∧ specOptionalStored arg.SalaryExpectation ureq.SalaryExpectation) := by
  refine ⟨ToNullString_valid_eq_false_iff s, ?_, by decide, ?_, ?_⟩
  · rintro str rfl h
    exact ToNullString_some_of_ne str h
  · intro hv
    exact ⟨createParams lowerCase creq,
      CreateApplicant_calls_of_valid lowerCase parseAddress queries creq hv,
      optional_text_stored _, optional_text_stored _, optional_text_stored _⟩
  · intro hv
    exact ⟨updateParams lowerCase ureq,
      UpdateApplicant_calls_of_valid lowerCase parseAddress queries ureq hv,
      optional_text_stored _, optional_text_stored _, optional_text_stored _⟩

/-- C15 (witness): a pointer to "Hello World" becomes a present value; the create request of
the tests, given a fun fact and no availability, stores the fun fact as present and the
availability as absent; the update request of the tests stores its empty salary expectation as
absent. -/
theorem optional_text_normalisation_witness :
    ToNullString (some "Hello World") = ⟨"Hello World", true⟩
    ∧ (∃ arg : CreateApplicantParams,
      (CreateApplicant id exampleParseAddress mockQuerier
          { janeCreateRequest with FunFact := "Can exit Vim" }).calls
        = [QueryCall.CreateApplicant arg]
      ∧ specOptionalStored arg.FunFact "Can exit Vim"
      ∧ specOptionalStored arg.Availability "")
    ∧ (∃ arg : UpdateApplicantParams,
      (UpdateApplicant id exampleParseAddress mockQuerier janeUpdateRequest).calls
        = [QueryCall.UpdateApplicant arg]
      ∧ specOptionalStored arg.SalaryExpectation "") := by
  have h := optional_text_normalisation id exampleParseAddress (some "Hello World") mockQuerier
    { janeCreateRequest with FunFact := "Can exit Vim" } janeUpdateRequest
  obtain ⟨arg, h1, h2, h3, _⟩ := h.2.2.2.1 (by decide)
  obtain ⟨uarg, h4, _, _, h5⟩ := h.2.2.2.2 (by decide)
  exact ⟨h.2.1 "Hello World" rfl (by decide), ⟨arg, h1, h2, h3⟩, ⟨uarg, h4, h5⟩⟩

/-- C16: for every string, the empty string and whitespace-only strings included, converting
a pointer to it with `ToNullString` and back with `NullStringToString` gives the string. -/
theorem NullString_round_trip (s : String) : NullStringToString (ToNullString (some s)) = s := by
  by_cases h : s = ""
  · subst h
    rfl
  · rw [ToNullString_some_of_ne s h]
    rfl

/-- C17 (counterexample): for the float64 nearest to 0.015, which lies just below 0.015,
`RoundToTwoDecimals` returns the float64 nearest to 0.02, whereas
`sign(f) * floor(|f|*100 + 1/2) / 100` is 0.01. -/
theorem RoundToTwoDecimals_is_not_half_away :
    F64.lit 0.015 = F64.fin (1080863910568919 / 72057594037927936)
    ∧ RoundToTwoDecimals (F64.lit 0.015) = F64.lit 0.02
    ∧ specRound2Exact (1080863910568919 / 72057594037927936) = 0.01
    ∧ F64.lit 0.02 ≠ F64.lit 0.01 :=
  ⟨lit_0015, RoundToTwoDecimals_lit_0015, specRound2Exact_0015, lit_002_ne_lit_001⟩

/-- C17 (amended): `RoundToTwoDecimals` is `math.Round(f*100)/100` evaluated in float64.  For
every `f` it is the float64 product `p = f*100` rounded to the nearest integer with ties going
away from zero, `sign(p) * floor(|p| + 1/2)`, and divided by 100 in float64 (NaN and the
infinities are returned as they are); whenever the product `f*100` is exact in float64 this is
the float64 nearest to `sign(f) * floor(|f|*100 + 1/2) / 100`; 0.005 gives 0.01, -0.005 gives
-0.01, 10.245 gives 10.25 and 0.004 gives 0. -/
theorem RoundToTwoDecimals_half_away_from_zero (f : F64) (q : ℚ) :
    RoundToTwoDecimals f = specRound2 f
    ∧ (F64.round (q * 100) = F64.fin (q * 100) →
        RoundToTwoDecimals (F64.fin q) = F64.round (specRound2Exact q))
    ∧ (RoundToTwoDecimals F64.nan = F64.nan ∧ RoundToTwoDecimals F64.pinf = F64.pinf
        ∧ RoundToTwoDecimals F64.ninf = F64.ninf)
    ∧ RoundToTwoDecimals (F64.lit 0.005) = F64.lit 0.01
    ∧ RoundToTwoDecimals (F64.lit (-0.005)) = F64.lit (-0.01)
    ∧ RoundToTwoDecimals (F64.lit 10.245) = F64.lit 10.25
    ∧ RoundToTwoDecimals (F64.lit 0.004) = F64.fin 0 := by
  refine ⟨RoundToTwoDecimals_eq_specRound2 f, ?_, ⟨rfl, rfl, rfl⟩, RoundToTwoDecimals_lit_0005,
    RoundToTwoDecimals_lit_neg_0005, RoundToTwoDecimals_lit_10245, RoundToTwoDecimals_lit_0004⟩
  intro h
  unfold RoundToTwoDecimals
  rw [F64.fin_mul_fin, h, F64.Round_fin, F64.fin_div_hundred, roundHalfAway_mul_hundred]

/-- C17 (witness): the product 87.5 * 100 is exact in float64, and `RoundToTwoDecimals` of 87.5
is the float64 nearest to 87.5 rounded half away from zero to 2 decimals. -/
theorem RoundToTwoDecimals_half_away_from_zero_witness :
    RoundToTwoDecimals (F64.fin 87.5) = F64.round (specRound2Exact 87.5) :=
  (RoundToTwoDecimals_half_away_from_zero F64.nan 87.5).2.1
    (F64.round_eq_self _ 8750 0 (by norm_num) (by norm_num) (by norm_num) (by norm_num)
      (by norm_num))

/-- C18: `ContainsSkill(skills, skill)` is true if and only if some element of `skills` equals
`skill` when both are lower-cased, a match of the whole token and not of a substring: it is
false for the empty list, `ContainsSkill(["JavaScript"], "Java")` is false, and
`ContainsSkill(["Go","Python","JavaScript"], "jAvAsCrIpT")` is true. -/
theorem ContainsSkill_whole_token (skills : List String) (skill : String) :
    (ContainsSkill lowerCase skills skill = true ↔ specContains lowerCase skills skill)
    ∧ ContainsSkill lowerCase [] skill = false
    ∧ ContainsSkill lowerCase ["JavaScript"] "Java" = false
    ∧ ContainsSkill lowerCase ["Go", "Python", "JavaScript"] "jAvAsCrIpT" = true := by
  refine ⟨ContainsSkill_iff lowerCase skills skill, rfl, ?_, ?_⟩
  · simp [ContainsSkill, ToLower, unicodeToLower]
  · simp [ContainsSkill, ToLower, unicodeToLower]

end helperClaims

/-! ## Penalties, bonuses and scenarios of the score calculator -/

section scenarioClaims

variable (lowerCase : Char → Char)

theorem F64_add_fin_zero_of_round {x : F64} (hr : ∀ r, x = F64.fin r → F64.round r = F64.fin r) :
    x + F64.fin 0 = x := by
  cases x with
  | nan => rfl
  | ninf => rfl
  | pinf => rfl
  | fin a => rw [F64.fin_add_fin, add_zero, hr a rfl]

/-- On a value in (0, 100] the clamp does nothing and the rounding to 2 decimals over the real
numbers is `floor(x*100 + 1/2) / 100`. -/
theorem specRound2Exact_clamp {x : ℚ} (h0 : 0 < x) (h1 : x ≤ 100) :
    specRound2Exact (max 0 (min x 100)) = (⌊x * 100 + 1 / 2⌋ : ℚ) / 100 := by
  rw [min_eq_left h1, max_eq_right h0.le]
  unfold specRound2Exact
  rw [sign_pos h0, abs_of_pos h0]
  simp

/-- With the single skill JavaScript, an interview score of 1 and nothing else the score is 0.22. -/
theorem score_javascript_one :
    CalculateOverallScore id "Ann" ["JavaScript"] 0 (F64.fin 1) (F64.fin 0)
        (F64.fin 0) false false false
      = F64.lit 0.22 := by
  have hJ : ContainsSkill id ["JavaScript"] "Java" = false := by decide
  have hS : ContainsSkill id ["JavaScript"] "JavaScript" = true := by decide
  have hT : ContainsSkill id ["JavaScript"] "TypeScript" = false := by decide
  have hy : ¬ ((0 : Int) > 2) := by decide
  have hn : ¬ ((["JavaScript"].length : Int) > 5) := by decide
  have h1 : F64.fin 0 * F64.fin (3602879701896397 / 9007199254740992) = F64.fin 0 := by
    rw [F64.fin_mul_fin]
    exact (by simpa using F64.round_zero)
  have h2 : F64.fin 1 * F64.fin (5404319552844595 / 18014398509481984) = F64.fin
    (5404319552844595 / 18014398509481984) := by
    rw [F64.fin_mul_fin]
    exact F64.round_eq_of_pos (-2) 5404319552844595 (by norm_num) (by norm_num) (by norm_num)
      (by norm_num) (by norm_num) (by norm_num) (by norm_num) (by norm_num)
  have h3 : F64.fin 0 + F64.fin (5404319552844595 / 18014398509481984) = F64.fin
    (5404319552844595 / 18014398509481984) := by
    rw [F64.fin_add_fin]
    exact F64.round_eq_of_pos (-2) 5404319552844595 (by norm_num) (by norm_num) (by norm_num)
      (by norm_num) (by norm_num) (by norm_num) (by norm_num) (by norm_num)
  have h4 : F64.fin 0 * F64.fin (5404319552844595 / 18014398509481984) = F64.fin 0 := by
    rw [F64.fin_mul_fin]
    exact (by simpa using F64.round_zero)
  have h5 : F64.fin (5404319552844595 / 18014398509481984) + F64.fin 0 = F64.fin
    (5404319552844595 / 18014398509481984) := by
    rw [F64.fin_add_fin]
    exact F64.round_eq_of_pos (-2) 5404319552844595 (by norm_num) (by norm_num) (by norm_num)
      (by norm_num) (by norm_num) (by norm_num) (by norm_num) (by norm_num)
  have h6 : F64.ofInt 0 = F64.fin 0 := by
    simpa [F64.ofInt_eq] using F64.round_intCast 0 (by norm_num)
  have h7 : F64.fin 0 * F64.fin 0.5 = F64.fin 0 := by
    rw [F64.fin_mul_fin]
    exact (by simpa using F64.round_zero)
  have h8 : F64.Min (F64.fin 0) (F64.fin 3.5) = F64.fin 0 := by
    rw [F64.Min_fin_fin]
    norm_num
  have h9 : F64.fin (5404319552844595 / 18014398509481984) + F64.fin 0 = F64.fin
    (5404319552844595 / 18014398509481984) := by
    rw [F64.fin_add_fin]
    exact F64.round_eq_of_pos (-2) 5404319552844595 (by norm_num) (by norm_num) (by norm_num)
      (by norm_num) (by norm_num) (by norm_num) (by norm_num) (by norm_num)
  have h10 : F64.fin (5404319552844595 / 18014398509481984) * F64.fin 0.75 = F64.fin
    (2026619832316723 / 9007199254740992) := by
    rw [F64.fin_mul_fin]
    exact F64.round_eq_of_pos_tie (-3) 8106479329266892 (by norm_num) (by norm_num) (by norm_num)
      (by norm_num) (by norm_num) (by norm_num) (by norm_num) (by norm_num)
  have h11 : F64.Min (F64.fin (2026619832316723 / 9007199254740992)) (F64.fin 100) = F64.fin
    (2026619832316723 / 9007199254740992) := by
    rw [F64.Min_fin_fin]
    norm_num
  have h12 : F64.Max (F64.fin 0) (F64.fin (2026619832316723 / 9007199254740992)) = F64.fin
    (2026619832316723 / 9007199254740992) := by
    rw [F64.Max_fin_fin]
    norm_num
  have h13 : F64.fin (2026619832316723 / 9007199254740992) * F64.fin 100 = F64.fin
    (6333186975989759 / 281474976710656) := by
    rw [F64.fin_mul_fin]
    exact F64.round_eq_of_pos (4) 6333186975989759 (by norm_num) (by norm_num) (by norm_num)
      (by norm_num) (by norm_num) (by norm_num) (by norm_num) (by norm_num)
  have h14 : F64.Round (F64.fin (6333186975989759 / 281474976710656)) = F64.fin 22 := by
    rw [F64.Round_fin]
    norm_num [F64.roundHalfAway]
  have h15 : F64.fin 22 / F64.fin 100 = F64.fin (7926335344172073 / 36028797018963968) := by
    rw [F64.fin_div_hundred]
    exact F64.round_eq_of_pos (-3) 7926335344172073 (by norm_num) (by norm_num) (by norm_num)
      (by norm_num) (by norm_num) (by norm_num) (by norm_num) (by norm_num)
  have k1 : F64.lit 0.22 = F64.fin (7926335344172073 / 36028797018963968) := by
    exact F64.round_eq_of_pos (-3) 7926335344172073 (by norm_num) (by norm_num) (by norm_num)
      (by norm_num) (by norm_num) (by norm_num) (by norm_num) (by norm_num)
  simp only [CalculateOverallScore, hJ, hS, hT, hy, hn, Bool.not_false, Bool.not_true,
    Bool.and_true, Bool.and_false, Bool.true_and,
    Bool.false_and, Bool.false_eq_true, if_true, if_false, lit_04, lit_03, lit_07, lit_02,
    h1, h2, h3, h4, h5, h6, h7, h8, h9, h10, h11, h12, h13, h14, h15, k1]

/-- With the skills Java and JavaScript, an interview score of 6 and nothing else the score is
0.94. -/
theorem score_both_penalties_six :
    CalculateOverallScore id "Ann" ["Java", "JavaScript"] 0 (F64.fin 6) (F64.fin 0)
        (F64.fin 0) false false false
      = F64.lit 0.94 := by
  have hJ : ContainsSkill id ["Java", "JavaScript"] "Java" = true := by decide
  have hS : ContainsSkill id ["Java", "JavaScript"] "JavaScript" = true := by decide
  have hT : ContainsSkill id ["Java", "JavaScript"] "TypeScript" = false := by decide
  have hy : ¬ ((0 : Int) > 2) := by decide
  have hn : ¬ ((["Java", "JavaScript"].length : Int) > 5) := by decide
  have h1 : F64.fin 0 * F64.fin (3602879701896397 / 9007199254740992) = F64.fin 0 := by
    rw [F64.fin_mul_fin]
    exact (by simpa using F64.round_zero)
  have h2 : F64.fin 6 * F64.fin (5404319552844595 / 18014398509481984) = F64.fin
    (2026619832316723 / 1125899906842624) := by
    rw [F64.fin_mul_fin]
    exact F64.round_eq_of_pos_tie (0) 8106479329266892 (by norm_num) (by norm_num) (by norm_num)
      (by norm_num) (by norm_num) (by norm_num) (by norm_num) (by norm_num)
  have h3 : F64.fin 0 + F64.fin (2026619832316723 / 1125899906842624) = F64.fin
    (2026619832316723 / 1125899906842624) := by
    rw [F64.fin_add_fin]
    exact F64.round_eq_of_pos (0) 8106479329266892 (by norm_num) (by norm_num) (by norm_num)
      (by norm_num) (by norm_num) (by norm_num) (by norm_num) (by norm_num)
  have h4 : F64.fin 0 * F64.fin (5404319552844595 / 18014398509481984) = F64.fin 0 := by
    rw [F64.fin_mul_fin]
    exact (by simpa using F64.round_zero)
  have h5 : F64.fin (2026619832316723 / 1125899906842624) + F64.fin 0 = F64.fin
    (2026619832316723 / 1125899906842624) := by
    rw [F64.fin_add_fin]
    exact F64.round_eq_of_pos (0) 8106479329266892 (by norm_num) (by norm_num) (by norm_num)
      (by norm_num) (by norm_num) (by norm_num) (by norm_num) (by norm_num)
  have h6 : F64.fin (2026619832316723 / 1125899906842624) * F64.fin
    (3152519739159347 / 4503599627370496) = F64.fin (709316941310853 / 562949953421312) := by
    rw [F64.fin_mul_fin]
    exact F64.round_eq_of_pos (0) 5674535530486824 (by norm_num) (by norm_num) (by norm_num)
      (by norm_num) (by norm_num) (by norm_num) (by norm_num) (by norm_num)
  have h7 : F64.ofInt 0 = F64.fin 0 := by
    simpa [F64.ofInt_eq] using F64.round_intCast 0 (by norm_num)
  have h8 : F64.fin 0 * F64.fin 0.5 = F64.fin 0 := by
    rw [F64.fin_mul_fin]
    exact (by simpa using F64.round_zero)
  have h9 : F64.Min (F64.fin 0) (F64.fin 3.5) = F64.fin 0 := by
    rw [F64.Min_fin_fin]
    norm_num
  have h10 : F64.fin (709316941310853 / 562949953421312) + F64.fin 0 = F64.fin
    (709316941310853 / 562949953421312) := by
    rw [F64.fin_add_fin]
    exact F64.round_eq_of_pos (0) 5674535530486824 (by norm_num) (by norm_num) (by norm_num)
      (by norm_num) (by norm_num) (by norm_num) (by norm_num) (by norm_num)
  have h11 : F64.fin (709316941310853 / 562949953421312) * F64.fin 0.75 = F64.fin
    (2127950823932559 / 2251799813685248) := by
    rw [F64.fin_mul_fin]
    exact F64.round_eq_of_pos (-1) 8511803295730236 (by norm_num) (by norm_num) (by norm_num)
      (by norm_num) (by norm_num) (by norm_num) (by norm_num) (by norm_num)
  have h12 : F64.Min (F64.fin (2127950823932559 / 2251799813685248)) (F64.fin 100) = F64.fin
    (2127950823932559 / 2251799813685248) := by
    rw [F64.Min_fin_fin]
    norm_num
  have h13 : F64.Max (F64.fin 0) (F64.fin (2127950823932559 / 2251799813685248)) = F64.fin
    (2127950823932559 / 2251799813685248) := by
    rw [F64.Max_fin_fin]
    norm_num
  have h14 : F64.fin (2127950823932559 / 2251799813685248) * F64.fin 100 = F64.fin
    (6649846324789247 / 70368744177664) := by
    rw [F64.fin_mul_fin]
    exact F64.round_eq_of_pos (6) 6649846324789247 (by norm_num) (by norm_num) (by norm_num)
      (by norm_num) (by norm_num) (by norm_num) (by norm_num) (by norm_num)
  have h15 : F64.Round (F64.fin (6649846324789247 / 70368744177664)) = F64.fin 94 := by
    rw [F64.Round_fin]
    norm_num [F64.roundHalfAway]
  have h16 : F64.fin 94 / F64.fin 100 = F64.fin (2116691824864133 / 2251799813685248) := by
    rw [F64.fin_div_hundred]
    exact F64.round_eq_of_pos (-1) 8466767299456532 (by norm_num) (by norm_num) (by norm_num)
      (by norm_num) (by norm_num) (by norm_num) (by norm_num) (by norm_num)
  have k1 : F64.lit 0.94 = F64.fin (2116691824864133 / 2251799813685248) := by
    exact F64.round_eq_of_pos (-1) 8466767299456532 (by norm_num) (by norm_num) (by norm_num)
      (by norm_num) (by norm_num) (by norm_num) (by norm_num) (by norm_num)
  simp only [CalculateOverallScore, hJ, hS, hT, hy, hn, Bool.not_false, Bool.not_true,
    Bool.and_true, Bool.and_false, Bool.true_and,
    Bool.false_and, Bool.false_eq_true, if_true, if_false, lit_04, lit_03, lit_07, lit_02,
    h1, h2, h3, h4, h5, h6, h7, h8, h9, h10, h11, h12, h13, h14, h15, h16, k1]

/-- With the skills Java and JavaScript, sub-scores of 80 and nothing else the score is 42. -/
theorem score_both_penalties_eighty :
    CalculateOverallScore id "Test User" ["Java", "JavaScript"] 0 (F64.fin 80) (F64.fin 80)
        (F64.fin 80) false false false
      = F64.fin 42 := by
  have hJ : ContainsSkill id ["Java", "JavaScript"] "Java" = true := by decide
  have hS : ContainsSkill id ["Java", "JavaScript"] "JavaScript" = true := by decide
  have hT : ContainsSkill id ["Java", "JavaScript"] "TypeScript" = false := by decide
  have hy : ¬ ((0 : Int) > 2) := by decide
  have hn : ¬ ((["Java", "JavaScript"].length : Int) > 5) := by decide
  have h1 : F64.fin 80 * F64.fin (3602879701896397 / 9007199254740992) = F64.fin 32 := by
    rw [F64.fin_mul_fin]
    exact F64.round_eq_of_pos (5) 4503599627370496 (by norm_num) (by norm_num) (by norm_num)
      (by norm_num) (by norm_num) (by norm_num) (by norm_num) (by norm_num)
  have h2 : F64.fin 80 * F64.fin (5404319552844595 / 18014398509481984) = F64.fin 24 := by
    rw [F64.fin_mul_fin]
    exact F64.round_eq_of_pos (4) 6755399441055744 (by norm_num) (by norm_num) (by norm_num)
      (by norm_num) (by norm_num) (by norm_num) (by norm_num) (by norm_num)
  have h3 : F64.fin 32 + F64.fin 24 = F64.fin 56 := by
    rw [F64.fin_add_fin]
    exact F64.round_eq_of_pos (5) 7881299347898368 (by norm_num) (by norm_num) (by norm_num)
      (by norm_num) (by norm_num) (by norm_num) (by norm_num) (by norm_num)
  have h4 : F64.fin 80 * F64.fin (5404319552844595 / 18014398509481984) = F64.fin 24 := by
    rw [F64.fin_mul_fin]
    exact F64.round_eq_of_pos (4) 6755399441055744 (by norm_num) (by norm_num) (by norm_num)
      (by norm_num) (by norm_num) (by norm_num) (by norm_num) (by norm_num)
  have h5 : F64.fin 56 + F64.fin 24 = F64.fin 80 := by
    rw [F64.fin_add_fin]
    exact F64.round_eq_of_pos (6) 5629499534213120 (by norm_num) (by norm_num) (by norm_num)
      (by norm_num) (by norm_num) (by norm_num) (by norm_num) (by norm_num)
  have h6 : F64.fin 80 * F64.fin (3152519739159347 / 4503599627370496) = F64.fin 56 := by
    rw [F64.fin_mul_fin]
    exact F64.round_eq_of_pos_tie (5) 7881299347898368 (by norm_num) (by norm_num) (by norm_num)
      (by norm_num) (by norm_num) (by norm_num) (by norm_num) (by norm_num)
  have h7 : F64.ofInt 0 = F64.fin 0 := by
    simpa [F64.ofInt_eq] using F64.round_intCast 0 (by norm_num)
  have h8 : F64.fin 0 * F64.fin 0.5 = F64.fin 0 := by
    rw [F64.fin_mul_fin]
    exact (by simpa using F64.round_zero)
  have h9 : F64.Min (F64.fin 0) (F64.fin 3.5) = F64.fin 0 := by
    rw [F64.Min_fin_fin]
    norm_num
  have h10 : F64.fin 56 + F64.fin 0 = F64.fin 56 := by
    rw [F64.fin_add_fin]
    exact F64.round_eq_of_pos (5) 7881299347898368 (by norm_num) (by norm_num) (by norm_num)
      (by norm_num) (by norm_num) (by norm_num) (by norm_num) (by norm_num)
  have h11 : F64.fin 56 * F64.fin 0.75 = F64.fin 42 := by
    rw [F64.fin_mul_fin]
    exact F64.round_eq_of_pos (5) 5910974510923776 (by norm_num) (by norm_num) (by norm_num)
      (by norm_num) (by norm_num) (by norm_num) (by norm_num) (by norm_num)
  have h12 : F64.Min (F64.fin 42) (F64.fin 100) = F64.fin 42 := by
    rw [F64.Min_fin_fin]
    norm_num
  have h13 : F64.Max (F64.fin 0) (F64.fin 42) = F64.fin 42 := by
    rw [F64.Max_fin_fin]
    norm_num
  have h14 : F64.fin 42 * F64.fin 100 = F64.fin 4200 := by
    rw [F64.fin_mul_fin]
    exact F64.round_eq_of_pos (12) 4617948836659200 (by norm_num) (by norm_num) (by norm_num)
      (by norm_num) (by norm_num) (by norm_num) (by norm_num) (by norm_num)
  have h15 : F64.Round (F64.fin 4200) = F64.fin 4200 := by
    rw [F64.Round_fin]
    norm_num [F64.roundHalfAway]
  have h16 : F64.fin 4200 / F64.fin 100 = F64.fin 42 := by
    rw [F64.fin_div_hundred]
    exact F64.round_eq_of_pos (5) 5910974510923776 (by norm_num) (by norm_num) (by norm_num)
      (by norm_num) (by norm_num) (by norm_num) (by norm_num) (by norm_num)
  simp only [CalculateOverallScore, hJ, hS, hT, hy, hn, Bool.not_false, Bool.not_true,
    Bool.and_true, Bool.and_false, Bool.true_and,
    Bool.false_and, Bool.false_eq_true, if_true, if_false, lit_04, lit_03, lit_07, lit_02,
    h1, h2, h3, h4, h5, h6, h7, h8, h9, h10, h11, h12, h13, h14, h15, h16]

/-- The applicant of the test "JavaScript developer without TypeScript or Go penalty" with a
technical score of 72 scores 55.72. -/
theorem score_javascript_seventy_two :
    CalculateOverallScore id "Iris JavaScript" ["JavaScript", "React"] 5 (F64.fin 70) (F64.fin 70)
        (F64.fin 72) false false true
      = F64.lit 55.72 := by
  have hJ : ContainsSkill id ["JavaScript", "React"] "Java" = false := by decide
  have hS : ContainsSkill id ["JavaScript", "React"] "JavaScript" = true := by decide
  have hT : ContainsSkill id ["JavaScript", "React"] "TypeScript" = false := by decide
  have hy : (5 : Int) > 2 := by decide
  have hn : ¬ ((["JavaScript", "React"].length : Int) > 5) := by decide
  have h1 : F64.fin 72 * F64.fin (3602879701896397 / 9007199254740992) = F64.fin
    (8106479329266893 / 281474976710656) := by
    rw [F64.fin_mul_fin]
    exact F64.round_eq_of_pos (4) 8106479329266893 (by norm_num) (by norm_num) (by norm_num)
      (by norm_num) (by norm_num) (by norm_num) (by norm_num) (by norm_num)
  have h2 : F64.fin 70 * F64.fin (5404319552844595 / 18014398509481984) = F64.fin 21 := by
    rw [F64.fin_mul_fin]
    exact F64.round_eq_of_pos (4) 5910974510923776 (by norm_num) (by norm_num) (by norm_num)
      (by norm_num) (by norm_num) (by norm_num) (by norm_num) (by norm_num)
  have h3 : F64.fin (8106479329266893 / 281474976710656) + F64.fin 21 = F64.fin
    (3504363460047667 / 70368744177664) := by
    rw [F64.fin_add_fin]
    exact F64.round_eq_of_pos_tie (5) 7008726920095334 (by norm_num) (by norm_num) (by norm_num)
      (by norm_num) (by norm_num) (by norm_num) (by norm_num) (by norm_num)
  have h4 : F64.fin 70 * F64.fin (5404319552844595 / 18014398509481984) = F64.fin 21 := by
    rw [F64.fin_mul_fin]
    exact F64.round_eq_of_pos (4) 5910974510923776 (by norm_num) (by norm_num) (by norm_num)
      (by norm_num) (by norm_num) (by norm_num) (by norm_num) (by norm_num)
  have h5 : F64.fin (3504363460047667 / 70368744177664) + F64.fin 21 = F64.fin
    (4982107087778611 / 70368744177664) := by
    rw [F64.fin_add_fin]
    exact F64.round_eq_of_pos (6) 4982107087778611 (by norm_num) (by norm_num) (by norm_num)
      (by norm_num) (by norm_num) (by norm_num) (by norm_num) (by norm_num)
  have h6 : F64.fin (4982107087778611 / 70368744177664) + F64.fin 1.0 = F64.fin
    (5052475831956275 / 70368744177664) := by
    rw [F64.fin_add_fin]
    exact F64.round_eq_of_pos (6) 5052475831956275 (by norm_num) (by norm_num) (by norm_num)
      (by norm_num) (by norm_num) (by norm_num) (by norm_num) (by norm_num)
  have h7 : F64.ofInt 5 = F64.fin 5 := by
    simpa [F64.ofInt_eq] using F64.round_intCast 5 (by norm_num)
  have h8 : F64.fin 5 * F64.fin 0.5 = F64.fin (5 / 2) := by
    rw [F64.fin_mul_fin]
    exact F64.round_eq_of_pos (1) 5629499534213120 (by norm_num) (by norm_num) (by norm_num)
      (by norm_num) (by norm_num) (by norm_num) (by norm_num) (by norm_num)
  have h9 : F64.Min (F64.fin (5 / 2)) (F64.fin 3.5) = F64.fin (5 / 2) := by
    rw [F64.Min_fin_fin]
    norm_num
  have h10 : F64.fin (5052475831956275 / 70368744177664) + F64.fin (5 / 2) = F64.fin
    (5228397692400435 / 70368744177664) := by
    rw [F64.fin_add_fin]
    exact F64.round_eq_of_pos (6) 5228397692400435 (by norm_num) (by norm_num) (by norm_num)
      (by norm_num) (by norm_num) (by norm_num) (by norm_num) (by norm_num)
  have h11 : F64.fin (5228397692400435 / 70368744177664) * F64.fin 0.75 = F64.fin
    (1960649134650163 / 35184372088832) := by
    rw [F64.fin_mul_fin]
    exact F64.round_eq_of_pos_tie (5) 7842596538600652 (by norm_num) (by norm_num) (by norm_num)
      (by norm_num) (by norm_num) (by norm_num) (by norm_num) (by norm_num)
  have h12 : F64.Min (F64.fin (1960649134650163 / 35184372088832)) (F64.fin 100) = F64.fin
    (1960649134650163 / 35184372088832) := by
    rw [F64.Min_fin_fin]
    norm_num
  have h13 : F64.Max (F64.fin 0) (F64.fin (1960649134650163 / 35184372088832)) = F64.fin
    (1960649134650163 / 35184372088832) := by
    rw [F64.Max_fin_fin]
    norm_num
  have h14 : F64.fin (1960649134650163 / 35184372088832) * F64.fin 100 = F64.fin
    (6127028545781759 / 1099511627776) := by
    rw [F64.fin_mul_fin]
    exact F64.round_eq_of_pos (12) 6127028545781759 (by norm_num) (by norm_num) (by norm_num)
      (by norm_num) (by norm_num) (by norm_num) (by norm_num) (by norm_num)
  have h15 : F64.Round (F64.fin (6127028545781759 / 1099511627776)) = F64.fin 5572 := by
    rw [F64.Round_fin]
    norm_num [F64.roundHalfAway]
  have h16 : F64.fin 5572 / F64.fin 100 = F64.fin (1960473212789719 / 35184372088832) := by
    rw [F64.fin_div_hundred]
    exact F64.round_eq_of_pos (5) 7841892851158876 (by norm_num) (by norm_num) (by norm_num)
      (by norm_num) (by norm_num) (by norm_num) (by norm_num) (by norm_num)
  have k1 : F64.lit 55.72 = F64.fin (1960473212789719 / 35184372088832) := by
    exact F64.round_eq_of_pos (5) 7841892851158876 (by norm_num) (by norm_num) (by norm_num)
      (by norm_num) (by norm_num) (by norm_num) (by norm_num) (by norm_num)
  simp only [CalculateOverallScore, hJ, hS, hT, hy, hn, Bool.not_false, Bool.not_true,
    Bool.and_true, Bool.and_false, Bool.true_and,
    Bool.false_and, Bool.false_eq_true, if_true, if_false, lit_04, lit_03, lit_07, lit_02,
    h1, h2, h3, h4, h5, h6, h7, h8, h9, h10, h11, h12, h13, h14, h15, h16, k1]

theorem lit_022_ne_lit_023 : F64.lit 0.22 ≠ F64.lit 0.23 := by
  have h1 : F64.lit 0.22 = F64.fin (7926335344172073 / 36028797018963968) := by
    exact F64.round_eq_of_pos (-3) 7926335344172073 (by norm_num) (by norm_num) (by norm_num)
      (by norm_num) (by norm_num) (by norm_num) (by norm_num) (by norm_num)
  have h2 : F64.lit 0.23 = F64.fin (8286623314361713 / 36028797018963968) := by
    exact F64.round_eq_of_pos (-3) 8286623314361713 (by norm_num) (by norm_num) (by norm_num)
      (by norm_num) (by norm_num) (by norm_num) (by norm_num) (by norm_num)
  rw [h1, h2]
  intro h
  have := F64.fin.inj h
  norm_num at this

theorem lit_094_ne_lit_095 : F64.lit 0.94 ≠ F64.lit 0.95 := by
  have h1 : F64.lit 0.94 = F64.fin (2116691824864133 / 2251799813685248) := by
    exact F64.round_eq_of_pos (-1) 8466767299456532 (by norm_num) (by norm_num) (by norm_num)
      (by norm_num) (by norm_num) (by norm_num) (by norm_num) (by norm_num)
  have h2 : F64.lit 0.95 = F64.fin (4278419646001971 / 4503599627370496) := by
    exact F64.round_eq_of_pos (-1) 8556839292003942 (by norm_num) (by norm_num) (by norm_num)
      (by norm_num) (by norm_num) (by norm_num) (by norm_num) (by norm_num)
  rw [h1, h2]
  intro h
  have := F64.fin.inj h
  norm_num at this

theorem lit_5572_ne_lit_5573 : F64.lit 55.72 ≠ F64.lit 55.73 := by
  have h1 : F64.lit 55.72 = F64.fin (1960473212789719 / 35184372088832) := by
    exact F64.round_eq_of_pos (5) 7841892851158876 (by norm_num) (by norm_num) (by norm_num)
      (by norm_num) (by norm_num) (by norm_num) (by norm_num) (by norm_num)
  have h2 : F64.lit 55.73 = F64.fin (7843300226042429 / 140737488355328) := by
    exact F64.round_eq_of_pos (5) 7843300226042429 (by norm_num) (by norm_num) (by norm_num)
      (by norm_num) (by norm_num) (by norm_num) (by norm_num) (by norm_num)
  rw [h1, h2]
  intro h
  have := F64.fin.inj h
  norm_num at this

/-- C2 (counterexample): with the single skill JavaScript, an interview score of 1, the other
sub-scores 0, no years and no trait, `CalculateOverallScore` returns 0.22, whereas the reference
definition over the real numbers gives 0.3 * 0.75 = 0.225, rounded to 0.23. -/
theorem reference_over_reals_differs :
    CalculateOverallScore id "Ann" ["JavaScript"] 0 (F64.fin 1) (F64.fin 0) (F64.fin 0)
        false false false = F64.lit 0.22
    ∧ exactReferenceScore id ["JavaScript"] 0 1 0 0 false false false = 0.23
    ∧ F64.lit 0.22 ≠ F64.lit 0.23 := by
  refine ⟨score_javascript_one, ?_, lit_022_ne_lit_023⟩
  have e1 : ¬ specContains id ["JavaScript"] "Java" := by decide
  have e2 : specContains id ["JavaScript"] "JavaScript" := by decide
  have e3 : ¬ specContains id ["JavaScript"] "TypeScript" := by decide
  have e4 : ¬ ((0 : Int) > 2) := by decide
  have e5 : ¬ ((["JavaScript"].length : Int) > 5) := by decide
  simp only [exactReferenceScore, exactSteps, List.foldl_cons, List.foldl_nil, e1, e2, e3, e4,
    e5, false_and, not_false_eq_true, and_self, if_true, if_false, Bool.false_eq_true]
  have hB : ((0.4 : ℚ) * 0 + 0.3 * 1 + 0.3 * 0 + min (0.5 * ((0 : Int) : ℚ)) 3.5) * 0.75
      = 0.225 := by
    norm_num
  rw [hB, specRound2Exact_clamp (by norm_num) (by norm_num)]
  norm_num

/-- The value before the clamp when both penalties apply: the weighted sum times 0.7, the
additive adjustments, times 0.75, every operation in float64. -/
theorem scoreBeforeClamp_both_penalties (skills : List String) (yearsExperience : Int)
    (i c t : F64) (canExitVim debugsInProduction : Bool)
    (hJava : specContains lowerCase skills "Java")
    (hJavaScript : specContains lowerCase skills "JavaScript")
    (hTypeScript : ¬ specContains lowerCase skills "TypeScript") :
    scoreBeforeClamp lowerCase skills yearsExperience i c t canExitVim false debugsInProduction
      = specAdjusted canExitVim debugsInProduction yearsExperience skills.length
          (specWeighted i c t * F64.lit 0.7) * F64.fin 0.75 := by
  have h1 : ContainsSkill lowerCase skills "Java" = true :=
    (ContainsSkill_iff lowerCase skills "Java").mpr hJava
  have h2 : ContainsSkill lowerCase skills "JavaScript" = true :=
    (ContainsSkill_iff lowerCase skills "JavaScript").mpr hJavaScript
  have h3 : ContainsSkill lowerCase skills "TypeScript" = false := by
    rw [Bool.eq_false_iff]
    exact fun h => hTypeScript ((ContainsSkill_iff lowerCase skills "TypeScript").mp h)
  rw [scoreBeforeClamp_eq_scoreFromWeighted]
  simp only [scoreFromWeighted, h1, h2, h3, Bool.not_false, Bool.and_true, if_true]

/-- Without Vim bonus, honesty adjustment, experience and skill-diversity bonus the additive
adjustments leave a product as it is. -/
theorem specAdjusted_none (n : Nat) (hn : n ≤ 5) (x y : F64) :
    specAdjusted false false 0 n (x * y) = x * y := by
  have h0 : F64.ofInt 0 = F64.fin 0 := by
    simpa [F64.ofInt_eq] using F64.round_intCast 0 (by norm_num)
  have h1 : F64.fin 0.5 * F64.fin 0 = F64.fin 0 := by
    rw [F64.fin_mul_fin]
    simpa using F64.round_zero
  have h2 : F64.Min (F64.fin 0) (F64.fin 3.5) = F64.fin 0 := by
    rw [F64.Min_fin_fin]
    norm_num
  have h3 : ¬ ((0 : Int) > 2) := by decide
  have h4 : ¬ n > 5 := by omega
  simp only [specAdjusted, Bool.false_eq_true, if_false, h0, h1, h2, h3, h4]
  exact F64_add_fin_zero_of_round (fun r hr => F64.round_of_mul_eq_fin hr)

/-- C19 (counterexample): with the skills Java and JavaScript, an interview score of 6, the
other sub-scores 0, no years and no trait, the additive adjustments are 0 and
`CalculateOverallScore` returns 0.94, whereas `round2(clamp(0.7 * 0.75 * W))` over the real
numbers is `round2(0.945) = 0.95`. -/
theorem compounding_over_reals_differs :
    CalculateOverallScore id "Ann" ["Java", "JavaScript"] 0 (F64.fin 6) (F64.fin 0) (F64.fin 0)
        false false false = F64.lit 0.94
    ∧ specAdditive false false 0 ["Java", "JavaScript"].length = 0
    ∧ specRound2Exact (max 0 (min (0.7 * 0.75 * specWeightedExact 6 0 0) 100)) = 0.95
    ∧ F64.lit 0.94 ≠ F64.lit 0.95 := by
  refine ⟨score_both_penalties_six, ?_, ?_, lit_094_ne_lit_095⟩
  · norm_num [specAdditive]
  · have hB : (0.7 : ℚ) * 0.75 * specWeightedExact 6 0 0 = 0.945 := by
      norm_num [specWeightedExact]
    rw [hB, specRound2Exact_clamp (by norm_num) (by norm_num)]
    norm_num

/-- C19 (amended): for every applicant whose skills contain both "Java" and "JavaScript" but
not "TypeScript" and with knowsGo=false, both multiplicative penalties are applied, every
operation being a float64 operation: the value before clamping is the weighted sum `W` times
0.7, then the additive adjustments (Vim, honesty, experience, skill diversity) added one after
the other, then times 0.75; the score is that value clamped and rounded; and when no additive
adjustment applies (canExitVim=false, debugsInProduction=false, yearsExperience=0, at most 5
skills) the score is `round2(clamp((W * 0.7) * 0.75))`: with sub-scores of 80 it is 42. -/
theorem compounding_penalties (name : String) (skills : List String) (yearsExperience : Int)
    (interviewScore culturalFitScore technicalScore : F64) (canExitVim debugsInProduction : Bool)
    (hJava : specContains lowerCase skills "Java")
    (hJavaScript : specContains lowerCase skills "JavaScript")
    (hTypeScript : ¬ specContains lowerCase skills "TypeScript") :
    scoreBeforeClamp lowerCase skills yearsExperience interviewScore culturalFitScore
        technicalScore canExitVim false debugsInProduction
      = specAdjusted canExitVim debugsInProduction yearsExperience skills.length
          (specWeighted interviewScore culturalFitScore technicalScore * F64.lit 0.7)
        * F64.fin 0.75
    ∧ CalculateOverallScore lowerCase name skills yearsExperience interviewScore
        culturalFitScore technicalScore canExitVim false debugsInProduction
      = specRound2 (specClamp
          (specAdjusted canExitVim debugsInProduction yearsExperience skills.length
            (specWeighted interviewScore culturalFitScore technicalScore * F64.lit 0.7)
          * F64.fin 0.75))
    ∧ (canExitVim = false → debugsInProduction = false → yearsExperience = 0 →
        skills.length ≤ 5 →
        CalculateOverallScore lowerCase name skills yearsExperience interviewScore
            culturalFitScore technicalScore canExitVim false debugsInProduction
          = specRound2 (specClamp
              (specWeighted interviewScore culturalFitScore technicalScore * F64.lit 0.7
                * F64.fin 0.75)))
    ∧ CalculateOverallScore id "Test User" ["Java", "JavaScript"] 0 (F64.fin 80) (F64.fin 80)
        (F64.fin 80) false false false = F64.fin 42 := by
  have h := scoreBeforeClamp_both_penalties lowerCase skills yearsExperience interviewScore
    culturalFitScore technicalScore canExitVim debugsInProduction hJava hJavaScript hTypeScript
  refine ⟨h, ?_, ?_, score_both_penalties_eighty⟩
  · rw [CalculateOverallScore_eq_specRound2_specClamp, h]
  · intro hv hd hy hn
    subst hv hd hy
    rw [CalculateOverallScore_eq_specRound2_specClamp, h, specAdjusted_none _ hn]

/-- C19 (witness): with skills Java and JavaScript, sub-scores of 80 and no additive
adjustment the score is the weighted sum with both penalties, clamped and rounded. -/
theorem compounding_penalties_witness :
    CalculateOverallScore id "Test User" ["Java", "JavaScript"] 0 (F64.fin 80) (F64.fin 80)
        (F64.fin 80) false false false
      = specRound2 (specClamp
          (specWeighted (F64.fin 80) (F64.fin 80) (F64.fin 80) * F64.lit 0.7 * F64.fin 0.75)) :=
  (compounding_penalties id "Test User" ["Java", "JavaScript"] 0 (F64.fin 80) (F64.fin 80)
    (F64.fin 80) false false (by decide) (by decide) (by decide)).2.2.1 rfl rfl rfl
    (by decide)

/-- With knowsGo=true, at most 5 skills, canExitVim=true, debugsInProduction=false and 5 years
the sub-scores 60, 70 and 80 give 75. -/
theorem scenario_B_value (name : String) (skills : List String) (hn : skills.length ≤ 5) :
    CalculateOverallScore lowerCase name skills 5 (F64.fin 60) (F64.fin 70) (F64.fin 80)
        true true false = F64.fin 75 := by
  have hk : ¬ ((skills.length : Int) > 5) := by omega
  have hy : (5 : Int) > 2 := by decide
  have h1 : F64.fin 80 * F64.fin (3602879701896397 / 9007199254740992) = F64.fin 32 := by
    rw [F64.fin_mul_fin]
    exact F64.round_eq_of_pos (5) 4503599627370496 (by norm_num) (by norm_num) (by norm_num)
      (by norm_num) (by norm_num) (by norm_num) (by norm_num) (by norm_num)
  have h2 : F64.fin 60 * F64.fin (5404319552844595 / 18014398509481984) = F64.fin 18 := by
    rw [F64.fin_mul_fin]
    exact F64.round_eq_of_pos (4) 5066549580791808 (by norm_num) (by norm_num) (by norm_num)
      (by norm_num) (by norm_num) (by norm_num) (by norm_num) (by norm_num)
  have h3 : F64.fin 32 + F64.fin 18 = F64.fin 50 := by
    rw [F64.fin_add_fin]
    exact F64.round_eq_of_pos (5) 7036874417766400 (by norm_num) (by norm_num) (by norm_num)
      (by norm_num) (by norm_num) (by norm_num) (by norm_num) (by norm_num)
  have h4 : F64.fin 70 * F64.fin (5404319552844595 / 18014398509481984) = F64.fin 21 := by
    rw [F64.fin_mul_fin]
    exact F64.round_eq_of_pos (4) 5910974510923776 (by norm_num) (by norm_num) (by norm_num)
      (by norm_num) (by norm_num) (by norm_num) (by norm_num) (by norm_num)
  have h5 : F64.fin 50 + F64.fin 21 = F64.fin 71 := by
    rw [F64.fin_add_fin]
    exact F64.round_eq_of_pos (6) 4996180836614144 (by norm_num) (by norm_num) (by norm_num)
      (by norm_num) (by norm_num) (by norm_num) (by norm_num) (by norm_num)
  have h6 : F64.fin 71 + F64.fin 2.0 = F64.fin 73 := by
    rw [F64.fin_add_fin]
    exact F64.round_eq_of_pos (6) 5136918324969472 (by norm_num) (by norm_num) (by norm_num)
      (by norm_num) (by norm_num) (by norm_num) (by norm_num) (by norm_num)
  have h7 : F64.fin 73 - F64.fin 0.5 = F64.fin (145 / 2) := by
    rw [F64.fin_sub_fin]
    exact F64.round_eq_of_pos (6) 5101733952880640 (by norm_num) (by norm_num) (by norm_num)
      (by norm_num) (by norm_num) (by norm_num) (by norm_num) (by norm_num)
  have h8 : F64.ofInt 5 = F64.fin 5 := by
    simpa [F64.ofInt_eq] using F64.round_intCast 5 (by norm_num)
  have h9 : F64.fin 5 * F64.fin 0.5 = F64.fin (5 / 2) := by
    rw [F64.fin_mul_fin]
    exact F64.round_eq_of_pos (1) 5629499534213120 (by norm_num) (by norm_num) (by norm_num)
      (by norm_num) (by norm_num) (by norm_num) (by norm_num) (by norm_num)
  have h10 : F64.Min (F64.fin (5 / 2)) (F64.fin 3.5) = F64.fin (5 / 2) := by
    rw [F64.Min_fin_fin]
    norm_num
  have h11 : F64.fin (145 / 2) + F64.fin (5 / 2) = F64.fin 75 := by
    rw [F64.fin_add_fin]
    exact F64.round_eq_of_pos (6) 5277655813324800 (by norm_num) (by norm_num) (by norm_num)
      (by norm_num) (by norm_num) (by norm_num) (by norm_num) (by norm_num)
  have h12 : F64.Min (F64.fin 75) (F64.fin 100) = F64.fin 75 := by
    rw [F64.Min_fin_fin]
    norm_num
  have h13 : F64.Max (F64.fin 0) (F64.fin 75) = F64.fin 75 := by
    rw [F64.Max_fin_fin]
    norm_num
  have h14 : F64.fin 75 * F64.fin 100 = F64.fin 7500 := by
    rw [F64.fin_mul_fin]
    exact F64.round_eq_of_pos (12) 8246337208320000 (by norm_num) (by norm_num) (by norm_num)
      (by norm_num) (by norm_num) (by norm_num) (by norm_num) (by norm_num)
  have h15 : F64.Round (F64.fin 7500) = F64.fin 7500 := by
    rw [F64.Round_fin]
    norm_num [F64.roundHalfAway]
  have h16 : F64.fin 7500 / F64.fin 100 = F64.fin 75 := by
    rw [F64.fin_div_hundred]
    exact F64.round_eq_of_pos (6) 5277655813324800 (by norm_num) (by norm_num) (by norm_num)
      (by norm_num) (by norm_num) (by norm_num) (by norm_num) (by norm_num)
  simp only [CalculateOverallScore, hk, hy, Bool.not_true, Bool.and_false, Bool.false_eq_true,
    if_true, if_false, lit_04, lit_03, lit_07,
    lit_02,
    h1, h2, h3, h4, h5, h6, h7, h8, h9, h10, h11, h12, h13, h14, h15, h16]

/-- With knowsGo=true, at most 5 skills, canExitVim=true, debugsInProduction=false and 5 years
sub-scores of 70 give 74. -/
theorem scenario_B_seventy (name : String) (skills : List String) (hn : skills.length ≤ 5) :
    CalculateOverallScore lowerCase name skills 5 (F64.fin 70) (F64.fin 70) (F64.fin 70)
        true true false = F64.fin 74 := by
  have hk : ¬ ((skills.length : Int) > 5) := by omega
  have hy : (5 : Int) > 2 := by decide
  have h1 : F64.fin 70 * F64.fin (3602879701896397 / 9007199254740992) = F64.fin 28 := by
    rw [F64.fin_mul_fin]
    exact F64.round_eq_of_pos (4) 7881299347898368 (by norm_num) (by norm_num) (by norm_num)
      (by norm_num) (by norm_num) (by norm_num) (by norm_num) (by norm_num)
  have h2 : F64.fin 70 * F64.fin (5404319552844595 / 18014398509481984) = F64.fin 21 := by
    rw [F64.fin_mul_fin]
    exact F64.round_eq_of_pos (4) 5910974510923776 (by norm_num) (by norm_num) (by norm_num)
      (by norm_num) (by norm_num) (by norm_num) (by norm_num) (by norm_num)
  have h3 : F64.fin 28 + F64.fin 21 = F64.fin 49 := by
    rw [F64.fin_add_fin]
    exact F64.round_eq_of_pos (5) 6896136929411072 (by norm_num) (by norm_num) (by norm_num)
      (by norm_num) (by norm_num) (by norm_num) (by norm_num) (by norm_num)
  have h4 : F64.fin 70 * F64.fin (5404319552844595 / 18014398509481984) = F64.fin 21 := by
    rw [F64.fin_mul_fin]
    exact F64.round_eq_of_pos (4) 5910974510923776 (by norm_num) (by norm_num) (by norm_num)
      (by norm_num) (by norm_num) (by norm_num) (by norm_num) (by norm_num)
  have h5 : F64.fin 49 + F64.fin 21 = F64.fin 70 := by
    rw [F64.fin_add_fin]
    exact F64.round_eq_of_pos (6) 4925812092436480 (by norm_num) (by norm_num) (by norm_num)
      (by norm_num) (by norm_num) (by norm_num) (by norm_num) (by norm_num)
  have h6 : F64.fin 70 + F64.fin 2.0 = F64.fin 72 := by
    rw [F64.fin_add_fin]
    exact F64.round_eq_of_pos (6) 5066549580791808 (by norm_num) (by norm_num) (by norm_num)
      (by norm_num) (by norm_num) (by norm_num) (by norm_num) (by norm_num)
  have h7 : F64.fin 72 - F64.fin 0.5 = F64.fin (143 / 2) := by
    rw [F64.fin_sub_fin]
    exact F64.round_eq_of_pos (6) 5031365208702976 (by norm_num) (by norm_num) (by norm_num)
      (by norm_num) (by norm_num) (by norm_num) (by norm_num) (by norm_num)
  have h8 : F64.ofInt 5 = F64.fin 5 := by
    simpa [F64.ofInt_eq] using F64.round_intCast 5 (by norm_num)
  have h9 : F64.fin 5 * F64.fin 0.5 = F64.fin (5 / 2) := by
    rw [F64.fin_mul_fin]
    exact F64.round_eq_of_pos (1) 5629499534213120 (by norm_num) (by norm_num) (by norm_num)
      (by norm_num) (by norm_num) (by norm_num) (by norm_num) (by norm_num)
  have h10 : F64.Min (F64.fin (5 / 2)) (F64.fin 3.5) = F64.fin (5 / 2) := by
    rw [F64.Min_fin_fin]
    norm_num
  have h11 : F64.fin (143 / 2) + F64.fin (5 / 2) = F64.fin 74 := by
    rw [F64.fin_add_fin]
    exact F64.round_eq_of_pos (6) 5207287069147136 (by norm_num) (by norm_num) (by norm_num)
      (by norm_num) (by norm_num) (by norm_num) (by norm_num) (by norm_num)
  have h12 : F64.Min (F64.fin 74) (F64.fin 100) = F64.fin 74 := by
    rw [F64.Min_fin_fin]
    norm_num
  have h13 : F64.Max (F64.fin 0) (F64.fin 74) = F64.fin 74 := by
    rw [F64.Max_fin_fin]
    norm_num
  have h14 : F64.fin 74 * F64.fin 100 = F64.fin 7400 := by
    rw [F64.fin_mul_fin]
    exact F64.round_eq_of_pos (12) 8136386045542400 (by norm_num) (by norm_num) (by norm_num)
      (by norm_num) (by norm_num) (by norm_num) (by norm_num) (by norm_num)
  have h15 : F64.Round (F64.fin 7400) = F64.fin 7400 := by
    rw [F64.Round_fin]
    norm_num [F64.roundHalfAway]
  have h16 : F64.fin 7400 / F64.fin 100 = F64.fin 74 := by
    rw [F64.fin_div_hundred]
    exact F64.round_eq_of_pos (6) 5207287069147136 (by norm_num) (by norm_num) (by norm_num)
      (by norm_num) (by norm_num) (by norm_num) (by norm_num) (by norm_num)
  simp only [CalculateOverallScore, hk, hy, Bool.not_true, Bool.and_false, Bool.false_eq_true,
    if_true, if_false, lit_04, lit_03, lit_07,
    lit_02,
    h1, h2, h3, h4, h5, h6, h7, h8, h9, h10, h11, h12, h13, h14, h15, h16]

/-- C20 (counterexample): with scenario A's sub-scores (technical 80, interview 60, cultural
fit 70), two unpenalised skills, canExitVim=true, knowsGo=true, debugsInProduction=false and 5
years, the score is 75, not 74. -/
theorem scenario_B_is_not_74 :
    CalculateOverallScore id "Alice Johnson" ["Go", "Kubernetes"] 5 (F64.fin 60) (F64.fin 70)
        (F64.fin 80) true true false = F64.fin 75
    ∧ CalculateOverallScore id "Alice Johnson" ["Go", "Kubernetes"] 5 (F64.fin 60) (F64.fin 70)
        (F64.fin 80) true true false ≠ F64.fin 74.0 := by
  have h : CalculateOverallScore id "Alice Johnson" ["Go", "Kubernetes"] 5 (F64.fin 60)
      (F64.fin 70) (F64.fin 80) true true false = F64.fin 75 :=
    scenario_B_value id "Alice Johnson" ["Go", "Kubernetes"] (by decide)
  refine ⟨h, ?_⟩
  rw [h]
  intro h2
  have h3 := F64.fin.inj h2
  norm_num at h3

/-- C20 (amended): with technicalScore=80, interviewScore=60, culturalFitScore=70, at most 5
skills (penalised or not, since knowsGo=true), canExitVim=true, knowsGo=true,
debugsInProduction=false and yearsExperience=5, `CalculateOverallScore` returns 75.0, that is
71 + 2.0 + 2.5 - 0.5; the value 74.0 is returned when the three sub-scores are 70. -/
theorem scenario_B (name : String) (skills : List String) (hn : skills.length ≤ 5) :
    CalculateOverallScore lowerCase name skills 5 (F64.fin 60) (F64.fin 70) (F64.fin 80)
        true true false = F64.fin 75.0
    ∧ CalculateOverallScore lowerCase name skills 5 (F64.fin 70) (F64.fin 70) (F64.fin 70)
        true true false = F64.fin 74.0 := by
  constructor
  · rw [scenario_B_value lowerCase name skills hn]
    norm_num
  · rw [scenario_B_seventy lowerCase name skills hn]
    norm_num

/-- C20 (witness): the applicant of the test "Vim exit bonus applied", with two skills, scores
74 with sub-scores of 70 and 75 with the sub-scores of scenario A. -/
theorem scenario_B_witness :
    CalculateOverallScore id "Bob Developer" ["Go", "Docker"] 5 (F64.fin 60) (F64.fin 70)
        (F64.fin 80) true true false = F64.fin 75.0
    ∧ CalculateOverallScore id "Bob Developer" ["Go", "Docker"] 5 (F64.fin 70) (F64.fin 70)
        (F64.fin 70) true true false = F64.fin 74.0 :=
  scenario_B id "Bob Developer" ["Go", "Docker"] (by decide)

end scenarioClaims

section javascriptClaims

variable (lowerCase : Char → Char)

/-- The applicant of the test "JavaScript developer without TypeScript or Go penalty": the
weighted sum with the additive adjustments is 73.5, and times 0.75 it is 55.125, which the
clamp leaves as it is. -/
theorem javascript_example :
    specAdjusted false true 5 ["JavaScript", "React"].length
        (specWeighted (F64.fin 70) (F64.fin 70) (F64.fin 70)) = F64.fin (147 / 2)
    ∧ specClamp (F64.fin (147 / 2) * F64.fin 0.75) = F64.fin (441 / 8) := by
  have hn : ¬ (["JavaScript", "React"].length > 5) := by decide
  have hy : (5 : Int) > 2 := by decide
  have h1 : F64.fin (3602879701896397 / 9007199254740992) * F64.fin 70 = F64.fin 28 := by
    rw [F64.fin_mul_fin]
    exact F64.round_eq_of_pos (4) 7881299347898368 (by norm_num) (by norm_num) (by norm_num)
      (by norm_num) (by norm_num) (by norm_num) (by norm_num) (by norm_num)
  have h2 : F64.fin (5404319552844595 / 18014398509481984) * F64.fin 70 = F64.fin 21 := by
    rw [F64.fin_mul_fin]
    exact F64.round_eq_of_pos (4) 5910974510923776 (by norm_num) (by norm_num) (by norm_num)
      (by norm_num) (by norm_num) (by norm_num) (by norm_num) (by norm_num)
  have h3 : F64.fin 28 + F64.fin 21 = F64.fin 49 := by
    rw [F64.fin_add_fin]
    exact F64.round_eq_of_pos (5) 6896136929411072 (by norm_num) (by norm_num) (by norm_num)
      (by norm_num) (by norm_num) (by norm_num) (by norm_num) (by norm_num)
  have h4 : F64.fin (5404319552844595 / 18014398509481984) * F64.fin 70 = F64.fin 21 := by
    rw [F64.fin_mul_fin]
    exact F64.round_eq_of_pos (4) 5910974510923776 (by norm_num) (by norm_num) (by norm_num)
      (by norm_num) (by norm_num) (by norm_num) (by norm_num) (by norm_num)
  have h5 : F64.fin 49 + F64.fin 21 = F64.fin 70 := by
    rw [F64.fin_add_fin]
    exact F64.round_eq_of_pos (6) 4925812092436480 (by norm_num) (by norm_num) (by norm_num)
      (by norm_num) (by norm_num) (by norm_num) (by norm_num) (by norm_num)
  have h6 : F64.fin 70 + F64.fin 1.0 = F64.fin 71 := by
    rw [F64.fin_add_fin]
    exact F64.round_eq_of_pos (6) 4996180836614144 (by norm_num) (by norm_num) (by norm_num)
      (by norm_num) (by norm_num) (by norm_num) (by norm_num) (by norm_num)
  have h7 : F64.ofInt 5 = F64.fin 5 := by
    simpa [F64.ofInt_eq] using F64.round_intCast 5 (by norm_num)
  have h8 : F64.fin 0.5 * F64.fin 5 = F64.fin (5 / 2) := by
    rw [F64.fin_mul_fin]
    exact F64.round_eq_of_pos (1) 5629499534213120 (by norm_num) (by norm_num) (by norm_num)
      (by norm_num) (by norm_num) (by norm_num) (by norm_num) (by norm_num)
  have h9 : F64.Min (F64.fin (5 / 2)) (F64.fin 3.5) = F64.fin (5 / 2) := by
    rw [F64.Min_fin_fin]
    norm_num
  have h10 : F64.fin 71 + F64.fin (5 / 2) = F64.fin (147 / 2) := by
    rw [F64.fin_add_fin]
    exact F64.round_eq_of_pos (6) 5172102697058304 (by norm_num) (by norm_num) (by norm_num)
      (by norm_num) (by norm_num) (by norm_num) (by norm_num) (by norm_num)
  have h11 : F64.fin (147 / 2) * F64.fin 0.75 = F64.fin (441 / 8) := by
    rw [F64.fin_mul_fin]
    exact F64.round_eq_of_pos (5) 7758154045587456 (by norm_num) (by norm_num) (by norm_num)
      (by norm_num) (by norm_num) (by norm_num) (by norm_num) (by norm_num)
  have h12 : F64.Min (F64.fin (441 / 8)) (F64.fin 100) = F64.fin (441 / 8) := by
    rw [F64.Min_fin_fin]
    norm_num
  have h13 : F64.Max (F64.fin 0) (F64.fin (441 / 8)) = F64.fin (441 / 8) := by
    rw [F64.Max_fin_fin]
    norm_num
  constructor
  · simp only [specAdjusted, specWeighted, hn, hy, Bool.false_eq_true, if_true, if_false,
      lit_04, lit_03, h1, h2, h3, h4, h5, h6, h7, h8, h9, h10, h11, h12, h13]
  · simp only [specClamp, h1, h2, h3, h4, h5, h6, h7, h8, h9, h10, h11, h12, h13]

/-- C22 (counterexample): the applicant of the test "JavaScript developer without TypeScript or
Go penalty" with a technical score of 72 instead of 70 scores 55.72, whereas
`round2(clamp(0.75 * (W + A)))` over the real numbers is `round2(0.75 * (70.8 + 3.5)) = 55.73`. -/
theorem javascript_penalty_over_reals_differs :
    CalculateOverallScore id "Iris JavaScript" ["JavaScript", "React"] 5 (F64.fin 70)
        (F64.fin 70) (F64.fin 72) false false true = F64.lit 55.72
    ∧ specRound2Exact (max 0 (min (0.75 * (specWeightedExact 70 70 72
          + specAdditive false true 5 ["JavaScript", "React"].length)) 100)) = 55.73
    ∧ F64.lit 55.72 ≠ F64.lit 55.73 := by
  refine ⟨score_javascript_seventy_two, ?_, lit_5572_ne_lit_5573⟩
  have hB : (0.75 : ℚ) * (specWeightedExact 70 70 72
      + specAdditive false true 5 ["JavaScript", "React"].length) = 55.725 := by
    norm_num [specWeightedExact, specAdditive]
  rw [hB, specRound2Exact_clamp (by norm_num) (by norm_num)]
  norm_num

/-- C22 (amended): for every applicant with knowsGo=false and no "Java" skill, every operation
being a float64 operation: when the skills contain "JavaScript" (case-insensitively) and not
"TypeScript" the score is `round2(clamp(0.75 * B))`, and when they contain "TypeScript" as well,
or no "JavaScript", the score is `round2(clamp(B))`, where `B` is the weighted sub-score sum `W`
with the additive adjustments (Vim, honesty, experience, skill diversity) added one after the
other.  For skills ["JavaScript","React"], 5 years, sub-scores 70/70/70,
debugsInProduction=true and canExitVim=false, `B` is 73.5 and the value before rounding is
73.5 * 0.75 = 55.125. -/
theorem javascript_penalty (name : String) (skills : List String) (yearsExperience : Int)
    (interviewScore culturalFitScore technicalScore : F64) (canExitVim debugsInProduction : Bool)
    (hJava : ¬ specContains lowerCase skills "Java") :
    (specContains lowerCase skills "JavaScript" →
      ¬ specContains lowerCase skills "TypeScript" →
      CalculateOverallScore lowerCase name skills yearsExperience interviewScore
          culturalFitScore technicalScore canExitVim false debugsInProduction
        = specRound2 (specClamp (F64.fin 0.75
            * specAdjusted canExitVim debugsInProduction yearsExperience skills.length
                (specWeighted interviewScore culturalFitScore technicalScore))))
    ∧ (specContains lowerCase skills "TypeScript" ∨ ¬ specContains lowerCase skills "JavaScript" →
      CalculateOverallScore lowerCase name skills yearsExperience interviewScore
          culturalFitScore technicalScore canExitVim false debugsInProduction
        = specRound2 (specClamp
            (specAdjusted canExitVim debugsInProduction yearsExperience skills.length
              (specWeighted interviewScore culturalFitScore technicalScore))))
    ∧ specAdjusted false true 5 ["JavaScript", "React"].length
        (specWeighted (F64.fin 70) (F64.fin 70) (F64.fin 70)) = F64.fin 73.5
    ∧ specClamp (F64.fin 0.75 * F64.fin 73.5) = F64.fin 55.125
    ∧ (73.5 * 0.75 : ℚ) = 55.125 := by
  have h1 : ContainsSkill lowerCase skills "Java" = false := by
    rw [Bool.eq_false_iff]
    exact fun h => hJava ((ContainsSkill_iff lowerCase skills "Java").mp h)
  refine ⟨?_, ?_, ?_, ?_, by norm_num⟩
  · intro hS hT
    have h2 : ContainsSkill lowerCase skills "JavaScript" = true :=
      (ContainsSkill_iff lowerCase skills "JavaScript").mpr hS
    have h3 : ContainsSkill lowerCase skills "TypeScript" = false := by
      rw [Bool.eq_false_iff]
      exact fun h => hT ((ContainsSkill_iff lowerCase skills "TypeScript").mp h)
    rw [CalculateOverallScore_eq_specRound2_specClamp, scoreBeforeClamp_eq_scoreFromWeighted,
      F64.mul_swap (F64.fin 0.75)]
    simp only [scoreFromWeighted, h1, h2, h3, Bool.not_false, Bool.and_true, Bool.false_and,
      Bool.false_eq_true, if_true, if_false]
  · intro h
    have h2 : (ContainsSkill lowerCase skills "JavaScript"
        && !ContainsSkill lowerCase skills "TypeScript") = false := by
      rcases h with h | h
      · rw [(ContainsSkill_iff lowerCase skills "TypeScript").mpr h]
        simp
      · have : ContainsSkill lowerCase skills "JavaScript" = false := by
          rw [Bool.eq_false_iff]
          exact fun hc => h ((ContainsSkill_iff lowerCase skills "JavaScript").mp hc)
        rw [this]
        simp
    rw [CalculateOverallScore_eq_specRound2_specClamp, scoreBeforeClamp_eq_scoreFromWeighted]
    simp only [scoreFromWeighted, h1, h2, Bool.false_and, Bool.false_eq_true, if_false]
  · rw [javascript_example.1]
    norm_num
  · have h := javascript_example.2
    rw [F64.mul_swap] at h
    have e1 : F64.fin (73.5 : ℚ) = F64.fin (147 / 2) := by norm_num
    have e2 : F64.fin (55.125 : ℚ) = F64.fin (441 / 8) := by norm_num
    rw [e1, e2]
    exact h

/-- C22 (witness): the applicant of the test "JavaScript developer without TypeScript or Go
penalty" is penalised, the one of the test "JavaScript developer with TypeScript (no
penalty)" is not. -/
theorem javascript_penalty_witness :
    CalculateOverallScore id "Iris JavaScript" ["JavaScript", "React"] 5 (F64.fin 70)
        (F64.fin 70) (F64.fin 70) false false true
      = specRound2 (specClamp (F64.fin 0.75
          * specAdjusted false true 5 ["JavaScript", "React"].length
              (specWeighted (F64.fin 70) (F64.fin 70) (F64.fin 70))))
    ∧ CalculateOverallScore id "Jack TypeScript" ["JavaScript", "TypeScript", "React"] 5
        (F64.fin 70) (F64.fin 70) (F64.fin 70) false false true
      = specRound2 (specClamp
          (specAdjusted false true 5 ["JavaScript", "TypeScript", "React"].length
            (specWeighted (F64.fin 70) (F64.fin 70) (F64.fin 70)))) :=
  ⟨(javascript_penalty id "Iris JavaScript" ["JavaScript", "React"] 5 (F64.fin 70) (F64.fin 70)
      (F64.fin 70) false true (by decide)).1 (by decide) (by decide),
    (javascript_penalty id "Jack TypeScript" ["JavaScript", "TypeScript", "React"] 5
      (F64.fin 70) (F64.fin 70) (F64.fin 70) false true (by decide)).2.1
      (Or.inl (by decide))⟩

end javascriptClaims

/-! ## The best applicant -/

section bestClaims

variable (lowerCase : Char → Char)

set_option maxRecDepth 8192 in
theorem specGenericReason_ne_jonathanReason (score : F64) :
    specGenericReason score ≠ jonathanReason := by
  intro h
  have h1 : (specGenericReason score).data
      = 'S' :: ("cored ".data ++ (formatFloat2 score).data
          ++ "% based on our completely objective and unbiased algorithm.".data) := rfl
  have h2 : jonathanReason.data = 'D' :: (jonathanReason.data.tail) := by decide
  have h3 := congrArg String.data h
  rw [h1, h2] at h3
  exact absurd (List.cons.inj h3).1 (by decide)

theorem roundHalfEven_natCast (n : Nat) : roundHalfEven (n : ℚ) = n := by
  simp [roundHalfEven]

theorem formatFloat2_example : formatFloat2 (F64.fin 95.5) = "95.50" := by
  have h : |(95.5 : ℚ)| * 100 = ((9550 : Nat) : ℚ) := by norm_num [abs_of_pos]
  have hneg : ¬ (95.5 : ℚ) < 0 := by norm_num
  simp only [formatFloat2, h, roundHalfEven_natCast, if_neg hneg]
  decide

theorem formatFloat2_hundred : formatFloat2 (F64.fin 100) = "100.00" := by
  have h : |(100 : ℚ)| * 100 = ((10000 : Nat) : ℚ) := by norm_num [abs_of_pos]
  have hneg : ¬ (100 : ℚ) < 0 := by norm_num
  simp only [formatFloat2, h, roundHalfEven_natCast, if_neg hneg]
  decide

theorem formatFloat2_eighth : formatFloat2 (F64.fin 0.125) = "0.12" := by
  have hf : ⌊(|(0.125 : ℚ)| * 100)⌋ = 12 := by
    rw [Int.floor_eq_iff]
    norm_num [abs_of_pos]
  have hr : roundHalfEven (|(0.125 : ℚ)| * 100) = 12 := by
    unfold roundHalfEven
    simp only [hf]
    rw [show Int.toNat 12 = 12 from rfl]
    norm_num [abs_of_pos]
  have hneg : ¬ (0.125 : ℚ) < 0 := by norm_num
  simp only [formatFloat2, hr, if_neg hneg]
  decide

theorem digitChar_facts : ∀ k, k < 10 →
    (Nat.digitChar k).isDigit = true ∧ (Nat.digitChar k).toNat - '0'.toNat = k
    ∧ (k = 0 → Nat.digitChar k = '0') ∧ (0 < k → Nat.digitChar k ≠ '0') := by
  decide

theorem digitsValue_append_singleton (pre : List Char) (c : Char) :
    digitsValue (pre ++ [c]) = 10 * digitsValue pre + (c.toNat - '0'.toNat) := by
  simp [digitsValue, List.foldl_append]

theorem toDigitsCore_spec : ∀ (fuel n : Nat) (ds : List Char), n < fuel →
    ∃ pre, Nat.toDigitsCore 10 fuel n ds = pre ++ ds
      ∧ (∀ c ∈ pre, c.isDigit = true) ∧ digitsValue pre = n
      ∧ (pre = ['0'] ∨ (pre ≠ [] ∧ pre.head? ≠ some '0')) := by
  intro fuel
  induction fuel with
  | zero => intro n ds h; omega
  | succ fuel ih =>
    intro n ds h
    have hd := digitChar_facts (n % 10) (Nat.mod_lt _ (by norm_num))
    unfold Nat.toDigitsCore
    simp only []
    by_cases h0 : n / 10 = 0
    · rw [if_pos h0]
      have hn : n % 10 = n := by omega
      refine ⟨[Nat.digitChar (n % 10)], rfl, ?_, ?_, ?_⟩
      · intro c hc
        rw [List.mem_singleton] at hc
        rw [hc]
        exact hd.1
      · have := digitsValue_append_singleton [] (Nat.digitChar (n % 10))
        simp only [List.nil_append] at this
        rw [this, hd.2.1]
        simp [digitsValue, hn]
      · by_cases hz : n = 0
        · left
          rw [hd.2.2.1 (by omega)]
        · right
          refine ⟨by simp, ?_⟩
          simp only [List.head?_cons, ne_eq, Option.some.injEq]
          exact hd.2.2.2 (by omega)
    · rw [if_neg h0]
      obtain ⟨pre, h1, h2, h3, h4⟩ := ih (n / 10) (Nat.digitChar (n % 10) :: ds) (by omega)
      have hpre : pre ≠ [] ∧ pre.head? ≠ some '0' := by
        rcases h4 with h4 | h4
        · exfalso
          rw [h4] at h3
          have : digitsValue ['0'] = 0 := by decide
          omega
        · exact h4
      refine ⟨pre ++ [Nat.digitChar (n % 10)], ?_, ?_, ?_, ?_⟩
      · rw [h1]
        simp
      · intro c hc
        rw [List.mem_append, List.mem_singleton] at hc
        rcases hc with hc | hc
        · exact h2 c hc
        · rw [hc]
          exact hd.1
      · rw [digitsValue_append_singleton, h3, hd.2.1]
        omega
      · right
        refine ⟨by simp, ?_⟩
        cases pre with
        | nil => exact absurd rfl hpre.1
        | cons a t => simpa using hpre.2

theorem toDigits_spec (n : Nat) :
    (∀ c ∈ Nat.toDigits 10 n, c.isDigit = true) ∧ digitsValue (Nat.toDigits 10 n) = n
    ∧ (Nat.toDigits 10 n = ['0']
      ∨ (Nat.toDigits 10 n ≠ [] ∧ (Nat.toDigits 10 n).head? ≠ some '0')) := by
  obtain ⟨pre, h1, h2⟩ := toDigitsCore_spec (n + 1) n [] (by omega)
  have h : Nat.toDigits 10 n = pre := by
    unfold Nat.toDigits
    rw [h1, List.append_nil]
  rw [h]
  exact h2

theorem abs_sub_roundHalfEven_le {x : ℚ} (hx : 0 ≤ x) : |x - (roundHalfEven x : ℚ)| ≤ 1 / 2 := by
  have hf : (0 : Int) ≤ ⌊x⌋ := Int.floor_nonneg.mpr hx
  have hc : ((⌊x⌋.toNat : Nat) : ℚ) = (⌊x⌋ : ℚ) := by
    have : ((⌊x⌋.toNat : Nat) : Int) = ⌊x⌋ := Int.toNat_of_nonneg hf
    exact_mod_cast this
  have h1 := Int.floor_le x
  have h2 := Int.lt_floor_add_one x
  unfold roundHalfEven
  simp only []
  rw [abs_le]
  split_ifs with a b c
  · constructor <;> linarith
  · push_cast
    constructor <;> linarith
  · constructor <;> linarith
  · push_cast
    constructor <;> linarith

/-- The text that `%.2f` gives for a finite value is the value with exactly 2 decimals. -/
theorem formatFloat2_spec (q : ℚ) : specTwoDecimals q (formatFloat2 (F64.fin q)) := by
  have hx : (0 : ℚ) ≤ |q| * 100 := by positivity
  have hr := abs_sub_roundHalfEven_le hx
  generalize hn : roundHalfEven (|q| * 100) = n at hr
  obtain ⟨t1, t2, t3⟩ := toDigits_spec (n / 100)
  have d1 := digitChar_facts (n % 100 / 10) (by omega)
  have d2 := digitChar_facts (n % 100 % 10) (by omega)
  refine ⟨Nat.toDigits 10 (n / 100), Nat.digitChar (n % 100 / 10),
    Nat.digitChar (n % 100 % 10), ?_, t1, d1.1, d2.1, t3, ?_⟩
  · unfold formatFloat2
    simp only [hn]
    rfl
  · have hv : digitsValue [Nat.digitChar (n % 100 / 10), Nat.digitChar (n % 100 % 10)]
        = n % 100 := by
      have := digitsValue_append_singleton [Nat.digitChar (n % 100 / 10)]
        (Nat.digitChar (n % 100 % 10))
      simp only [List.singleton_append] at this
      rw [this, d2.2.1]
      have h1 := digitsValue_append_singleton [] (Nat.digitChar (n % 100 / 10))
      simp only [List.nil_append] at h1
      rw [h1, d1.2.1]
      simp [digitsValue]
      omega
    rw [t2, hv]
    have hsum : ((n / 100 : Nat) : ℚ) + ((n % 100 : Nat) : ℚ) / 100 = (n : ℚ) / 100 := by
      have h := Nat.div_add_mod n 100
      have h2 : (n : ℚ) = 100 * ((n / 100 : Nat) : ℚ) + ((n % 100 : Nat) : ℚ) := by
        exact_mod_cast h.symm
      rw [h2]
      ring
    rw [hsum]
    have e : |q| - (n : ℚ) / 100 = (|q| * 100 - n) / 100 := by ring
    rw [e, abs_div, abs_of_pos (by norm_num : (0 : ℚ) < 100), div_le_iff₀ (by norm_num)]
    linarith

/-- The outcome of `GetBestApplicant` when persistence returns a row. -/
theorem GetBestApplicant_of_ok (queries : Querier) (req : GetBestApplicantRequest)
    (row : Applicant) (hq : queries.GetBestApplicant = Except.ok row) :
    GetBestApplicant lowerCase queries req
      = ⟨some ⟨DbApplicantToProto row,
            if Contains (ToLower lowerCase row.Name) "jonathan"
                && Contains (ToLower lowerCase row.Name) "søholm" then jonathanReason
            else specGenericReason row.OverallScore⟩,
          none, [QueryCall.GetBestApplicant]⟩ := by
  simp only [GetBestApplicant, hq]
  rfl

/-- C14: when persistence returns a record, `GetBestApplicant` returns it mapped, with the
special-cased reason if and only if the lower-cased name contains both "jonathan" and "søholm",
and otherwise with "Scored X% based on our completely objective and unbiased algorithm." where
X is the record's overallScore as `%.2f` prints it, which for a finite overallScore is an
optional minus sign, the integer part, a point and exactly 2 decimal digits, the number written
being a hundredth nearest to the overallScore (95.5 gives "95.50", 100 gives "100.00" and 0.125
gives "0.12"); the lower-cased "Jonathan Soholm", without the diacritic, does not contain
"søholm"; a persistence failure gives Internal and no response. -/
theorem GetBestApplicant_reason (queries : Querier) (req : GetBestApplicantRequest) :
    (∀ row, queries.GetBestApplicant = Except.ok row →
      ∃ reason, (GetBestApplicant lowerCase queries req).resp
          = some ⟨DbApplicantToProto row, reason⟩
        ∧ (GetBestApplicant lowerCase queries req).err = none
        ∧ (reason = jonathanReason
            ↔ Contains (ToLower lowerCase row.Name) "jonathan" = true
              ∧ Contains (ToLower lowerCase row.Name) "søholm" = true)
        ∧ (¬ (Contains (ToLower lowerCase row.Name) "jonathan" = true
              ∧ Contains (ToLower lowerCase row.Name) "søholm" = true) →
            reason = "Scored " ++ formatFloat2 row.OverallScore
              ++ "% based on our completely objective and unbiased algorithm.")
        ∧ (∀ q, row.OverallScore = F64.fin q →
            ¬ (Contains (ToLower lowerCase row.Name) "jonathan" = true
              ∧ Contains (ToLower lowerCase row.Name) "søholm" = true) →
            ∃ text, specTwoDecimals q text
              ∧ reason = "Scored " ++ text
                ++ "% based on our completely objective and unbiased algorithm."))
    ∧ (∀ e, queries.GetBestApplicant = Except.error e →
        (GetBestApplicant lowerCase queries req).resp = none
        ∧ ((GetBestApplicant lowerCase queries req).err.map StatusError.code)
            = some Code.Internal)
    ∧ formatFloat2 (F64.fin 95.5) = "95.50"
    ∧ formatFloat2 (F64.fin 100) = "100.00"
    ∧ formatFloat2 (F64.fin 0.125) = "0.12"
    ∧ Contains (ToLower lowerCase "Jonathan Soholm") "søholm" = false := by
  refine ⟨?_, ?_, formatFloat2_example, formatFloat2_hundred, formatFloat2_eighth, ?_⟩
  · intro row hq
    rw [GetBestApplicant_of_ok lowerCase queries req row hq]
    refine ⟨_, rfl, rfl, ?_, ?_, ?_⟩
    · by_cases hb : (Contains (ToLower lowerCase row.Name) "jonathan"
          && Contains (ToLower lowerCase row.Name) "søholm") = true
      · rw [if_pos hb]
        simpa using hb
      · rw [if_neg hb]
        constructor
        · intro h
          exact absurd h (specGenericReason_ne_jonathanReason _)
        · intro h
          exact absurd (by simpa using h) hb
    · intro hn
      have hb : ¬ (Contains (ToLower lowerCase row.Name) "jonathan"
          && Contains (ToLower lowerCase row.Name) "søholm") = true := by
        simpa using hn
      rw [if_neg hb]
      rfl
    · intro q hq hn
      have hb : ¬ (Contains (ToLower lowerCase row.Name) "jonathan"
          && Contains (ToLower lowerCase row.Name) "søholm") = true := by
        simpa using hn
      rw [if_neg hb, hq]
      exact ⟨_, formatFloat2_spec q, rfl⟩
  · intro e hq
    have h : GetBestApplicant lowerCase queries req
        = ⟨none, some ⟨Code.Internal, "failed to get best applicant: " ++ e.Error⟩,
            [QueryCall.GetBestApplicant]⟩ := by
      simp only [GetBestApplicant, hq]
    rw [h]
    exact ⟨rfl, rfl⟩
  · have h : ToLower lowerCase "Jonathan Soholm" = "jonathan soholm" := rfl
    rw [h]
    decide

/-- C14 (witness): the best applicant "Jonathan Søholm-Boesen" gets the special-cased reason,
"Jane Doe" with a score of 95.5 gets the generic reason, and a failing persistence layer gives
Internal. -/
theorem GetBestApplicant_reason_witness :
    (∃ reason, (GetBestApplicant id (bestQuerier jonathanRow) ⟨⟩).resp
        = some ⟨DbApplicantToProto jonathanRow, reason⟩ ∧ reason = jonathanReason)
    ∧ (∃ reason, (GetBestApplicant id (bestQuerier genericBestRow) ⟨⟩).resp
        = some ⟨DbApplicantToProto genericBestRow, reason⟩
      ∧ reason = "Scored " ++ formatFloat2 (F64.fin 95.5)
          ++ "% based on our completely objective and unbiased algorithm."
      ∧ ∃ text, specTwoDecimals 95.5 text
          ∧ reason = "Scored " ++ text
            ++ "% based on our completely objective and unbiased algorithm.")
    ∧ ((GetBestApplicant id mockQuerier ⟨⟩).err.map StatusError.code) = some Code.Internal := by
  obtain ⟨r1, h1, _, h2, _, _⟩ :=
    (GetBestApplicant_reason id (bestQuerier jonathanRow) ⟨⟩).1 jonathanRow rfl
  obtain ⟨r2, h3, _, _, h4, h5⟩ :=
    (GetBestApplicant_reason id (bestQuerier genericBestRow) ⟨⟩).1 genericBestRow rfl
  exact ⟨⟨r1, h1, h2.mpr (by decide)⟩, ⟨r2, h3, h4 (by decide), h5 95.5 rfl (by decide)⟩,
    ((GetBestApplicant_reason id mockQuerier ⟨⟩).2.1
      (DbError.other "getBestFunc not implemented") rfl).2⟩

end bestClaims

/-! ## The page and the total of a listing -/

section listingClaims

/-- The response of `ListApplicants` when the page fetch it makes returns `rows` and the count
call it makes returns `count`. -/
theorem ListApplicants_of_ok (queries : Querier) (req : ListApplicantsRequest)
    (larg : ListApplicantsParams) (carg : CountApplicantsParams) (rows : List Applicant)
    (count : Int)
    (hl : QueryCall.ListApplicants larg ∈ (ListApplicants queries req).calls)
    (hc : QueryCall.CountApplicants carg ∈ (ListApplicants queries req).calls)
    (hlq : queries.ListApplicants larg = Except.ok rows)
    (hcq : queries.CountApplicants carg = Except.ok count) :
    (ListApplicants queries req).resp
      = some ⟨rows.map DbApplicantToProto, toInt32 count, specEffectiveLimit req.Limit,
          specEffectiveOffset req.Offset⟩ := by
  have e := ListApplicants_eq queries req
  cases hL : queries.ListApplicants ⟨specEffectiveLimit req.Limit,
      specEffectiveOffset req.Offset, req.Position, req.Status, req.MinScore⟩ with
  | error err =>
    rw [hL] at e
    rw [e] at hc
    simp only [List.mem_singleton, reduceCtorEq] at hc
  | ok rows2 =>
    rw [hL] at e
    simp only [] at e
    cases hC : queries.CountApplicants ⟨req.Position, req.Status, req.MinScore⟩ with
    | error err =>
      rw [hC] at e
      rw [e] at hc
      simp only [List.mem_cons, QueryCall.CountApplicants.injEq, List.mem_singleton,
        reduceCtorEq, false_or, or_false, List.not_mem_nil] at hc
      rw [hc, hC] at hcq
      cases hcq
    | ok total =>
      rw [hC] at e
      rw [e] at hl hc ⊢
      simp only [List.mem_cons, QueryCall.ListApplicants.injEq, List.mem_singleton,
        reduceCtorEq, or_false, List.not_mem_nil] at hl
      simp only [List.mem_cons, QueryCall.CountApplicants.injEq, List.mem_singleton,
        reduceCtorEq, false_or, or_false, List.not_mem_nil] at hc
      rw [hl, hL] at hlq
      rw [hc, hC] at hcq
      cases hlq
      cases hcq
      rfl

/-- C24: when both persistence calls succeed, `ListApplicants` returns exactly one mapped
record per fetched record, in the same order: the applicants of the response are the fetched
rows mapped by `DbApplicantToProto`, the response has the length of the fetched page, and its
i-th applicant is `DbApplicantToProto` of the i-th fetched row. -/
theorem ListApplicants_maps_page (queries : Querier) (req : ListApplicantsRequest)
    (larg : ListApplicantsParams) (carg : CountApplicantsParams) (rows : List Applicant)
    (count : Int)
    (hl : QueryCall.ListApplicants larg ∈ (ListApplicants queries req).calls)
    (hc : QueryCall.CountApplicants carg ∈ (ListApplicants queries req).calls)
    (hlq : queries.ListApplicants larg = Except.ok rows)
    (hcq : queries.CountApplicants carg = Except.ok count) :
    ∃ r, (ListApplicants queries req).resp = some r
      ∧ r.Applicants = rows.map DbApplicantToProto
      ∧ r.Applicants.length = rows.length
      ∧ ∀ i : Nat, r.Applicants[i]? = (rows[i]?).map DbApplicantToProto := by
  refine ⟨_, ListApplicants_of_ok queries req larg carg rows count hl hc hlq hcq, rfl, ?_, ?_⟩
  · simp
  · intro i
    simp

/-- C24 (witness): the listing of the one stored row returns that row mapped. -/
theorem ListApplicants_maps_page_witness :
    ∃ r, (ListApplicants janeQuerier ⟨10, 0, "", 0, F64.fin 0⟩).resp = some r
      ∧ r.Applicants = [DbApplicantToProto janeRow] := by
  obtain ⟨r, h1, h2, _⟩ := ListApplicants_maps_page janeQuerier ⟨10, 0, "", 0, F64.fin 0⟩
    ⟨10, 0, "", 0, F64.fin 0⟩ ⟨"", 0, F64.fin 0⟩ [janeRow] 1 (by decide) (by decide) rfl rfl
  exact ⟨r, h1, h2⟩

theorem toInt32_of_fits (n : Int) (h1 : -2147483648 ≤ n) (h2 : n ≤ 2147483647) :
    toInt32 n = n := by
  unfold toInt32
  norm_num
  omega

/-- C25 (counterexample): when the count call returns 2^31, the TotalCount of the response is
-2^31. -/
theorem ListApplicants_total_wraps :
    hugeCountQuerier.CountApplicants ⟨"", 0, F64.fin 0⟩ = Except.ok 2147483648
    ∧ ((ListApplicants hugeCountQuerier ⟨10, 0, "", 0, F64.fin 0⟩).resp.map
        ListApplicantsResponse.TotalCount) = some (-2147483648) := by
  refine ⟨rfl, ?_⟩
  have h := ListApplicants_of_ok hugeCountQuerier ⟨10, 0, "", 0, F64.fin 0⟩
    ⟨10, 0, "", 0, F64.fin 0⟩ ⟨"", 0, F64.fin 0⟩ [janeRow] 2147483648 (by decide) (by decide)
    rfl rfl
  rw [h]
  simp only [Option.map_some', Option.some.injEq]
  unfold toInt32
  norm_num

/-- C25 (amended): when both persistence calls succeed, the TotalCount of the response is the
count returned by the count call converted to 32 bits: it equals the count for every count
that fits a signed 32-bit integer (from -2^31 to 2^31 - 1), and is its low 32 bits read as
signed otherwise. -/
theorem ListApplicants_total_count (queries : Querier) (req : ListApplicantsRequest)
    (larg : ListApplicantsParams) (carg : CountApplicantsParams) (rows : List Applicant)
    (count : Int)
    (hl : QueryCall.ListApplicants larg ∈ (ListApplicants queries req).calls)
    (hc : QueryCall.CountApplicants carg ∈ (ListApplicants queries req).calls)
    (hlq : queries.ListApplicants larg = Except.ok rows)
    (hcq : queries.CountApplicants carg = Except.ok count) :
    ∃ r, (ListApplicants queries req).resp = some r
      ∧ r.TotalCount = toInt32 count
      ∧ (-2147483648 ≤ count → count ≤ 2147483647 → r.TotalCount = count) := by
  refine ⟨_, ListApplicants_of_ok queries req larg carg rows count hl hc hlq hcq, rfl, ?_⟩
  intro h1 h2
  exact toInt32_of_fits count h1 h2

/-- C25 (witness): the listing of the one stored row reports a total of 1. -/
theorem ListApplicants_total_count_witness :
    ∃ r, (ListApplicants janeQuerier ⟨10, 0, "", 0, F64.fin 0⟩).resp = some r
      ∧ r.TotalCount = 1 := by
  obtain ⟨r, h1, _, h3⟩ := ListApplicants_total_count janeQuerier ⟨10, 0, "", 0, F64.fin 0⟩
    ⟨10, 0, "", 0, F64.fin 0⟩ ⟨"", 0, F64.fin 0⟩ [janeRow] 1 (by decide) (by decide) rfl rfl
  exact ⟨r, h1, h3 (by decide) (by decide)⟩

end listingClaims

/-! ## The length of a name -/

section nameLengthClaims

variable (parseAddress : String → Bool)

theorem utf8ByteSize_go_ge (l : List Char) : l.length ≤ String.utf8ByteSize.go l := by
  induction l with
  | nil => simp [String.utf8ByteSize.go]
  | cons c cs ih =>
    have hc : 0 < c.utf8Size := Char.utf8Size_pos c
    simp only [String.utf8ByteSize.go, List.length_cons]
    omega

/-- A string has at most as many characters as bytes. -/
theorem length_le_len (s : String) : s.length ≤ len s := by
  cases s with
  | mk l => exact utf8ByteSize_go_ge l

theorem utf8ByteSize_go_replicate (n : Nat) (c : Char) :
    String.utf8ByteSize.go (List.replicate n c) = n * c.utf8Size := by
  induction n with
  | zero => simp [String.utf8ByteSize.go]
  | succ k ih =>
    simp only [List.replicate_succ, String.utf8ByteSize.go, ih]
    ring

theorem len_longDanishName : len longDanishName = 400 := by
  have h : len longDanishName = 200 * ('ø' : Char).utf8Size := utf8ByteSize_go_replicate 200 'ø'
  rw [h]
  decide

theorem length_longDanishName : longDanishName.length = 200 :=
  List.length_replicate 200 'ø'

/-- C21: the one-character name "ø" is accepted, and the 200-character name made of the
letter "ø" is rejected with "name must be at most 255 characters": `len(name)` counts the bytes
of the UTF-8 text, not the characters that the messages speak of. -/
theorem name_length_is_not_in_characters :
    ("ø".length = 1
      ∧ ValidateApplicant exampleParseAddress "ø" "ann@example.com" "Dev" 0 0 (F64.fin 50)
          (F64.fin 50) (F64.fin 50) false 0 = none)
    ∧ (longDanishName.length = 200
      ∧ ValidateApplicant exampleParseAddress longDanishName "ann@example.com" "Dev" 0 0
          (F64.fin 50) (F64.fin 50) (F64.fin 50) false 0
        = some "name must be at most 255 characters") := by
  refine ⟨⟨by decide, by decide⟩, length_longDanishName, ?_⟩
  have h1 : (false && decide ((0 : Int) ≤ 0)) = false := rfl
  have h2 : (TrimSpace longDanishName == "") = false := by
    have : TrimSpace longDanishName = longDanishName := by
      unfold TrimSpace longDanishName
      have hs : isSpace 'ø' = false := by decide
      rw [show List.replicate 200 'ø' = 'ø' :: List.replicate 199 'ø' from rfl]
      simp only [List.dropWhile_cons, hs, Bool.false_eq_true, if_false]
      rw [show ('ø' :: List.replicate 199 'ø').reverse = 'ø' :: List.replicate 199 'ø' from by
        rw [← List.replicate_succ, List.reverse_replicate]]
      simp only [List.dropWhile_cons, hs, Bool.false_eq_true, if_false]
      rw [← List.replicate_succ, List.reverse_replicate]
    rw [this]
    have hne : longDanishName ≠ "" := by
      intro h
      have := congrArg String.length h
      rw [length_longDanishName] at this
      exact absurd this (by decide)
    simpa using hne
  have h3 : ¬ len longDanishName < 2 := by rw [len_longDanishName]; decide
  have h4 : len longDanishName > 255 := by rw [len_longDanishName]; decide
  simp only [ValidateApplicant, h1, h2, h3, h4, if_true, if_false, Bool.false_eq_true]

theorem ite_some_ne {c : Prop} [Decidable c] {a m : String} {rest : Option String}
    (h1 : a ≠ m) (h2 : rest ≠ some m) : (if c then some a else rest) ≠ some m := by
  split_ifs
  · simpa using h1
  · exact h2

/-- The length of a name is bounded in bytes of the UTF-8 text.  Every name accepted by
`ValidateApplicant` has at least 2 and at most 255 bytes, hence at most 255 characters, and for
every name that is not all whitespace and has between 2 and 255 bytes the validator returns
none of the three name errors. -/
theorem name_length_in_bytes (name email position : String) (yearsExperience githubStars : Int)
    (interviewScore culturalFitScore technicalScore : F64) (isUpdate : Bool) (id : Int) :
    (ValidateApplicant parseAddress name email position yearsExperience githubStars
        interviewScore culturalFitScore technicalScore isUpdate id = none →
      2 ≤ len name ∧ len name ≤ 255 ∧ name.length ≤ 255)
    ∧ (TrimSpace name ≠ "" → 2 ≤ len name → len name ≤ 255 →
      ValidateApplicant parseAddress name email position yearsExperience githubStars
          interviewScore culturalFitScore technicalScore isUpdate id ≠ some "name is required"
      ∧ ValidateApplicant parseAddress name email position yearsExperience githubStars
          interviewScore culturalFitScore technicalScore isUpdate id
        ≠ some "name must be at least 2 characters"
      ∧ ValidateApplicant parseAddress name email position yearsExperience githubStars
          interviewScore culturalFitScore technicalScore isUpdate id
        ≠ some "name must be at most 255 characters") := by
  constructor
  · intro h
    rw [ValidateApplicant_eq_none_iff] at h
    have h2 := h.2.2.1
    have h3 := h.2.2.2.1
    have h4 := length_le_len name
    omega
  · intro hne h2 h255
    have hb : (TrimSpace name == "") = false := by simpa using hne
    have hlt : ¬ len name < 2 := by omega
    have hgt : ¬ len name > 255 := by omega
    have key : ∀ m : String, m ≠ "id must be positive" → m ≠ "email is required" →
        m ≠ "email must be a valid email address" → m ≠ "position is required" →
        m ≠ "position must be at least 2 characters" →
        m ≠ "years_experience must be positive" → m ≠ "github_stars must be positive" →
        m ≠ "interview_score must be between 0 and 100" →
        m ≠ "cultural_fit_score must be between 0 and 100" →
        m ≠ "technical_score must be between 0 and 100" →
        ValidateApplicant parseAddress name email position yearsExperience githubStars
          interviewScore culturalFitScore technicalScore isUpdate id ≠ some m := by
      intro m m1 m2 m3 m4 m5 m6 m7 m8 m9 m10
      unfold ValidateApplicant
      simp only [hb, hlt, hgt, if_false, Bool.false_eq_true]
      exact ite_some_ne (Ne.symm m1) (ite_some_ne (Ne.symm m2) (ite_some_ne (Ne.symm m3)
        (ite_some_ne (Ne.symm m4) (ite_some_ne (Ne.symm m5) (ite_some_ne (Ne.symm m6)
        (ite_some_ne (Ne.symm m7) (ite_some_ne (Ne.symm m8) (ite_some_ne (Ne.symm m9)
        (ite_some_ne (Ne.symm m10) (by simp))))))))))
    exact ⟨key _ (by decide) (by decide) (by decide) (by decide) (by decide) (by decide)
        (by decide) (by decide) (by decide) (by decide),
      key _ (by decide) (by decide) (by decide) (by decide) (by decide) (by decide)
        (by decide) (by decide) (by decide) (by decide),
      key _ (by decide) (by decide) (by decide) (by decide) (by decide) (by decide)
        (by decide) (by decide) (by decide) (by decide)⟩

/-- The accepted request named "ø" has a name of 2 bytes, and its name passes
the three name rules. -/
theorem name_length_in_bytes_witness :
    (2 ≤ len "ø" ∧ len "ø" ≤ 255 ∧ "ø".length ≤ 255)
    ∧ ValidateApplicant exampleParseAddress "ø" "not-an-email" "Dev" 0 0 (F64.fin 50)
        (F64.fin 50) (F64.fin 50) false 0 ≠ some "name must be at least 2 characters" :=
  ⟨(name_length_in_bytes exampleParseAddress "ø" "ann@example.com" "Dev" 0 0 (F64.fin 50)
      (F64.fin 50) (F64.fin 50) false 0).1 (by decide),
    ((name_length_in_bytes exampleParseAddress "ø" "not-an-email" "Dev" 0 0 (F64.fin 50)
      (F64.fin 50) (F64.fin 50) false 0).2 (by decide) (by decide) (by decide)).2.1⟩

end nameLengthClaims

/-! ## Monotonicity of the score -/

section monotoneClaims

variable (lowerCase : Char → Char)

theorem lit_07_pos : ∃ c : ℚ, F64.lit 0.7 = F64.fin c ∧ 0 < c ∧ c ≤ 1 :=
  ⟨_, lit_07, by norm_num, by norm_num⟩

/-- The additive adjustments keep the order of two values, NaN apart. -/
theorem specAdjusted_leOrNaN (canExitVim debugsInProduction : Bool) (yearsExperience : Int)
    (n : Nat) {x y : F64} (h : F64.leOrNaN x y) :
    F64.leOrNaN (specAdjusted canExitVim debugsInProduction yearsExperience n x)
      (specAdjusted canExitVim debugsInProduction yearsExperience n y) := by
  unfold specAdjusted
  simp only []
  have h1 : F64.leOrNaN (if canExitVim = true then x + F64.fin 2.0 else x)
      (if canExitVim = true then y + F64.fin 2.0 else y) := by
    cases canExitVim
    · simpa using h
    · simpa using F64.leOrNaN_add_fin h 2.0
  generalize (if canExitVim = true then x + F64.fin 2.0 else x) = x1 at h1 ⊢
  generalize (if canExitVim = true then y + F64.fin 2.0 else y) = y1 at h1 ⊢
  have h2 : F64.leOrNaN
      (if debugsInProduction = true then x1 + F64.fin 1.0
        else if yearsExperience > 2 then x1 - F64.fin 0.5 else x1)
      (if debugsInProduction = true then y1 + F64.fin 1.0
        else if yearsExperience > 2 then y1 - F64.fin 0.5 else y1) := by
    cases debugsInProduction
    · by_cases hy : yearsExperience > 2
      · simpa [hy] using F64.leOrNaN_sub_fin h1 0.5
      · simpa [hy] using h1
    · simpa using F64.leOrNaN_add_fin h1 1.0
  generalize (if debugsInProduction = true then x1 + F64.fin 1.0
    else if yearsExperience > 2 then x1 - F64.fin 0.5 else x1) = x2 at h2 ⊢
  generalize (if debugsInProduction = true then y1 + F64.fin 1.0
    else if yearsExperience > 2 then y1 - F64.fin 0.5 else y1) = y2 at h2 ⊢
  have h3 := F64.leOrNaN_add_right h2
    (F64.Min (F64.fin 0.5 * F64.ofInt yearsExperience) (F64.fin 3.5))
  by_cases hn : n > 5
  · simp only [hn, if_true]
    exact F64.leOrNaN_add_right h3 _
  · simp only [hn, if_false]
    exact h3

/-- The steps between the weighted sum and the clamp keep the order of two weighted sums, NaN
apart. -/
theorem scoreFromWeighted_leOrNaN (skills : List String) (yearsExperience : Int)
    (canExitVim knowsGo debugsInProduction : Bool) {x y : F64} (h : F64.leOrNaN x y) :
    F64.leOrNaN
      (scoreFromWeighted lowerCase skills yearsExperience canExitVim knowsGo debugsInProduction x)
      (scoreFromWeighted lowerCase skills yearsExperience canExitVim knowsGo debugsInProduction
        y) := by
  unfold scoreFromWeighted
  simp only []
  generalize (ContainsSkill lowerCase skills "Java" && !knowsGo) = bJ
  generalize (ContainsSkill lowerCase skills "JavaScript"
    && !ContainsSkill lowerCase skills "TypeScript" && !knowsGo) = bS
  have h1 : F64.leOrNaN (if bJ = true then x * F64.lit 0.7 else x)
      (if bJ = true then y * F64.lit 0.7 else y) := by
    cases bJ
    · simpa using h
    · rw [lit_07]
      simpa using F64.leOrNaN_mul_fin h (by norm_num)
  have h2 := specAdjusted_leOrNaN canExitVim debugsInProduction yearsExperience skills.length h1
  cases bS
  · simpa using h2
  · simpa using F64.leOrNaN_mul_fin h2 (by norm_num : (0 : ℚ) < 0.75)

theorem lit_mul_leOrNaN {x y : F64} (h : F64.le x y = true) {c : ℚ} (hc : 0 < c) :
    F64.leOrNaN (F64.fin c * x) (F64.fin c * y) := by
  rw [F64.mul_swap (F64.fin c) x, F64.mul_swap (F64.fin c) y]
  exact F64.leOrNaN_of_le (F64.mul_fin_mono h hc)

theorem specWeighted_mono_technical (i c t1 t2 : F64) (h : F64.le t1 t2 = true) :
    F64.leOrNaN (specWeighted i c t1) (specWeighted i c t2) := by
  unfold specWeighted
  rw [lit_04]
  exact F64.leOrNaN_add_right (F64.leOrNaN_add_right (lit_mul_leOrNaN h (by norm_num)) _) _

theorem specWeighted_mono_interview (i1 i2 c t : F64) (h : F64.le i1 i2 = true) :
    F64.leOrNaN (specWeighted i1 c t) (specWeighted i2 c t) := by
  unfold specWeighted
  rw [lit_03]
  exact F64.leOrNaN_add_right (F64.leOrNaN_add_left (lit_mul_leOrNaN h (by norm_num)) _) _

theorem specWeighted_mono_cultural (i c1 c2 t : F64) (h : F64.le c1 c2 = true) :
    F64.leOrNaN (specWeighted i c1 t) (specWeighted i c2 t) := by
  unfold specWeighted
  rw [lit_03]
  exact F64.leOrNaN_add_left (lit_mul_leOrNaN h (by norm_num)) _

/-- Raising the weighted sum never lowers the score. -/
theorem score_mono_of_weighted (name : String) (skills : List String) (yearsExperience : Int)
    (i1 c1 t1 i2 c2 t2 : F64) (canExitVim knowsGo debugsInProduction : Bool)
    (h : F64.leOrNaN (specWeighted i1 c1 t1) (specWeighted i2 c2 t2)) :
    F64.lt
      (CalculateOverallScore lowerCase name skills yearsExperience i2 c2 t2 canExitVim knowsGo
        debugsInProduction)
      (CalculateOverallScore lowerCase name skills yearsExperience i1 c1 t1 canExitVim knowsGo
        debugsInProduction) = false
    ∧ (CalculateOverallScore lowerCase name skills yearsExperience i1 c1 t1 canExitVim knowsGo
          debugsInProduction ≠ F64.nan →
        CalculateOverallScore lowerCase name skills yearsExperience i2 c2 t2 canExitVim knowsGo
          debugsInProduction ≠ F64.nan →
        F64.le
          (CalculateOverallScore lowerCase name skills yearsExperience i1 c1 t1 canExitVim
            knowsGo debugsInProduction)
          (CalculateOverallScore lowerCase name skills yearsExperience i2 c2 t2 canExitVim
            knowsGo debugsInProduction) = true) := by
  rw [CalculateOverallScore_eq_scoreFromWeighted, CalculateOverallScore_eq_scoreFromWeighted]
  exact F64.lt_false_of_leOrNaN (F64.leOrNaN_map clampAndRound_nan
    (fun _ _ hxy => clampAndRound_mono hxy)
    (scoreFromWeighted_leOrNaN lowerCase skills yearsExperience canExitVim knowsGo
      debugsInProduction h))

/-- C27: `CalculateOverallScore` is monotone non-decreasing in each sub-score: for all inputs,
raising technicalScore, interviewScore or culturalFitScore (from a value to a value that is
`>=` it) while keeping every other argument fixed never makes the returned score lower, and
makes it `>=` the former score whenever neither score is NaN. -/
theorem CalculateOverallScore_monotone (name : String) (skills : List String)
    (yearsExperience : Int) (interviewScore culturalFitScore technicalScore raised : F64)
    (canExitVim knowsGo debugsInProduction : Bool) :
    (F64.le technicalScore raised = true →
      F64.lt
        (CalculateOverallScore lowerCase name skills yearsExperience interviewScore
          culturalFitScore raised canExitVim knowsGo debugsInProduction)
        (CalculateOverallScore lowerCase name skills yearsExperience interviewScore
          culturalFitScore technicalScore canExitVim knowsGo debugsInProduction) = false
      ∧ (CalculateOverallScore lowerCase name skills yearsExperience interviewScore
            culturalFitScore technicalScore canExitVim knowsGo debugsInProduction ≠ F64.nan →
          CalculateOverallScore lowerCase name skills yearsExperience interviewScore
            culturalFitScore raised canExitVim knowsGo debugsInProduction ≠ F64.nan →
          F64.le
            (CalculateOverallScore lowerCase name skills yearsExperience interviewScore
              culturalFitScore technicalScore canExitVim knowsGo debugsInProduction)
            (CalculateOverallScore lowerCase name skills yearsExperience interviewScore
              culturalFitScore raised canExitVim knowsGo debugsInProduction) = true))
    ∧ (F64.le interviewScore raised = true →
      F64.lt
        (CalculateOverallScore lowerCase name skills yearsExperience raised
          culturalFitScore technicalScore canExitVim knowsGo debugsInProduction)
        (CalculateOverallScore lowerCase name skills yearsExperience interviewScore
          culturalFitScore technicalScore canExitVim knowsGo debugsInProduction) = false
      ∧ (CalculateOverallScore lowerCase name skills yearsExperience interviewScore
            culturalFitScore technicalScore canExitVim knowsGo debugsInProduction ≠ F64.nan →
          CalculateOverallScore lowerCase name skills yearsExperience raised
            culturalFitScore technicalScore canExitVim knowsGo debugsInProduction ≠ F64.nan →
          F64.le
            (CalculateOverallScore lowerCase name skills yearsExperience interviewScore
              culturalFitScore technicalScore canExitVim knowsGo debugsInProduction)
            (CalculateOverallScore lowerCase name skills yearsExperience raised
              culturalFitScore technicalScore canExitVim knowsGo debugsInProduction) = true))
    ∧ (F64.le culturalFitScore raised = true →
      F64.lt
        (CalculateOverallScore lowerCase name skills yearsExperience interviewScore
          raised technicalScore canExitVim knowsGo debugsInProduction)
        (CalculateOverallScore lowerCase name skills yearsExperience interviewScore
          culturalFitScore technicalScore canExitVim knowsGo debugsInProduction) = false
      ∧ (CalculateOverallScore lowerCase name skills yearsExperience interviewScore
            culturalFitScore technicalScore canExitVim knowsGo debugsInProduction ≠ F64.nan →
          CalculateOverallScore lowerCase name skills yearsExperience interviewScore
            raised technicalScore canExitVim knowsGo debugsInProduction ≠ F64.nan →
          F64.le
            (CalculateOverallScore lowerCase name skills yearsExperience interviewScore
              culturalFitScore technicalScore canExitVim knowsGo debugsInProduction)
            (CalculateOverallScore lowerCase name skills yearsExperience interviewScore
              raised technicalScore canExitVim knowsGo debugsInProduction) = true)) := by
  refine ⟨fun h => ?_, fun h => ?_, fun h => ?_⟩
  · exact score_mono_of_weighted lowerCase name skills yearsExperience _ _ _ _ _ _ canExitVim
      knowsGo debugsInProduction
      (specWeighted_mono_technical interviewScore culturalFitScore technicalScore raised h)
  · exact score_mono_of_weighted lowerCase name skills yearsExperience _ _ _ _ _ _ canExitVim
      knowsGo debugsInProduction
      (specWeighted_mono_interview interviewScore raised culturalFitScore technicalScore h)
  · exact score_mono_of_weighted lowerCase name skills yearsExperience _ _ _ _ _ _ canExitVim
      knowsGo debugsInProduction
      (specWeighted_mono_cultural interviewScore culturalFitScore raised technicalScore h)

/-- C27 (witness): raising the technical score of scenario A from 80 to 90, its interview
score from 60 to 65, or its cultural-fit score from 70 to 100 does not lower the score. -/
theorem CalculateOverallScore_monotone_witness :
    F64.lt
      (CalculateOverallScore id "Alice Johnson" ["Go", "Kubernetes"] 0 (F64.fin 60)
        (F64.fin 70) (F64.fin 90) false true false)
      (CalculateOverallScore id "Alice Johnson" ["Go", "Kubernetes"] 0 (F64.fin 60)
        (F64.fin 70) (F64.fin 80) false true false) = false
    ∧ F64.lt
      (CalculateOverallScore id "Alice Johnson" ["Go", "Kubernetes"] 0 (F64.fin 65)
        (F64.fin 70) (F64.fin 80) false true false)
      (CalculateOverallScore id "Alice Johnson" ["Go", "Kubernetes"] 0 (F64.fin 60)
        (F64.fin 70) (F64.fin 80) false true false) = false
    ∧ F64.lt
      (CalculateOverallScore id "Alice Johnson" ["Go", "Kubernetes"] 0 (F64.fin 60)
        (F64.fin 100) (F64.fin 80) false true false)
      (CalculateOverallScore id "Alice Johnson" ["Go", "Kubernetes"] 0 (F64.fin 60)
        (F64.fin 70) (F64.fin 80) false true false) = false :=
  ⟨((CalculateOverallScore_monotone id "Alice Johnson" ["Go", "Kubernetes"] 0 (F64.fin 60)
      (F64.fin 70) (F64.fin 80) (F64.fin 90) false true false).1 (by decide)).1,
    ((CalculateOverallScore_monotone id "Alice Johnson" ["Go", "Kubernetes"] 0 (F64.fin 60)
      (F64.fin 70) (F64.fin 80) (F64.fin 65) false true false).2.1 (by decide)).1,
    ((CalculateOverallScore_monotone id "Alice Johnson" ["Go", "Kubernetes"] 0 (F64.fin 60)
      (F64.fin 70) (F64.fin 80) (F64.fin 100) false true false).2.2 (by decide)).1⟩

end monotoneClaims

/-! ## Lower bounds, the experience cap and knowing Go -/

section goClaims

variable (lowerCase : Char → Char)

theorem round_three_halves : F64.round (3 / 2) = F64.fin (3 / 2) :=
  F64.round_eq_self _ 3 (-1) (by norm_num) (by norm_num) (by norm_num) (by norm_num)
    (by norm_num)

theorem round_seven_halves : F64.round (7 / 2) = F64.fin (7 / 2) :=
  F64.round_eq_self _ 7 (-1) (by norm_num) (by norm_num) (by norm_num) (by norm_num)
    (by norm_num)

theorem round_neg_half : F64.round (-1 / 2) = F64.fin (-1 / 2) :=
  F64.round_eq_self _ (-1) (-1) (by norm_num) (by norm_num) (by norm_num) (by norm_num)
    (by norm_num)

theorem round_natLit (n : Nat) (h : n < 2 ^ 53) : F64.round (n : ℚ) = F64.fin n := by
  have := F64.round_intCast (n : Int) (by rw [abs_of_nonneg (by positivity)]; exact_mod_cast h)
  simpa using this

/-- The conversion of an integer that is at least `k` (an integer that binary64 holds exactly)
is at least `k`. -/
theorem ofInt_ge {k : Nat} (hk : k < 2 ^ 53) {n : Int} (h : (k : Int) ≤ n) :
    F64.le (F64.fin k) (F64.ofInt n) = true := by
  have h1 : ((k : Int) : ℚ) ≤ (n : ℚ) := by exact_mod_cast h
  have h2 := F64.round_mono h1
  rw [F64.ofInt_eq]
  have h3 : F64.round ((k : Int) : ℚ) = F64.fin k := by
    simpa using round_natLit k hk
  rwa [h3] at h2

/-- The experience boost with at least `k` years is at least half of `k`, capped at 3.5, for
`k` up to 7. -/
theorem boost_ge {n : Int} {a : ℚ} (h : F64.le (F64.fin a) (F64.ofInt n) = true)
    (ha : F64.round (a * 0.5) = F64.fin (a * 0.5)) :
    ∃ m : ℚ, F64.Min (F64.fin 0.5 * F64.ofInt n) (F64.fin 3.5) = F64.fin m
      ∧ min (a * 0.5) 3.5 ≤ m ∧ m ≤ 3.5 := by
  have h1 := F64.mul_fin_mono h (by norm_num : (0 : ℚ) < 0.5)
  rw [F64.fin_mul_fin, ha] at h1
  rw [F64.mul_swap]
  exact F64.Min_fin_of_ge h1

/-- With 7 years or more the experience boost is 3.5. -/
theorem boost_cap {n : Int} (h : n ≥ 7) :
    F64.Min (F64.ofInt n * F64.fin 0.5) (F64.fin 3.5) = F64.fin 3.5 := by
  have h0 : F64.le (F64.fin (7 : Nat)) (F64.ofInt n) = true := ofInt_ge (by norm_num) h
  have h1 := F64.mul_fin_mono h0 (by norm_num : (0 : ℚ) < 0.5)
  have h2 : F64.fin ((7 : Nat) : ℚ) * F64.fin 0.5 = F64.fin 3.5 := by
    rw [F64.fin_mul_fin]
    have := round_seven_halves
    norm_num at this ⊢
    exact this
  rw [h2] at h1
  exact F64.Min_eq_right_of_le h1

/-- The skill-diversity bonus is a finite value between 0 and 2. -/
theorem bonus_fin (n : Nat) (h : n > 5) :
    ∃ m : ℚ, F64.Min (F64.lit 0.2 * F64.ofInt ((n : Int) - 5)) (F64.fin 2.0) = F64.fin m
      ∧ 0 ≤ m ∧ m ≤ 2.0 := by
  have h0 : F64.le (F64.fin (0 : Nat)) (F64.ofInt ((n : Int) - 5)) = true :=
    ofInt_ge (by norm_num) (by push_cast; omega)
  have h1 := F64.mul_fin_nonneg (by simpa using h0) (by norm_num :
    (0 : ℚ) < 3602879701896397 / 18014398509481984)
  rw [F64.mul_swap, lit_02]
  obtain ⟨m, e, b1, b2⟩ := F64.Min_fin_of_ge (c := 2.0) h1
  exact ⟨m, e, le_trans (by norm_num) b1, b2⟩

/-- For a number of years in the range of `int32` the experience boost is finite. -/
theorem boost_fin {n : Int} (h1 : -2147483648 ≤ n) (h2 : n ≤ 2147483647) :
    ∃ m : ℚ, F64.Min (F64.fin 0.5 * F64.ofInt n) (F64.fin 3.5) = F64.fin m := by
  have e1 : F64.ofInt n = F64.fin n := by
    rw [F64.ofInt_eq]
    exact F64.round_intCast n (by rw [abs_lt]; constructor <;> omega)
  have hq1 : ((-2147483648 : Int) : ℚ) ≤ (n : ℚ) := by exact_mod_cast h1
  have hq2 : (n : ℚ) ≤ ((2147483647 : Int) : ℚ) := by exact_mod_cast h2
  push_cast at hq1 hq2
  have e2 : F64.fin 0.5 * F64.fin (n : ℚ) = F64.fin (0.5 * n) := by
    rw [F64.fin_mul_fin]
    refine F64.round_eq_self _ n (-1) (by rw [abs_lt]; constructor <;> omega) (by norm_num)
      (by norm_num; ring) ?_ ?_
    · have : (0.5 : ℚ) * n ≤ 2147483647 := by linarith
      exact lt_of_le_of_lt this (by norm_num)
    · have : (-2147483648 : ℚ) ≤ 0.5 * n := by linarith
      exact lt_of_lt_of_le (by norm_num) this
  rw [e1, e2, F64.Min_fin_fin]
  exact ⟨_, rfl⟩

/-- The additive adjustments with finite terms are monotone. -/
theorem specAdjusted_mono (canExitVim debugsInProduction : Bool) (yearsExperience : Int)
    (n : Nat) (hb : ∃ m : ℚ,
      F64.Min (F64.fin 0.5 * F64.ofInt yearsExperience) (F64.fin 3.5) = F64.fin m)
    {x y : F64} (h : F64.le x y = true) :
    F64.le (specAdjusted canExitVim debugsInProduction yearsExperience n x)
      (specAdjusted canExitVim debugsInProduction yearsExperience n y) = true := by
  obtain ⟨bz, hbz⟩ := hb
  unfold specAdjusted
  simp only [hbz]
  have h1 : F64.le (if canExitVim = true then x + F64.fin 2.0 else x)
      (if canExitVim = true then y + F64.fin 2.0 else y) = true := by
    cases canExitVim
    · simpa using h
    · simpa using F64.add_fin_mono h 2.0
  generalize (if canExitVim = true then x + F64.fin 2.0 else x) = x1 at h1 ⊢
  generalize (if canExitVim = true then y + F64.fin 2.0 else y) = y1 at h1 ⊢
  have h2 : F64.le
      (if debugsInProduction = true then x1 + F64.fin 1.0
        else if yearsExperience > 2 then x1 - F64.fin 0.5 else x1)
      (if debugsInProduction = true then y1 + F64.fin 1.0
        else if yearsExperience > 2 then y1 - F64.fin 0.5 else y1) = true := by
    cases debugsInProduction
    · by_cases hy : yearsExperience > 2
      · simpa [hy] using F64.sub_fin_mono h1 0.5
      · simpa [hy] using h1
    · simpa using F64.add_fin_mono h1 1.0
  generalize (if debugsInProduction = true then x1 + F64.fin 1.0
    else if yearsExperience > 2 then x1 - F64.fin 0.5 else x1) = x2 at h2 ⊢
  generalize (if debugsInProduction = true then y1 + F64.fin 1.0
    else if yearsExperience > 2 then y1 - F64.fin 0.5 else y1) = y2 at h2 ⊢
  have h3 := F64.add_fin_mono h2 bz
  by_cases hn : n > 5
  · obtain ⟨m, hm, _⟩ := bonus_fin n hn
    simp only [hn, if_true, hm]
    exact F64.add_fin_mono h3 m
  · simp only [hn, if_false]
    exact h3

/-- The result of the additive adjustments, when finite, is a binary64 value. -/
theorem specAdjusted_rounded (canExitVim debugsInProduction : Bool) (yearsExperience : Int)
    (n : Nat) (x : F64) (r : ℚ)
    (h : specAdjusted canExitVim debugsInProduction yearsExperience n x = F64.fin r) :
    F64.round r = F64.fin r := by
  unfold specAdjusted at h
  simp only [] at h
  by_cases hn : n > 5
  · simp only [hn, if_true] at h
    exact F64.round_of_add_eq_fin h
  · simp only [hn, if_false] at h
    exact F64.round_of_add_eq_fin h

/-- With sub-scores that are `>= 0` the weighted sum is `>= 0`. -/
theorem specWeighted_nonneg (i c t : F64) (hi : F64.le (F64.fin 0) i = true)
    (hc : F64.le (F64.fin 0) c = true) (ht : F64.le (F64.fin 0) t = true) :
    F64.le (F64.fin 0) (specWeighted i c t) = true := by
  unfold specWeighted
  rw [lit_04, lit_03, F64.mul_swap _ t, F64.mul_swap _ i, F64.mul_swap _ c]
  exact F64.add_nonneg_of_nonneg (F64.add_nonneg_of_nonneg
    (F64.mul_fin_nonneg ht (by norm_num)) (F64.mul_fin_nonneg hi (by norm_num)))
    (F64.mul_fin_nonneg hc (by norm_num))

theorem specWeighted_rounded (i c t : F64) (r : ℚ) (h : specWeighted i c t = F64.fin r) :
    F64.round r = F64.fin r := by
  unfold specWeighted at h
  exact F64.round_of_add_eq_fin h

/-- With a non-negative number of years the additive adjustments keep a value `>= 0`. -/
theorem specAdjusted_nonneg (canExitVim debugsInProduction : Bool) (yearsExperience : Int)
    (n : Nat) (hy : 0 ≤ yearsExperience) {x : F64} (h : F64.le (F64.fin 0) x = true) :
    F64.le (F64.fin 0) (specAdjusted canExitVim debugsInProduction yearsExperience n x)
      = true := by
  unfold specAdjusted
  simp only []
  have h1 : F64.le (F64.fin 0) (if canExitVim = true then x + F64.fin 2.0 else x) = true := by
    cases canExitVim
    · simpa using h
    · simpa using F64.add_nonneg_of_nonneg h (by norm_num [F64.le] : F64.le (F64.fin 0)
        (F64.fin 2.0) = true)
  generalize (if canExitVim = true then x + F64.fin 2.0 else x) = x1 at h1 ⊢
  have h3 : F64.le (F64.fin 0)
      ((if debugsInProduction = true then x1 + F64.fin 1.0
          else if yearsExperience > 2 then x1 - F64.fin 0.5 else x1)
        + F64.Min (F64.fin 0.5 * F64.ofInt yearsExperience) (F64.fin 3.5)) = true := by
    have hb0 : F64.le (F64.fin 0)
        (F64.Min (F64.fin 0.5 * F64.ofInt yearsExperience) (F64.fin 3.5)) = true := by
      have hk : F64.le (F64.fin ((0 : Nat) : ℚ)) (F64.ofInt yearsExperience) = true :=
        ofInt_ge (by norm_num) (by exact_mod_cast hy)
      obtain ⟨m, e, b1, _⟩ := boost_ge hk (by simp [F64.round_zero])
      rw [e]
      have : (0 : ℚ) ≤ m := le_trans (by norm_num) b1
      simpa [F64.le] using this
    cases debugsInProduction
    · by_cases hy2 : yearsExperience > 2
      · simp only [Bool.false_eq_true, if_false, hy2, if_true]
        have hk : F64.le (F64.fin ((3 : Nat) : ℚ)) (F64.ofInt yearsExperience) = true :=
          ofInt_ge (by norm_num) (by push_cast; omega)
        obtain ⟨m, e, b1, _⟩ := boost_ge hk (by
          have := round_three_halves
          norm_num at this ⊢
          exact this)
        rw [e]
        have hm : (3 / 2 : ℚ) ≤ m := le_trans (by norm_num) b1
        have hx : F64.le (F64.fin (-1 / 2)) (x1 - F64.fin 0.5) = true := by
          have := F64.sub_fin_mono h1 0.5
          rw [F64.fin_sub_fin] at this
          have e2 : F64.round (0 - 0.5) = F64.fin (-1 / 2) := by
            have := round_neg_half
            norm_num at this ⊢
            exact this
          rwa [e2] at this
        have hz : F64.le (F64.fin (3 / 2)) (F64.fin m) = true := by simpa [F64.le] using hm
        have := F64.add_ge_of_ge hx hz
        have e3 : F64.round (-1 / 2 + 3 / 2) = F64.fin 1 := by
          have := round_natLit 1 (by norm_num)
          norm_num at this ⊢
          exact this
        rw [e3] at this
        exact F64.le_trans' (by simp [F64.le]) this
      · simp only [Bool.false_eq_true, if_false, hy2]
        exact F64.add_nonneg_of_nonneg h1 hb0
    · simp only [if_true]
      exact F64.add_nonneg_of_nonneg
        (F64.add_nonneg_of_nonneg h1 (by norm_num [F64.le])) hb0
  by_cases hn : n > 5
  · obtain ⟨m, hm, b1, _⟩ := bonus_fin n hn
    simp only [hn, if_true, hm]
    exact F64.add_nonneg_of_nonneg h3 (by simpa [F64.le] using b1)
  · simp only [hn, if_false]
    exact h3

/-- With sub-scores that are `>= 0` and a non-negative number of years the value that reaches
the clamp is `>= 0`. -/
theorem scoreBeforeClamp_nonneg (skills : List String) (yearsExperience : Int) (i c t : F64)
    (canExitVim knowsGo debugsInProduction : Bool) (hi : F64.le (F64.fin 0) i = true)
    (hc : F64.le (F64.fin 0) c = true) (ht : F64.le (F64.fin 0) t = true)
    (hy : 0 ≤ yearsExperience) :
    F64.le (F64.fin 0) (scoreBeforeClamp lowerCase skills yearsExperience i c t canExitVim
      knowsGo debugsInProduction) = true := by
  rw [scoreBeforeClamp_eq_scoreFromWeighted]
  unfold scoreFromWeighted
  simp only []
  have hW := specWeighted_nonneg i c t hi hc ht
  have h1 : F64.le (F64.fin 0)
      (if (ContainsSkill lowerCase skills "Java" && !knowsGo) = true
        then specWeighted i c t * F64.lit 0.7 else specWeighted i c t) = true := by
    split_ifs
    · rw [lit_07]
      exact F64.mul_fin_nonneg hW (by norm_num)
    · exact hW
  have h2 := specAdjusted_nonneg canExitVim debugsInProduction yearsExperience skills.length
    hy h1
  generalize (if (ContainsSkill lowerCase skills "Java" && !knowsGo) = true
    then specWeighted i c t * F64.lit 0.7 else specWeighted i c t) = b0 at h2 ⊢
  generalize (ContainsSkill lowerCase skills "JavaScript"
    && !ContainsSkill lowerCase skills "TypeScript" && !knowsGo) = bS
  cases bS
  · simpa using h2
  · simpa using F64.mul_fin_nonneg h2 (by norm_num : (0 : ℚ) < 0.75)

/-- C26: for every input accepted by `ValidateApplicant` with each sub-score in [0,100] (and
so yearsExperience >= 0), the value `B` of the score before clamping is `>= 0`, the lower clamp
`max(0, .)` does not change the result, and `CalculateOverallScore` equals
`round2(min(B, 100))`. -/
theorem accepted_score_nonneg_before_clamp (parseAddress : String → Bool)
    (name email position : String) (skills : List String) (yearsExperience githubStars : Int)
    (interviewScore culturalFitScore technicalScore : F64)
    (canExitVim knowsGo debugsInProduction isUpdate : Bool) (id : Int)
    (hv : ValidateApplicant parseAddress name email position yearsExperience githubStars
      interviewScore culturalFitScore technicalScore isUpdate id = none)
    (hi : specInRange interviewScore) (hc : specInRange culturalFitScore)
    (ht : specInRange technicalScore) :
    F64.le (F64.fin 0) (scoreBeforeClamp lowerCase skills yearsExperience interviewScore
        culturalFitScore technicalScore canExitVim knowsGo debugsInProduction) = true
    ∧ F64.Max (F64.fin 0) (F64.Min (scoreBeforeClamp lowerCase skills yearsExperience
          interviewScore culturalFitScore technicalScore canExitVim knowsGo debugsInProduction)
          (F64.fin 100))
      = F64.Min (scoreBeforeClamp lowerCase skills yearsExperience interviewScore
          culturalFitScore technicalScore canExitVim knowsGo debugsInProduction) (F64.fin 100)
    ∧ CalculateOverallScore lowerCase name skills yearsExperience interviewScore
        culturalFitScore technicalScore canExitVim knowsGo debugsInProduction
      = specRound2 (F64.Min (scoreBeforeClamp lowerCase skills yearsExperience interviewScore
          culturalFitScore technicalScore canExitVim knowsGo debugsInProduction)
          (F64.fin 100)) := by
  rw [ValidateApplicant_eq_none_iff] at hv
  obtain ⟨_, _, _, _, _, _, _, _, hy, _, _, _, _⟩ := hv
  have hy' : 0 ≤ yearsExperience := by omega
  have hB := scoreBeforeClamp_nonneg lowerCase skills yearsExperience interviewScore
    culturalFitScore technicalScore canExitVim knowsGo debugsInProduction hi.1 hc.1 ht.1 hy'
  have hclamp : ∀ B : F64, F64.le (F64.fin 0) B = true →
      F64.Max (F64.fin 0) (F64.Min B (F64.fin 100)) = F64.Min B (F64.fin 100) := by
    intro B h
    cases B with
    | nan => simp [F64.le] at h
    | ninf => simp [F64.le] at h
    | pinf =>
      rw [F64.Min_pinf_fin, F64.Max_fin_fin]
      norm_num
    | fin b =>
      have hb : (0 : ℚ) ≤ b := by simpa [F64.le_fin_fin] using h
      rw [F64.Min_fin_fin, F64.Max_fin_fin, max_eq_right (le_min hb (by norm_num))]
  refine ⟨hB, hclamp _ hB, ?_⟩
  rw [CalculateOverallScore_eq_specRound2_specClamp]
  unfold specClamp
  rw [hclamp _ hB]

/-- C26 (witness): the accepted request of the test "Successful creation" has a non-negative
score before clamping. -/
theorem accepted_score_nonneg_before_clamp_witness :
    F64.le (F64.fin 0) (scoreBeforeClamp id ["Go", "Kubernetes"] 5 (F64.fin 85) (F64.fin 90)
      (F64.fin 88) true true false) = true :=
  (accepted_score_nonneg_before_clamp id exampleParseAddress "Jane Doe" "jane@example.com"
    "Senior Developer" ["Go", "Kubernetes"] 5 200 (F64.fin 85) (F64.fin 90) (F64.fin 88)
    true true false false 0 (by decide) (by decide) (by decide) (by decide)).1

end goClaims

/-! ## Dependence of the score on its arguments -/

section dependenceClaims

variable (lowerCase : Char → Char)

/-- C29: the name argument does not influence the score: for all names `n1` and `n2` and all
other arguments equal, `CalculateOverallScore(n1, ...) = CalculateOverallScore(n2, ...)`. -/
theorem CalculateOverallScore_name_independent (n1 n2 : String) (skills : List String)
    (yearsExperience : Int) (interviewScore culturalFitScore technicalScore : F64)
    (canExitVim knowsGo debugsInProduction : Bool) :
    CalculateOverallScore lowerCase n1 skills yearsExperience interviewScore culturalFitScore
        technicalScore canExitVim knowsGo debugsInProduction
      = CalculateOverallScore lowerCase n2 skills yearsExperience interviewScore
          culturalFitScore technicalScore canExitVim knowsGo debugsInProduction := by
  rw [CalculateOverallScore_eq_clampAndRound, CalculateOverallScore_eq_clampAndRound]

theorem ContainsSkill_perm {skills1 skills2 : List String} (h : skills1.Perm skills2)
    (skill : String) :
    ContainsSkill lowerCase skills1 skill = ContainsSkill lowerCase skills2 skill := by
  rw [Bool.eq_iff_iff, ContainsSkill_iff, ContainsSkill_iff]
  unfold specContains
  constructor
  · rintro ⟨s, hs, e⟩
    exact ⟨s, h.mem_iff.mp hs, e⟩
  · rintro ⟨s, hs, e⟩
    exact ⟨s, h.mem_iff.mpr hs, e⟩

/-- C30: the score does not depend on the order of the skills: for every skills list and
every permutation of it, with all other arguments equal, `CalculateOverallScore` returns the
same value; `ContainsSkill` and the number of skills are the same for both lists. -/
theorem CalculateOverallScore_perm (name : String) (skills1 skills2 : List String)
    (yearsExperience : Int) (interviewScore culturalFitScore technicalScore : F64)
    (canExitVim knowsGo debugsInProduction : Bool) (h : skills1.Perm skills2) :
    CalculateOverallScore lowerCase name skills1 yearsExperience interviewScore
        culturalFitScore technicalScore canExitVim knowsGo debugsInProduction
      = CalculateOverallScore lowerCase name skills2 yearsExperience interviewScore
          culturalFitScore technicalScore canExitVim knowsGo debugsInProduction
    ∧ (∀ skill, ContainsSkill lowerCase skills1 skill = ContainsSkill lowerCase skills2 skill)
    ∧ skills1.length = skills2.length := by
  refine ⟨?_, ContainsSkill_perm lowerCase h, h.length_eq⟩
  rw [CalculateOverallScore_eq_scoreFromWeighted, CalculateOverallScore_eq_scoreFromWeighted]
  unfold scoreFromWeighted
  rw [ContainsSkill_perm lowerCase h "Java", ContainsSkill_perm lowerCase h "JavaScript",
    ContainsSkill_perm lowerCase h "TypeScript", h.length_eq]

/-- C30 (witness): the skills Java, JavaScript, React in two different orders give the same
score. -/
theorem CalculateOverallScore_perm_witness :
    CalculateOverallScore id "Test User" ["Java", "JavaScript", "React"] 5 (F64.fin 70)
        (F64.fin 70) (F64.fin 70) false false true
      = CalculateOverallScore id "Test User" ["React", "Java", "JavaScript"] 5 (F64.fin 70)
          (F64.fin 70) (F64.fin 70) false false true :=
  (CalculateOverallScore_perm id "Test User" ["Java", "JavaScript", "React"]
    ["React", "Java", "JavaScript"] 5 (F64.fin 70) (F64.fin 70) (F64.fin 70) false false true
    (by decide)).1

/-- C23: the experience boost is capped at 7 years: for every yearsExperience >= 7 and all
other arguments fixed, `CalculateOverallScore` returns the same value as for
yearsExperience = 7; for such years the boost `min(0.5*years, 3.5)` is 3.5. -/
theorem experience_boost_capped (name : String) (skills : List String) (yearsExperience : Int)
    (interviewScore culturalFitScore technicalScore : F64)
    (canExitVim knowsGo debugsInProduction : Bool) (h : yearsExperience ≥ 7) :
    CalculateOverallScore lowerCase name skills yearsExperience interviewScore culturalFitScore
        technicalScore canExitVim knowsGo debugsInProduction
      = CalculateOverallScore lowerCase name skills 7 interviewScore culturalFitScore
          technicalScore canExitVim knowsGo debugsInProduction
    ∧ F64.Min (F64.ofInt yearsExperience * F64.fin 0.5) (F64.fin 3.5) = F64.fin 3.5 := by
  have hb := boost_cap h
  have hb7 : F64.Min (F64.ofInt 7 * F64.fin 0.5) (F64.fin 3.5) = F64.fin 3.5 :=
    boost_cap (le_refl 7)
  refine ⟨?_, hb⟩
  have h2 : yearsExperience > 2 := by omega
  have h72 : (7 : Int) > 2 := by decide
  simp only [CalculateOverallScore, hb, hb7, h2, h72]

/-- C23 (witness): 10 years of experience, as in the test "Experience boost (diminishing
returns)", score like 7 years. -/
theorem experience_boost_capped_witness :
    CalculateOverallScore id "Frank Senior" ["Go"] 10 (F64.fin 70) (F64.fin 70) (F64.fin 70)
        false true true
      = CalculateOverallScore id "Frank Senior" ["Go"] 7 (F64.fin 70) (F64.fin 70) (F64.fin 70)
          false true true :=
  (experience_boost_capped id "Frank Senior" ["Go"] 10 (F64.fin 70) (F64.fin 70) (F64.fin 70)
    false true true (by decide)).1

/-- With knowsGo=true no penalty applies: the value that reaches the clamp is the weighted sum
with the additive adjustments. -/
theorem scoreBeforeClamp_knowsGo (skills : List String) (yearsExperience : Int)
    (i c t : F64) (canExitVim debugsInProduction : Bool) :
    scoreBeforeClamp lowerCase skills yearsExperience i c t canExitVim true debugsInProduction
      = specAdjusted canExitVim debugsInProduction yearsExperience skills.length
          (specWeighted i c t) := by
  rw [scoreBeforeClamp_eq_scoreFromWeighted]
  simp only [scoreFromWeighted, Bool.not_true, Bool.and_false, Bool.false_eq_true, if_false]

/-- C28: knowing Go never lowers the score: for all inputs whose three sub-scores are `>= 0`
(yearsExperience being an `int32`, as in the source), and all other arguments fixed,
`CalculateOverallScore` with knowsGo=true is `>=` `CalculateOverallScore` with knowsGo=false;
and with knowsGo=true two skills lists of the same length give the same score. -/
theorem knowing_go_never_lowers (name : String) (skills skills2 : List String)
    (yearsExperience : Int) (interviewScore culturalFitScore technicalScore : F64)
    (canExitVim debugsInProduction : Bool) :
    (-2147483648 ≤ yearsExperience → yearsExperience ≤ 2147483647 →
      F64.le (F64.fin 0) interviewScore = true → F64.le (F64.fin 0) culturalFitScore = true →
      F64.le (F64.fin 0) technicalScore = true →
      F64.ge
        (CalculateOverallScore lowerCase name skills yearsExperience interviewScore
          culturalFitScore technicalScore canExitVim true debugsInProduction)
        (CalculateOverallScore lowerCase name skills yearsExperience interviewScore
          culturalFitScore technicalScore canExitVim false debugsInProduction) = true)
    ∧ (skills.length = skills2.length →
      CalculateOverallScore lowerCase name skills yearsExperience interviewScore
          culturalFitScore technicalScore canExitVim true debugsInProduction
        = CalculateOverallScore lowerCase name skills2 yearsExperience interviewScore
            culturalFitScore technicalScore canExitVim true debugsInProduction) := by
  constructor
  · intro hy1 hy2 hi hc ht
    unfold F64.ge
    rw [CalculateOverallScore_eq_scoreFromWeighted, CalculateOverallScore_eq_scoreFromWeighted]
    have hW := specWeighted_nonneg interviewScore culturalFitScore technicalScore hi hc ht
    have hWr := specWeighted_rounded interviewScore culturalFitScore technicalScore
    generalize specWeighted interviewScore culturalFitScore technicalScore = W at hW hWr
    have hboost := boost_fin hy1 hy2
    unfold scoreFromWeighted
    simp only [Bool.not_true, Bool.and_false, Bool.false_eq_true, if_false, Bool.not_false,
      Bool.and_true]
    -- the Java penalty does not raise the weighted sum
    have h0 : F64.le (if ContainsSkill lowerCase skills "Java" = true then W * F64.lit 0.7
        else W) W = true := by
      split_ifs
      · rw [lit_07]
        exact F64.mul_fin_le_self (by norm_num) (by norm_num) hW hWr
      · exact F64.le_self (F64.ne_nan_of_le_right hW)
    have h1 := specAdjusted_mono canExitVim debugsInProduction yearsExperience skills.length
      hboost h0
    have hr := specAdjusted_rounded canExitVim debugsInProduction yearsExperience skills.length
      (if ContainsSkill lowerCase skills "Java" = true then W * F64.lit 0.7 else W)
    generalize specAdjusted canExitVim debugsInProduction yearsExperience skills.length
      (if ContainsSkill lowerCase skills "Java" = true then W * F64.lit 0.7 else W) = bF
      at h1 hr ⊢
    generalize specAdjusted canExitVim debugsInProduction yearsExperience skills.length W = bT
      at h1 ⊢
    have hT : bT ≠ F64.nan := F64.ne_nan_of_le_right h1
    have hF : bF ≠ F64.nan := F64.ne_nan_of_le_left h1
    generalize (ContainsSkill lowerCase skills "JavaScript"
      && !ContainsSkill lowerCase skills "TypeScript") = bS
    cases bS
    · simpa using clampAndRound_mono h1
    · simp only [if_true]
      rcases F64.le_total_of_ne_nan (F64.noConfusion : F64.fin 0 ≠ F64.nan) hF with h | h
      · have h2 := F64.mul_fin_le_self (by norm_num : (0 : ℚ) < 0.75) (by norm_num) h hr
        exact clampAndRound_mono (F64.le_trans' h2 h1)
      · have h2 := F64.mul_fin_mono h (by norm_num : (0 : ℚ) < 0.75)
        rw [F64.zero_mul_fin] at h2
        rw [clampAndRound_of_le_zero h2]
        exact clampAndRound_nonneg hT
  · intro hlen
    rw [CalculateOverallScore_eq_clampAndRound, CalculateOverallScore_eq_clampAndRound,
      scoreBeforeClamp_knowsGo, scoreBeforeClamp_knowsGo, hlen]

/-- C28 (witness): the Java and JavaScript developer of sub-scores 70 scores at least as much
with knowsGo=true as with knowsGo=false, and with knowsGo=true as much as a Go and Docker
developer. -/
theorem knowing_go_never_lowers_witness :
    F64.ge
      (CalculateOverallScore id "Test User" ["Java", "JavaScript"] 5 (F64.fin 70) (F64.fin 70)
        (F64.fin 70) false true true)
      (CalculateOverallScore id "Test User" ["Java", "JavaScript"] 5 (F64.fin 70) (F64.fin 70)
        (F64.fin 70) false false true) = true
    ∧ CalculateOverallScore id "Test User" ["Java", "JavaScript"] 5 (F64.fin 70) (F64.fin 70)
        (F64.fin 70) false true true
      = CalculateOverallScore id "Test User" ["Go", "Docker"] 5 (F64.fin 70) (F64.fin 70)
          (F64.fin 70) false true true :=
  ⟨(knowing_go_never_lowers id "Test User" ["Java", "JavaScript"] ["Go", "Docker"] 5
      (F64.fin 70) (F64.fin 70) (F64.fin 70) false true).1 (by decide) (by decide) (by decide)
      (by decide) (by decide),
    (knowing_go_never_lowers id "Test User" ["Java", "JavaScript"] ["Go", "Docker"] 5
      (F64.fin 70) (F64.fin 70) (F64.fin 70) false true).2 rfl⟩

end dependenceClaims

end Applicants
